import Mathlib

/-!
Verification development for the pico-mfm-floppy firmware stack.

The definitions below are shallow embeddings of the C sources:
`src/crc.h`, `src/mfm_decode.c`, `src/mfm_encode.c`, `src/lru.c`,
`src/fat12.c`, `src/f12.c`.  Machine integers are modelled as `Nat`
with explicit `% 2^w` where overflow can matter; byte buffers are
`List Nat` or `Nat → Nat` functions; fallible code returns pairs or
`Except`-like sums.
-/

set_option maxRecDepth 10000

/-! ## CRC-16/CCITT-FALSE (crc.h)

`crc.h` declares `extern const uint16_t crc16_table[256]`; the file
defining the table (`crc.c`) is not part of `src/`.  The table is
modelled from the spec: polynomial x^16+x^12+x^5+1 (0x1021),
reflected-input = false, which is the standard CRC-16/CCITT-FALSE
table: entry `n` is the result of shifting `n << 8` through eight
polynomial-division steps. -/

/-- One polynomial-division step of the CRC-16 register. -/
def crc16_stepBit (c : Nat) : Nat :=
  if 32768 ≤ c then ((c * 2) ^^^ 0x1021) % 65536 else (c * 2) % 65536

/-- Modelled from the spec: `crc16_table[n]` for the CRC-16/CCITT-FALSE
polynomial 0x1021 (the defining `crc.c` is absent from `src/`). -/
def crc16_tableEntry (n : Nat) : Nat :=
  crc16_stepBit (crc16_stepBit (crc16_stepBit (crc16_stepBit
    (crc16_stepBit (crc16_stepBit (crc16_stepBit (crc16_stepBit ((n % 256) * 256))))))))

/-- `crc16_update` from `crc.h`:
`(crc << 8) ^ crc16_table[((crc >> 8) ^ byte) & 0xFF]` in `uint16`. -/
def crc16_update (crc b : Nat) : Nat :=
  ((crc <<< 8) ^^^ crc16_tableEntry (((crc >>> 8) ^^^ b) % 256)) % 65536

/-- `crc16` from `crc.h`: fold `crc16_update` over the data. -/
def crc16_list (data : List Nat) (init : Nat) : Nat :=
  data.foldl crc16_update init

/-- `crc16_mfm` from `crc.h`: seed 0xFFFF, then three 0xA1 bytes, then the data. -/
def crc16_mfm (data : List Nat) : Nat :=
  crc16_list data (crc16_update (crc16_update (crc16_update 0xFFFF 0xA1) 0xA1) 0xA1)

/-- The CRC register value right after the three sync bytes
(`0xFFFF` updated with `A1 A1 A1`), as `mfm_feed` sets it on sync. -/
def crcA1x3 : Nat := crc16_update (crc16_update (crc16_update 0xFFFF 0xA1) 0xA1) 0xA1

/-! ## Shared sector / track structures (floppy.h) -/

/-- `sector_t` from `floppy.h`.  `data` holds the payload bytes; on a
decoder emission it holds exactly the bytes `mfm_feed` copies out. -/
structure Sector where
  track : Nat := 0
  side : Nat := 0
  sector_n : Nat := 0
  size_code : Nat := 0
  size : Nat := 0
  data : List Nat := []
  valid : Bool := false
deriving Repr, DecidableEq

/-- `track_t` from `floppy.h`: 18 sectors plus coordinates. -/
structure Track where
  sectors : List Sector := []
  track : Nat := 0
  side : Nat := 0
deriving Repr, DecidableEq

/-! ## MFM decoder (mfm_decode.c) -/

/-- `mfm_state_t`. -/
inductive MfmState where
  | hunt | syncing | data | clock
deriving Repr, DecidableEq

/-- `mfm_t` from `mfm_decode.h`.  The C record buffer is a 528-byte
array indexed by `buf_pos`; since `buf_pos` counts exactly the stored
bytes, buffer and position are modelled together as the list `buf`
(`buf_pos = buf.length`). -/
structure Mfm where
  state : MfmState := .hunt
  T2_max : Nat := 0
  T3_max : Nat := 0
  short_count : Nat := 0
  sync_stage : Nat := 0
  byte_acc : Nat := 0
  bit_count : Nat := 0
  buf : List Nat := []
  bytes_expected : Nat := 0
  crc : Nat := 0
  pending_track : Nat := 0
  pending_side : Nat := 0
  pending_sector : Nat := 0
  pending_size_code : Nat := 0
  have_pending_addr : Bool := false
  syncs_found : Nat := 0
  sectors_read : Nat := 0
  crc_errors : Nat := 0
deriving Repr, DecidableEq

/-- `#define MFM_MIN_PREAMBLE 60`. -/
def MFM_MIN_PREAMBLE : Nat := 60

/-- `mfm_init`: zeroed state, `HUNT`, thresholds 57 / 82. -/
def mfm_init : Mfm :=
  { state := .hunt, T2_max := 57, T3_max := 82 }

/-- `mfm_reset`: back to `HUNT`, clearing `short_count` and `sync_stage`. -/
def mfm_reset (m : Mfm) : Mfm :=
  { m with state := .hunt, short_count := 0, sync_stage := 0 }

/-- `mfm_classify`: 0 = Short, 1 = Medium, 2 = Long, `none` = invalid. -/
def mfm_classify (m : Mfm) (delta : Nat) : Option Nat :=
  if delta < 35 then none
  else if delta ≤ m.T2_max then some 0
  else if delta ≤ m.T3_max then some 1
  else if delta < 120 then some 2
  else none

/-- `mfm_push_bit`: shift the bit into `byte_acc` (uint8); on the 8th
bit store the byte (if the 528-byte buffer has room) and update the CRC. -/
def mfm_push_bit (m : Mfm) (bit : Bool) : Mfm :=
  let acc := (m.byte_acc * 2 + (if bit then 1 else 0)) % 256
  if 8 ≤ m.bit_count + 1 then
    { m with
      buf := if m.buf.length < 528 then m.buf ++ [acc] else m.buf,
      crc := crc16_update m.crc acc,
      bit_count := 0, byte_acc := 0 }
  else
    { m with byte_acc := acc, bit_count := m.bit_count + 1 }

/-- The fixed 15-pulse sync pattern `M L M L M S L M L M S L M L M`. -/
def sync_pattern : List Nat := [1,2,1,2,1,0,2,1,2,1,0,2,1,2,1]

/-- The `check_record` completion half: fires when a full record is in
the buffer (`mfm_decode.c` lines 167-211). -/
def mfm_check_complete (m : Mfm) : Mfm × Option Sector :=
  if 0 < m.bytes_expected ∧ m.bytes_expected ≤ m.buf.length then
    let mark := m.buf.headD 0
    let crc_ok := m.crc = 0
    if mark = 0xFE then
      if crc_ok then
        (mfm_reset { m with
            pending_track := m.buf.getD 1 0
            pending_side := m.buf.getD 2 0
            pending_sector := m.buf.getD 3 0
            pending_size_code :=
              (if 2 < m.buf.getD 4 0 % 4 then 2 else m.buf.getD 4 0 % 4)
            have_pending_addr := true }, none)
      else
        (mfm_reset { m with
            crc_errors := m.crc_errors + 1
            have_pending_addr := false }, none)
    else if (mark = 0xFB ∨ mark = 0xFA) ∧ m.have_pending_addr then
      let size := (128 <<< m.pending_size_code) % 65536
      let copy0 := if 512 < size then 512 else size
      let copy_size := if m.buf.length - 1 < copy0 then m.buf.length - 1 else copy0
      let out : Sector :=
        { track := m.pending_track
          side := m.pending_side
          sector_n := m.pending_sector
          size_code := m.pending_size_code
          size := size
          valid := crc_ok
          data := (m.buf.drop 1).take copy_size }
      (mfm_reset { m with
          sectors_read := m.sectors_read + 1
          crc_errors := if crc_ok then m.crc_errors else m.crc_errors + 1
          have_pending_addr := false }, some out)
    else
      (mfm_reset m, none)
  else (m, none)

/-- The `check_record` label of `mfm_feed`: determine `bytes_expected`
from the mark byte when it has just been stored, then check completion. -/
def mfm_check_record (m : Mfm) : Mfm × Option Sector :=
  if m.buf.length = 1 ∧ m.bytes_expected = 0 then
    let mark := m.buf.headD 0
    if mark = 0xFE then
      mfm_check_complete { m with bytes_expected := 7 }
    else if mark = 0xFB ∨ mark = 0xFA then
      mfm_check_complete { m with bytes_expected :=
        if m.have_pending_addr then 1 + ((128 <<< m.pending_size_code) % 65536) + 2
        else 515 }
    else
      (mfm_reset m, none)
  else mfm_check_complete m

/-- The decoder step after classification (`switch (m->state)` in
`mfm_feed`).  `p` is the pulse class 0/1/2. -/
def mfm_feed_class (m : Mfm) (p : Nat) : Mfm × Option Sector :=
  match m.state with
  | .hunt =>
      if p = 0 then
        ({ m with short_count := (m.short_count + 1) % 65536 }, none)
      else
        if MFM_MIN_PREAMBLE ≤ m.short_count then
          if p = 1 then
            ({ m with state := .syncing, sync_stage := 1, short_count := 0 }, none)
          else
            ({ m with state := .hunt, sync_stage := 0, short_count := 0 }, none)
        else
          ({ m with short_count := 0 }, none)
  | .syncing =>
      -- `sync_pattern[m->sync_stage]`; in reachable states the stage is
      -- ≤ 14, an out-of-range read is modelled as a non-matching value.
      if p = sync_pattern.getD m.sync_stage 3 then
        if 15 ≤ m.sync_stage + 1 then
          ({ m with
              state := .data
              sync_stage := m.sync_stage + 1
              syncs_found := m.syncs_found + 1
              byte_acc := 0
              bit_count := 0
              buf := []
              bytes_expected := 0
              crc := crcA1x3 }, none)
        else
          ({ m with sync_stage := m.sync_stage + 1 }, none)
      else
        if p = 0 then
          ({ m with short_count := 1, state := .hunt }, none)
        else
          ({ m with state := .hunt }, none)
  | .data =>
      match p with
      | 0 => mfm_check_record (mfm_push_bit m true)
      | 1 =>
          let m1 := mfm_push_bit (mfm_push_bit m false) false
          mfm_check_record { m1 with state := .clock }
      | _ => mfm_check_record (mfm_push_bit (mfm_push_bit m false) true)
  | .clock =>
      match p with
      | 0 => mfm_check_record (mfm_push_bit m false)
      | 1 =>
          let m1 := mfm_push_bit m true
          mfm_check_record { m1 with state := .data }
      | _ => (mfm_reset m, none)

/-- `mfm_feed`: classify the delta, ignore invalid pulses, otherwise
run the state machine step. -/
def mfm_feed (m : Mfm) (delta : Nat) : Mfm × Option Sector :=
  match mfm_classify m delta with
  | none => (m, none)
  | some p => mfm_feed_class m p

/-- Feed a list of deltas, collecting every emitted sector in order. -/
def mfm_run (m : Mfm) : List Nat → Mfm × List Sector
  | [] => (m, [])
  | d :: ds =>
      let st := mfm_feed m d
      let rest := mfm_run st.1 ds
      (rest.1, (match st.2 with | none => [] | some s => [s]) ++ rest.2)

/-- Feed a list of pulse classes (post-classification), collecting
emissions; the classified counterpart of `mfm_run`. -/
def mfm_runC (m : Mfm) : List Nat → Mfm × List Sector
  | [] => (m, [])
  | p :: ps =>
      let st := mfm_feed_class m p
      let rest := mfm_runC st.1 ps
      (rest.1, (match st.2 with | none => [] | some s => [s]) ++ rest.2)

/-! ## MFM encoder (mfm_encode.c) -/

/-- `MFM_PULSE_SHORT` = 48 − 19. -/
def MFM_PULSE_SHORT : Nat := 29
/-- `MFM_PULSE_MEDIUM` = 72 − 19. -/
def MFM_PULSE_MEDIUM : Nat := 53
/-- `MFM_PULSE_LONG` = 96 − 19. -/
def MFM_PULSE_LONG : Nat := 77
/-- `MFM_PIO_OVERHEAD`. -/
def MFM_PIO_OVERHEAD : Nat := 19

/-- `mfm_encode_t`: output buffer (with capacity `size`), previous data
bit, and pending half-cells. -/
structure MfmEnc where
  size : Nat := 0
  buf : List Nat := []
  prev_bit : Bool := false
  pending_cells : Nat := 0
deriving Repr, DecidableEq

/-- `mfm_encode_init`. -/
def mfm_encode_init (size : Nat) : MfmEnc :=
  { size := size, buf := [], prev_bit := false, pending_cells := 0 }

/-- `mfm_encode_pulse`: append a timing value if the buffer has room. -/
def mfm_encode_pulse (e : MfmEnc) (timing : Nat) : MfmEnc :=
  if e.buf.length < e.size then { e with buf := e.buf ++ [timing] } else e

/-- `mfm_encode_emit`: emit a pulse for the pending half-cells. -/
def mfm_encode_emit (e : MfmEnc) : MfmEnc :=
  let e' :=
    if e.pending_cells ≤ 1 then mfm_encode_pulse e MFM_PULSE_SHORT
    else if e.pending_cells = 2 then mfm_encode_pulse e MFM_PULSE_MEDIUM
    else mfm_encode_pulse e MFM_PULSE_LONG
  { e' with pending_cells := 0 }

/-- The body of the inner bit loop of `mfm_encode_bytes`. -/
def mfm_encode_bit (e : MfmEnc) (data_bit : Bool) : MfmEnc :=
  let clock_bit := !e.prev_bit && !data_bit
  let e1 := if clock_bit then mfm_encode_emit e
            else { e with pending_cells := e.pending_cells + 1 }
  let e2 := if data_bit then mfm_encode_emit e1
            else { e1 with pending_cells := e1.pending_cells + 1 }
  { e2 with prev_bit := data_bit }

/-- MSB-first bits of a byte, as the loop `for bit_idx = 7 .. 0` sees them. -/
def byteBits (b : Nat) : List Bool :=
  [b.testBit 7, b.testBit 6, b.testBit 5, b.testBit 4,
   b.testBit 3, b.testBit 2, b.testBit 1, b.testBit 0]

/-- All bits of a byte list, MSB-first per byte. -/
def bytesBits (bs : List Nat) : List Bool :=
  bs.flatMap byteBits

/-- `mfm_encode_bytes`. -/
def mfm_encode_bytes (e : MfmEnc) (data : List Nat) : MfmEnc :=
  (bytesBits data).foldl mfm_encode_bit e

/-- The literal sync pulse values `M L M L M S L M L M S L M L M`. -/
def sync_pulses : List Nat :=
  [MFM_PULSE_MEDIUM, MFM_PULSE_LONG, MFM_PULSE_MEDIUM, MFM_PULSE_LONG, MFM_PULSE_MEDIUM,
   MFM_PULSE_SHORT,
   MFM_PULSE_LONG, MFM_PULSE_MEDIUM, MFM_PULSE_LONG, MFM_PULSE_MEDIUM,
   MFM_PULSE_SHORT,
   MFM_PULSE_LONG, MFM_PULSE_MEDIUM, MFM_PULSE_LONG, MFM_PULSE_MEDIUM]

/-- `mfm_encode_sync`: 12 zero bytes, the 15 literal sync pulses, then
`prev_bit = 1`, `pending_cells = 0`. -/
def mfm_encode_sync (e : MfmEnc) : MfmEnc :=
  let e1 := mfm_encode_bytes e (List.replicate 12 0)
  let e2 := sync_pulses.foldl mfm_encode_pulse e1
  { e2 with prev_bit := true, pending_cells := 0 }

/-- `mfm_encode_gap`: `count` bytes of 0x4E. -/
def mfm_encode_gap (e : MfmEnc) (count : Nat) : MfmEnc :=
  (List.range count).foldl (fun e _ => mfm_encode_bytes e [0x4E]) e

/-- `mfm_encode_sector`: sync + address record + gap2 + sync + data record. -/
def mfm_encode_sector (e : MfmEnc) (s : Sector) : MfmEnc :=
  let addr := [0xFE, s.track, s.side, s.sector_n, 0x02]
  let addr_crc := crc16_mfm addr
  let e1 := mfm_encode_sync e
  let e2 := mfm_encode_bytes e1 addr
  let e3 := mfm_encode_bytes e2 [addr_crc >>> 8, addr_crc % 256]
  let e4 := mfm_encode_gap e3 22
  let data_crc := crc16_list s.data (crc16_update crcA1x3 0xFB)
  let e5 := mfm_encode_sync e4
  let e6 := mfm_encode_bytes e5 [0xFB]
  let e7 := mfm_encode_bytes e6 s.data
  mfm_encode_bytes e7 [data_crc >>> 8, data_crc % 256]

/-- `mfm_encode_track`: gap 4a (80 bytes), then 18 sectors each
followed by a 54-byte gap 3. -/
def mfm_encode_track (e : MfmEnc) (t : Track) : MfmEnc :=
  let e1 := mfm_encode_gap e 80
  (List.range 18).foldl
    (fun e i => mfm_encode_gap (mfm_encode_sector e (t.sectors.getD i {})) 54) e1

/-! ## Basic decoder lemmas -/

theorem mfm_push_bit_T2 (m : Mfm) (b : Bool) : (mfm_push_bit m b).T2_max = m.T2_max := by
  simp only [mfm_push_bit]; split <;> rfl

theorem mfm_push_bit_T3 (m : Mfm) (b : Bool) : (mfm_push_bit m b).T3_max = m.T3_max := by
  simp only [mfm_push_bit]; split <;> rfl

theorem mfm_push_bit_state (m : Mfm) (b : Bool) : (mfm_push_bit m b).state = m.state := by
  simp only [mfm_push_bit]; split <;> rfl

theorem mfm_reset_T2 (m : Mfm) : (mfm_reset m).T2_max = m.T2_max := rfl

theorem mfm_reset_T3 (m : Mfm) : (mfm_reset m).T3_max = m.T3_max := rfl

theorem mfm_check_complete_T2 (m : Mfm) : (mfm_check_complete m).1.T2_max = m.T2_max := by
  simp only [mfm_check_complete]
  repeat' split
  all_goals rfl

theorem mfm_check_complete_T3 (m : Mfm) : (mfm_check_complete m).1.T3_max = m.T3_max := by
  simp only [mfm_check_complete]
  repeat' split
  all_goals rfl

theorem mfm_check_record_T2 (m : Mfm) : (mfm_check_record m).1.T2_max = m.T2_max := by
  simp only [mfm_check_record]
  repeat' split
  all_goals first
    | rfl
    | (rw [mfm_check_complete_T2])

theorem mfm_check_record_T3 (m : Mfm) : (mfm_check_record m).1.T3_max = m.T3_max := by
  simp only [mfm_check_record]
  repeat' split
  all_goals first
    | rfl
    | (rw [mfm_check_complete_T3])

theorem mfm_feed_class_T2 (m : Mfm) (p : Nat) :
    (mfm_feed_class m p).1.T2_max = m.T2_max := by
  rcases m with ⟨st, t2, t3, sc, ss, ba, bc, buf, be, crc, pt, psd, psec, psc, hpa, sf, sr, ce⟩
  cases st
  all_goals simp only [mfm_feed_class]
  all_goals repeat' split
  all_goals first
    | rfl
    | (rw [mfm_check_record_T2]; simp [mfm_push_bit_T2])

theorem mfm_feed_class_T3 (m : Mfm) (p : Nat) :
    (mfm_feed_class m p).1.T3_max = m.T3_max := by
  rcases m with ⟨st, t2, t3, sc, ss, ba, bc, buf, be, crc, pt, psd, psec, psc, hpa, sf, sr, ce⟩
  cases st
  all_goals simp only [mfm_feed_class]
  all_goals repeat' split
  all_goals first
    | rfl
    | (rw [mfm_check_record_T3]; simp [mfm_push_bit_T3])

theorem mfm_feed_T2 (m : Mfm) (d : Nat) : (mfm_feed m d).1.T2_max = m.T2_max := by
  unfold mfm_feed
  cases mfm_classify m d
  · rfl
  · exact mfm_feed_class_T2 m _

theorem mfm_feed_T3 (m : Mfm) (d : Nat) : (mfm_feed m d).1.T3_max = m.T3_max := by
  unfold mfm_feed
  cases mfm_classify m d
  · rfl
  · exact mfm_feed_class_T3 m _

/-! ## Claim C2: the two-state bit-decode table -/

/-- C2: after sync, the decoder maps each classified pulse to data bits
per the two-state table.  In `DATA`: Short pushes bit 1 keeping state
`DATA`; Medium pushes 0,0 moving to `CLOCK`; Long pushes 0,1 keeping
`DATA`.  In `CLOCK`: Short pushes 0 keeping `CLOCK`; Medium pushes 1
moving to `DATA`; Long pushes no bits and resets the decoder to `HUNT`.
Stated exactly as the source composes the step: the pushed bits
(`mfm_push_bit`), the next bit-decode state, then the `check_record`
label. -/
theorem C2_bit_decode_table (m : Mfm) :
    (m.state = .data →
      mfm_feed_class m 0 = mfm_check_record (mfm_push_bit m true) ∧
      (mfm_push_bit m true).state = .data ∧
      mfm_feed_class m 1 =
        mfm_check_record
          { mfm_push_bit (mfm_push_bit m false) false with state := .clock } ∧
      mfm_feed_class m 2 =
        mfm_check_record (mfm_push_bit (mfm_push_bit m false) true) ∧
      (mfm_push_bit (mfm_push_bit m false) true).state = .data) ∧
    (m.state = .clock →
      mfm_feed_class m 0 = mfm_check_record (mfm_push_bit m false) ∧
      (mfm_push_bit m false).state = .clock ∧
      mfm_feed_class m 1 =
        mfm_check_record { mfm_push_bit m true with state := .data } ∧
      mfm_feed_class m 2 = (mfm_reset m, none) ∧
      (mfm_reset m).state = .hunt ∧ (mfm_reset m).buf = m.buf) := by
  constructor
  · intro h
    refine ⟨?_, ?_, ?_, ?_, ?_⟩ <;>
      simp [mfm_feed_class, h, mfm_push_bit_state]
  · intro h
    refine ⟨?_, ?_, ?_, ?_, ?_, ?_⟩ <;>
      simp [mfm_feed_class, h, mfm_push_bit_state, mfm_reset]

/-- Witness for C2 at concrete decoder states. -/
theorem C2_bit_decode_table_witness :
    mfm_feed_class { mfm_init with state := .data } 0
      = mfm_check_record (mfm_push_bit { mfm_init with state := .data } true) ∧
    mfm_feed_class { mfm_init with state := .clock } 2
      = (mfm_reset { mfm_init with state := .clock }, none) :=
  ⟨((C2_bit_decode_table { mfm_init with state := .data }).1 rfl).1,
   ((C2_bit_decode_table { mfm_init with state := .clock }).2 rfl).2.2.2.1⟩

/-! ## Claim C3: the decoder thresholds do NOT adapt -/

/-- C3 counterexample.  Scenario prescribed by the claim: from
`mfm_init`, a 96-pulse Short preamble of delta 48 (so the claimed lock
would set `t_cell = 48`), the full sync pattern (reaching `DATA`), then
a Short delta 48 — within ±12.5 % of the claimed `t_cell` — arrives in
`DATA`.  The claim requires `T2_max = t_cell × 5/4 = 60` and
`T3_max = t_cell × 7/4 = 84` after either the lock or the slew; the
code leaves the thresholds at their `mfm_init` values 57 and 82. -/
theorem C3_counterexample :
    (mfm_run mfm_init (List.replicate 96 48 ++
        [72,96,72,96,72,48,96,72,96,72,48,96,72,96,72])).1.state = MfmState.data ∧
    (mfm_run mfm_init ((List.replicate 96 48 ++
        [72,96,72,96,72,48,96,72,96,72,48,96,72,96,72]) ++ [48])).1.T2_max = 57 ∧
    (mfm_run mfm_init ((List.replicate 96 48 ++
        [72,96,72,96,72,48,96,72,96,72,48,96,72,96,72]) ++ [48])).1.T3_max = 82 ∧
    ¬ (57 = 48 * 5 / 4 ∧ 82 = 48 * 7 / 4) := by decide

/-- C3 amended: the pulse-classification thresholds never adapt.
`mfm_init` fixes `T2_max = 57`, `T3_max = 82`; no call of `mfm_feed`
ever changes them (in particular no `t_cell` slew ever recomputes
them, and no lock happens on leaving `HUNT`): when a non-Short pulse
`p` arrives in `HUNT` with `short_count ≥ 60`, the decoder merely
enters `SYNCING` at stage 1 iff `p` is a Medium (staying in `HUNT`
otherwise), zeroes `short_count`, and keeps both thresholds. -/
theorem C3_no_threshold_adaptation :
    mfm_init.T2_max = 57 ∧ mfm_init.T3_max = 82 ∧
    (∀ (m : Mfm) (d : Nat),
      (mfm_feed m d).1.T2_max = m.T2_max ∧ (mfm_feed m d).1.T3_max = m.T3_max) ∧
    (∀ (m : Mfm) (p : Nat), m.state = .hunt → 60 ≤ m.short_count → p ≠ 0 →
      (mfm_feed_class m p).1.state
          = (if p = 1 then MfmState.syncing else MfmState.hunt) ∧
      (mfm_feed_class m p).1.sync_stage = (if p = 1 then 1 else 0) ∧
      (mfm_feed_class m p).1.short_count = 0 ∧
      (mfm_feed_class m p).1.T2_max = m.T2_max ∧
      (mfm_feed_class m p).1.T3_max = m.T3_max) := by
  refine ⟨rfl, rfl, fun m d => ⟨mfm_feed_T2 m d, mfm_feed_T3 m d⟩, ?_⟩
  intro m p hst hsc hp
  have h60 : MFM_MIN_PREAMBLE ≤ m.short_count := hsc
  by_cases h1 : p = 1 <;>
    simp [mfm_feed_class, hst, hp, h60, h1]

/-- Witness for C3 at a concrete state and pulse. -/
theorem C3_no_threshold_adaptation_witness :
    (mfm_feed_class { mfm_init with short_count := 60 } 1).1.state
        = MfmState.syncing ∧
    (mfm_feed_class { mfm_init with short_count := 60 } 1).1.sync_stage = 1 := by
  have h := C3_no_threshold_adaptation.2.2.2
      { mfm_init with short_count := 60 } 1 rfl (by decide) (by decide)
  exact ⟨by simpa using h.1, by simpa using h.2.1⟩

/-! ## LRU sector cache (lru.c)

The C cache is a fixed array of entry headers (key, occupied flag,
`prev`/`next` pointers) with a separate `head`/`tail`.  The doubly
linked recency list is represented here by `order`, the list of slot
indices in most-recently-used-first order: `head` is `order.head?`,
`tail` is `order.getLast?`, `lru_unlink i` is `order.erase i` and
`lru_push_front i` is `i :: order`.  Values are the byte lists the C
call sites copy in (`elem_size` bytes each). -/

/-- One cache slot: `lru_entry_t` header plus its value storage. -/
structure LruEntry where
  key : Nat := 0
  occupied : Bool := false
  value : List Nat := []
deriving Repr, DecidableEq

/-- `lru_t`. -/
structure Lru where
  max_entries : Nat := 0
  elem_size : Nat := 0
  storage : List LruEntry := []
  order : List Nat := []
  count : Nat := 0
deriving Repr, DecidableEq

/-- `lru_entry_at`: the slot at a given index. -/
def lru_entry_at (st : List LruEntry) (i : Nat) : LruEntry :=
  st.getD i {}

theorem lru_entry_at_zero (e : LruEntry) (rest : List LruEntry) :
    lru_entry_at (e :: rest) 0 = e := rfl

theorem lru_entry_at_succ (e : LruEntry) (rest : List LruEntry) (t : Nat) :
    lru_entry_at (e :: rest) (t + 1) = lru_entry_at rest t := rfl

/-- `lru_init`: pre-allocated zeroed storage, empty recency list. -/
def lru_init (max_entries elem_size : Nat) : Lru :=
  { max_entries := max_entries, elem_size := elem_size,
    storage := List.replicate max_entries {}, order := [], count := 0 }

/-- The match test of the `lru_find` scan loop:
`entry->occupied && entry->key == key`. -/
def lruMatch (e : LruEntry) (key : Nat) : Bool :=
  e.occupied && e.key == key

/-- The scan loop of `lru_find`: first slot (by index) that is occupied
and carries `key`; `i` is the index of the head of `st`. -/
def lru_scan : List LruEntry → Nat → Nat → Option Nat
  | [], _, _ => none
  | e :: rest, key, i =>
      if lruMatch e key then some i else lru_scan rest key (i + 1)

/-- `lru_find`: linear scan over the slots. -/
def lru_find (l : Lru) (key : Nat) : Option Nat :=
  lru_scan l.storage key 0

/-- The scan loop of `lru_find_free`: first unoccupied slot. -/
def lru_scan_free : List LruEntry → Nat → Option Nat
  | [], _ => none
  | e :: rest, i => if e.occupied then lru_scan_free rest (i + 1) else some i

/-- `lru_find_free`. -/
def lru_find_free (l : Lru) : Option Nat :=
  lru_scan_free l.storage 0

/-- `lru_get`: on a hit, move the entry to the front (the source
compares the entry with `lru->head`, i.e. the front of `order`) and
return its value. -/
def lru_get (l : Lru) (key : Nat) : Option (List Nat) × Lru :=
  match lru_find l key with
  | none => (none, l)
  | some i =>
      let l' := if l.order.head? = some i then l
                else { l with order := i :: l.order.erase i }
      (some (lru_entry_at l.storage i).value, l')

/-- `lru_set`: update in place on a hit; otherwise claim a free slot or
evict the tail (LRU) entry; install the key/value at the front.
`value = none` is the C `NULL` argument (zero-fill on a fresh slot). -/
def lru_set (l : Lru) (key : Nat) (value : Option (List Nat)) : Lru :=
  match lru_find l key with
  | some i =>
      let e := lru_entry_at l.storage i
      let e' := match value with
                | some v => { e with value := v }
                | none => e
      let ord := if l.order.head? = some i then l.order else i :: l.order.erase i
      { l with storage := l.storage.set i e', order := ord }
  | none =>
      let slot :=
        match lru_find_free l with
        | some i => some (i, l.order, l.count)
        | none =>
            match l.order.getLast? with
            | none => none
            | some t => some (t, l.order.erase t, l.count - 1)
      match slot with
      | none => l
      | some (i, ord, cnt) =>
          let e' : LruEntry :=
            { key := key, occupied := true,
              value := match value with
                       | some v => v
                       | none => List.replicate l.elem_size 0 }
          { l with storage := l.storage.set i e', order := i :: ord,
                   count := cnt + 1 }

/-- `lru_clear`. -/
def lru_clear (l : Lru) : Lru :=
  { l with storage := List.replicate l.storage.length {}, order := [], count := 0 }

/-- `lru_count`. -/
def lru_count (l : Lru) : Nat := l.count

/-- `lru_key` from `f12.c`: `(cyl << 16) | (head << 8) | sector`. -/
def lru_key (c h s : Nat) : Nat := ((c <<< 16) ||| (h <<< 8)) ||| s

/-- Cache well-formedness: storage sized to capacity, recency list =
the occupied slots without duplicates, occupied keys distinct, count
consistent. -/
def lruWF (l : Lru) : Prop :=
  l.storage.length = l.max_entries ∧
  l.order.Nodup ∧
  (∀ i ∈ l.order, i < l.max_entries) ∧
  (∀ i, i < l.max_entries → (i ∈ l.order ↔ (lru_entry_at l.storage i).occupied = true)) ∧
  (∀ i, i < l.max_entries → ∀ j, j < l.max_entries →
    (lru_entry_at l.storage i).occupied = true → (lru_entry_at l.storage j).occupied = true →
    (lru_entry_at l.storage i).key = (lru_entry_at l.storage j).key → i = j) ∧
  l.count = l.order.length

instance lruWF_decidable (l : Lru) : Decidable (lruWF l) := by
  unfold lruWF
  infer_instance

/-! ## LRU scan lemmas -/

theorem entry_at_set_self (st : List LruEntry) (j : Nat) (e : LruEntry) (h : j < st.length) :
    lru_entry_at (st.set j e) j = e := by
  induction st generalizing j with
  | nil => simp at h
  | cons a rest ih =>
      cases j with
      | zero => rfl
      | succ j' =>
          show lru_entry_at (rest.set j' e) j' = e
          exact ih j' (by simpa using h)

theorem entry_at_set_ne (st : List LruEntry) (j t : Nat) (e : LruEntry) (h : j ≠ t) :
    lru_entry_at (st.set j e) t = lru_entry_at st t := by
  induction st generalizing j t with
  | nil => simp [List.set, lru_entry_at]
  | cons a rest ih =>
      cases j with
      | zero =>
          cases t with
          | zero => exact absurd rfl h
          | succ t' => rfl
      | succ j' =>
          cases t with
          | zero => rfl
          | succ t' =>
              show lru_entry_at (rest.set j' e) t' = lru_entry_at rest t'
              exact ih j' t' (by omega)

theorem lru_scan_none (st : List LruEntry) (key : Nat) :
    ∀ i, (∀ t, t < st.length → lruMatch (lru_entry_at st t) key = false) →
    lru_scan st key i = none := by
  induction st with
  | nil => intro i _; rfl
  | cons e rest ih =>
      intro i h
      have h0 : lruMatch e key = false := h 0 (by simp)
      simp only [lru_scan, h0, Bool.false_eq_true, if_false]
      exact ih (i + 1) (fun t ht => h (t + 1) (by simpa using ht))

theorem lru_scan_first (st : List LruEntry) (key : Nat) :
    ∀ (i j : Nat), j < st.length →
    lruMatch (lru_entry_at st j) key = true →
    (∀ t, t < j → lruMatch (lru_entry_at st t) key = false) →
    lru_scan st key i = some (i + j) := by
  induction st with
  | nil => intro i j hj; simp at hj
  | cons e rest ih =>
      intro i j hj hm hb
      cases j with
      | zero =>
          have h0 : lruMatch e key = true := hm
          simp [lru_scan, h0]
      | succ j' =>
          have h0 : lruMatch e key = false := hb 0 (by omega)
          simp only [lru_scan, h0, Bool.false_eq_true, if_false]
          have := ih (i + 1) j' (by simpa using hj) hm
            (fun t ht => hb (t + 1) (by omega))
          rw [this]; congr 1; omega

theorem lru_scan_spec (st : List LruEntry) (key : Nat) :
    ∀ (i r : Nat), lru_scan st key i = some r →
    ∃ j, j < st.length ∧ r = i + j ∧ lruMatch (lru_entry_at st j) key = true ∧
      ∀ t, t < j → lruMatch (lru_entry_at st t) key = false := by
  induction st with
  | nil => intro i r h; simp [lru_scan] at h
  | cons e rest ih =>
      intro i r h
      by_cases h0 : lruMatch e key = true
      · refine ⟨0, by simp, ?_, h0, by omega⟩
        simp [lru_scan, h0] at h; omega
      · simp only [lru_scan, h0, Bool.false_eq_true, if_false] at h
        obtain ⟨j, hj, hr, hm, hb⟩ := ih (i + 1) r h
        refine ⟨j + 1, by simpa using hj, by omega, hm, ?_⟩
        intro t ht
        cases t with
        | zero => exact Bool.eq_false_iff.mpr h0
        | succ t' => exact hb t' (by omega)

theorem lru_scan_congr (st st' : List LruEntry) (key : Nat)
    (hlen : st.length = st'.length)
    (h : ∀ t, t < st.length → lruMatch (lru_entry_at st t) key = lruMatch (lru_entry_at st' t) key) :
    ∀ i, lru_scan st key i = lru_scan st' key i := by
  induction st generalizing st' with
  | nil => cases st' with
      | nil => intro i; rfl
      | cons b bs => simp at hlen
  | cons e rest ih =>
      cases st' with
      | nil => simp at hlen
      | cons e' rest' =>
          intro i
          have h0 : lruMatch e key = lruMatch e' key := h 0 (by simp)
          simp only [lru_scan, ← h0]
          by_cases hm : lruMatch e key = true
          · simp [hm]
          · simp only [hm, Bool.false_eq_true, if_false]
            exact ih rest' (by simpa using hlen)
              (fun t ht => h (t + 1) (by simpa using ht)) (i + 1)

theorem lru_scan_free_spec (st : List LruEntry) :
    ∀ (i r : Nat), lru_scan_free st i = some r →
    ∃ j, j < st.length ∧ r = i + j ∧ (lru_entry_at st j).occupied = false := by
  induction st with
  | nil => intro i r h; simp [lru_scan_free] at h
  | cons e rest ih =>
      intro i r h
      by_cases h0 : e.occupied = true
      · simp only [lru_scan_free, h0, if_true] at h
        obtain ⟨j, hj, hr, hocc⟩ := ih (i + 1) r h
        exact ⟨j + 1, by simpa using hj, by omega, hocc⟩
      · refine ⟨0, by simp, ?_, Bool.eq_false_iff.mpr h0⟩
        simp [lru_scan_free, h0] at h; omega

theorem lru_scan_none_spec (st : List LruEntry) (key : Nat) :
    ∀ i, lru_scan st key i = none →
    ∀ t, t < st.length → lruMatch (lru_entry_at st t) key = false := by
  induction st with
  | nil => intro i _ t ht; simp at ht
  | cons e rest ih =>
      intro i h t ht
      by_cases h0 : lruMatch e key = true
      · simp [lru_scan, h0] at h
      · cases t with
        | zero => exact Bool.eq_false_iff.mpr h0
        | succ t' =>
            simp only [lru_scan, h0, Bool.false_eq_true, if_false] at h
            exact ih (i + 1) h t' (by simpa using ht)

theorem lru_scan_free_none_spec (st : List LruEntry) :
    ∀ i, lru_scan_free st i = none →
    ∀ t, t < st.length → (lru_entry_at st t).occupied = true := by
  induction st with
  | nil => intro i _ t ht; simp at ht
  | cons e rest ih =>
      intro i h t ht
      by_cases h0 : e.occupied = true
      · cases t with
        | zero => exact h0
        | succ t' =>
            simp only [lru_scan_free, h0, if_true] at h
            exact ih (i + 1) h t' (by simpa using ht)
      · simp [lru_scan_free, h0] at h

theorem lru_tail_mem (l : List Nat) (a : Nat) (h : l.getLast? = some a) : a ∈ l := by
  obtain ⟨hne, rfl⟩ := List.mem_getLast?_eq_getLast (l := l) (x := a) (by simp [h])
  exact List.getLast_mem hne

/-- C10: sector-cache coherence.  After `set(k, v)`, `get(k)` returns a
view equal to `v`; and a `set` with a fresh key on a full cache
(`count = max_entries`) evicts exactly the tail (least-recently-used)
entry: the evicted key becomes absent, the fresh key lands in the freed
slot, and every other key still finds its slot with its entry bytes
unchanged. -/
theorem C10_lru_cache_coherence (l : Lru) (k : Nat) (v : List Nat)
    (hwf : lruWF l) (hmax : 0 < l.max_entries) :
    (lru_get (lru_set l k (some v)) k).1 = some v ∧
    (l.count = l.max_entries → lru_find l k = none →
      ∀ t, l.order.getLast? = some t →
        lru_find (lru_set l k (some v)) ((lru_entry_at l.storage t).key) = none ∧
        lru_find (lru_set l k (some v)) k = some t ∧
        (∀ k', k' ≠ (lru_entry_at l.storage t).key → k' ≠ k →
          lru_find (lru_set l k (some v)) k' = lru_find l k' ∧
          (∀ i, lru_find l k' = some i →
            lru_entry_at (lru_set l k (some v)).storage i = lru_entry_at l.storage i))) := by
  obtain ⟨hlen, hnodup, hmemlt, hocc, huniq, hcount⟩ := hwf
  constructor
  · -- set then get returns the value
    cases hfind : lru_find l k with
    | some i =>
        obtain ⟨j, hj, hij, hm, hb⟩ := lru_scan_spec l.storage k 0 i hfind
        have hij' : i = j := by omega
        subst hij'
        have hst : (lru_set l k (some v)).storage
            = l.storage.set i { lru_entry_at l.storage i with value := v } := by
          simp [lru_set, hfind]
        have hm' : lruMatch (lru_entry_at
            (l.storage.set i { lru_entry_at l.storage i with value := v }) i) k = true := by
          rw [entry_at_set_self _ _ _ hj]
          simpa [lruMatch] using hm
        have hfind' : lru_find (lru_set l k (some v)) k = some i := by
          rw [lru_find, hst]
          have := lru_scan_first (l.storage.set i
              { lru_entry_at l.storage i with value := v }) k 0 i
              (by simpa using hj) hm'
              (fun t ht => by
                rw [entry_at_set_ne _ _ _ _ (by omega)]
                exact hb t ht)
          simpa using this
        simp only [lru_get, hfind']
        rw [hst, entry_at_set_self _ _ _ hj]
    | none =>
        have hallfalse := lru_scan_none_spec l.storage k 0 hfind
        cases hfree : lru_find_free l with
        | some i =>
            obtain ⟨j, hj, hij, hoccf⟩ := lru_scan_free_spec l.storage 0 i hfree
            have hij' : i = j := by omega
            subst hij'
            have hst : (lru_set l k (some v)).storage
                = l.storage.set i { key := k, occupied := true, value := v } := by
              simp [lru_set, hfind, hfree]
            have hfind' : lru_find (lru_set l k (some v)) k = some i := by
              rw [lru_find, hst]
              have := lru_scan_first (l.storage.set i
                  { key := k, occupied := true, value := v }) k 0 i
                  (by simpa using hj)
                  (by rw [entry_at_set_self _ _ _ hj]; simp [lruMatch])
                  (fun t ht => by
                    rw [entry_at_set_ne _ _ _ _ (by omega)]
                    exact hallfalse t (by omega))
              simpa using this
            simp only [lru_get, hfind']
            rw [hst, entry_at_set_self _ _ _ hj]
        | none =>
            have halloc := lru_scan_free_none_spec l.storage 0 hfree
            cases htail : l.order.getLast? with
            | none =>
                exfalso
                have h0occ : (lru_entry_at l.storage 0).occupied = true :=
                  halloc 0 (by omega)
                have h0mem : 0 ∈ l.order := (hocc 0 hmax).mpr h0occ
                rw [List.getLast?_eq_none_iff.mp htail] at h0mem
                simp at h0mem
            | some t =>
                have htmem : t ∈ l.order := lru_tail_mem _ _ htail
                have htlt : t < l.max_entries := hmemlt t htmem
                have htlen : t < l.storage.length := by omega
                have hst : (lru_set l k (some v)).storage
                    = l.storage.set t { key := k, occupied := true, value := v } := by
                  simp [lru_set, hfind, hfree, htail]
                have hfind' : lru_find (lru_set l k (some v)) k = some t := by
                  rw [lru_find, hst]
                  have := lru_scan_first (l.storage.set t
                      { key := k, occupied := true, value := v }) k 0 t
                      (by simpa using htlen)
                      (by rw [entry_at_set_self _ _ _ htlen]; simp [lruMatch])
                      (fun u hu => by
                        rw [entry_at_set_ne _ _ _ _ (by omega)]
                        exact hallfalse u (by omega))
                  simpa using this
                simp only [lru_get, hfind']
                rw [hst, entry_at_set_self _ _ _ htlen]
  · -- full-cache eviction
    intro hfull hfind t htail
    have hallfalse := lru_scan_none_spec l.storage k 0 hfind
    have htmem : t ∈ l.order := lru_tail_mem _ _ htail
    have htlt : t < l.max_entries := hmemlt t htmem
    have htlen : t < l.storage.length := by omega
    have htocc : (lru_entry_at l.storage t).occupied = true := (hocc t htlt).mp htmem
    have hfree : lru_find_free l = none := by
      cases hf : lru_find_free l with
      | none => rfl
      | some i =>
          exfalso
          obtain ⟨j, hj, hij, hoccf⟩ := lru_scan_free_spec l.storage 0 i hf
          have hjlt : j < l.max_entries := by omega
          have hjnot : j ∉ l.order := by
            intro hmem
            rw [hocc j hjlt] at hmem
            rw [hmem] at hoccf
            exact Bool.true_eq_false.mp hoccf
          have hsub : l.order.toFinset ⊆ (Finset.range l.max_entries).erase j := by
            intro x hx
            rw [List.mem_toFinset] at hx
            refine Finset.mem_erase.mpr ⟨?_, Finset.mem_range.mpr (hmemlt x hx)⟩
            intro hxj; rw [hxj] at hx; exact hjnot hx
          have hcard := Finset.card_le_card hsub
          rw [List.toFinset_card_of_nodup hnodup] at hcard
          rw [Finset.card_erase_of_mem (Finset.mem_range.mpr hjlt),
              Finset.card_range] at hcard
          omega
    have hktne : (lru_entry_at l.storage t).key ≠ k := by
      have h1 := hallfalse t htlen
      simp only [lruMatch, htocc, Bool.true_and] at h1
      simpa using h1
    have hst : (lru_set l k (some v)).storage
        = l.storage.set t { key := k, occupied := true, value := v } := by
      simp [lru_set, hfind, hfree, htail]
    refine ⟨?_, ?_, ?_⟩
    · -- evicted key is absent
      rw [lru_find, hst]
      apply lru_scan_none
      intro u hu
      rw [List.length_set] at hu
      by_cases hut : u = t
      · subst hut
        rw [entry_at_set_self _ _ _ htlen]
        simp only [lruMatch, Bool.true_and]
        simp only [beq_eq_false_iff_ne, ne_eq]
        exact fun h => hktne h.symm
      · rw [entry_at_set_ne _ _ _ _ (fun h => hut h.symm)]
        by_cases huocc : (lru_entry_at l.storage u).occupied = true
        · have hult : u < l.max_entries := by omega
          simp only [lruMatch, huocc, Bool.true_and, beq_eq_false_iff_ne, ne_eq]
          intro hkey
          exact hut (huniq u hult t htlt huocc htocc hkey)
        · simp only [lruMatch]
          rw [Bool.eq_false_iff.mpr huocc]
          simp
    · -- fresh key lands at the tail slot
      rw [lru_find, hst]
      have := lru_scan_first (l.storage.set t
          { key := k, occupied := true, value := v }) k 0 t
          (by simpa using htlen)
          (by rw [entry_at_set_self _ _ _ htlen]; simp [lruMatch])
          (fun u hu => by
            rw [entry_at_set_ne _ _ _ _ (by omega)]
            exact hallfalse u (by omega))
      simpa using this
    · -- all other keys unchanged
      intro k' hk't hk'k
      constructor
      · rw [lru_find, lru_find, hst]
        apply lru_scan_congr
        · simp
        · intro u hu
          rw [List.length_set] at hu
          by_cases hut : u = t
          · subst hut
            rw [entry_at_set_self _ _ _ htlen]
            have hL : lruMatch { key := k, occupied := true, value := v } k' = false := by
              simp only [lruMatch, Bool.true_and, beq_eq_false_iff_ne, ne_eq]
              exact fun h => hk'k h.symm
            have hR : lruMatch (lru_entry_at l.storage u) k' = false := by
              simp only [lruMatch, htocc, Bool.true_and, beq_eq_false_iff_ne, ne_eq]
              exact fun h => hk't h.symm
            rw [hL, hR]
          · rw [entry_at_set_ne _ _ _ _ (fun h => hut h.symm)]
      · intro i hi
        obtain ⟨j, hj, hij, hm, _⟩ := lru_scan_spec l.storage k' 0 i hi
        have hij' : i = j := by omega
        subst hij'
        have hine : i ≠ t := by
          intro h
          subst h
          have hkey : (lru_entry_at l.storage i).key = k' := by
            simp only [lruMatch, Bool.and_eq_true, beq_iff_eq] at hm
            exact hm.2
          exact hk't hkey.symm
        rw [hst, entry_at_set_ne _ _ _ _ (fun h => hine h.symm)]

/-- Witness for C10 on a concrete two-slot cache filled to capacity. -/
theorem C10_lru_cache_coherence_witness :
    (lru_get (lru_set (lru_set (lru_set (lru_init 2 1) 5 (some [7])) 9 (some [8]))
        3 (some [4])) 3).1 = some [4] ∧
    lru_find (lru_set (lru_set (lru_set (lru_init 2 1) 5 (some [7])) 9 (some [8]))
        3 (some [4])) 5 = none := by
  have h := C10_lru_cache_coherence
      (lru_set (lru_set (lru_init 2 1) 5 (some [7])) 9 (some [8])) 3 [4]
      (by decide) (by decide)
  refine ⟨h.1, ?_⟩
  have h2 := h.2 (by decide) (by decide) 0 (by decide)
  exact h2.1

/-! ## FAT12 engine (fat12.c)

The `fat12_io_t` callback vtable is modelled as a record of pure
functions threading an explicit io-state `σ` (the C `ctx` pointer's
pointee): `read` maps CHS to 512 bytes (`Nat → Nat`), `write` takes a
whole track of 18 optional sectors (`some` = `valid`, the drive leaves
`none` slots unchanged, as `vdisk_write` does after its read-back
fill).  A failing callback returns `none`.  The pure disk instance
(`vdiskIo` below) mirrors `tests/vdisk.h`. -/

/-- A raw disk image: LBA → byte index → byte. -/
def Disk : Type := Nat → Nat → Nat

/-- The io vtable consumed by the FAT12 engine. -/
structure Fat12Io (σ : Type) where
  read : σ → Nat → Nat → Nat → Option ((Nat → Nat) × σ)
  write : σ → Nat → Nat → List (Option (Nat → Nat)) → Option σ

/-- `vdisk_lba` from `tests/vdisk.h`: hardware geometry 2 sides × 18
sectors. -/
def vdisk_lba (c h s : Nat) : Nat := (c * 2 + h) * 18 + (s - 1)

/-- Update a disk image at one LBA with fresh sector bytes. -/
def diskWrite (d : Disk) (lba : Nat) (data : Nat → Nat) : Disk :=
  fun l b => if l = lba then data b else d l b

/-- `vdisk_read`: fails outside the 2880-sector medium (or for the
invalid sector number 0). -/
def vdisk_read (d : Disk) (c h s : Nat) : Option ((Nat → Nat) × Disk) :=
  if 1 ≤ s ∧ vdisk_lba c h s < 2880 then some (d (vdisk_lba c h s), d) else none

/-- `vdisk_write`: write the valid sectors of one track in place;
invalid (`none`) slots and out-of-range LBAs are left unchanged. -/
def vdisk_write (d : Disk) (c h : Nat) (secs : List (Option (Nat → Nat))) : Disk :=
  fun lba b =>
    let base := (c * 2 + h) * 18
    if base ≤ lba ∧ lba < base + 18 ∧ lba < 2880 then
      match secs.getD (lba - base) none with
      | some f => f b
      | none => d lba b
    else d lba b

/-- The pure-disk io instance of `tests/vdisk.h`. -/
def vdiskIo : Fat12Io Disk :=
  { read := vdisk_read
    write := fun d c h secs => some (vdisk_write d c h secs) }

/-- `fat12_err_t` (`FAT12_OK` is `Except.ok`). -/
inductive Fat12Err where
  | read | write | invalid | not_found | eof | full
deriving Repr, DecidableEq

/-- `fat12_bpb_t`. -/
structure Fat12Bpb where
  bytes_per_sector : Nat := 0
  sectors_per_cluster : Nat := 0
  reserved_sectors : Nat := 0
  num_fats : Nat := 0
  root_entries : Nat := 0
  total_sectors : Nat := 0
  media_descriptor : Nat := 0
  sectors_per_fat : Nat := 0
  sectors_per_track : Nat := 0
  num_heads : Nat := 0
  hidden_sectors : Nat := 0
deriving Repr, DecidableEq

/-- `fat12_t` (the scratch `sector_buf` is modelled by the local reads). -/
structure Fat12 where
  bpb : Fat12Bpb := {}
  fat_start_sector : Nat := 0
  root_dir_start_sector : Nat := 0
  root_dir_sectors : Nat := 0
  data_start_sector : Nat := 0
  total_clusters : Nat := 0
deriving Repr, DecidableEq

/-- `fat12_lba_to_chs` (uint8 out-parameters, hence `% 256`). -/
def fat12_lba_to_chs (fat : Fat12) (lba : Nat) : Nat × Nat × Nat :=
  let c := (lba / (fat.bpb.num_heads * fat.bpb.sectors_per_track)) % 256
  let temp := lba % (fat.bpb.num_heads * fat.bpb.sectors_per_track)
  let h := (temp / fat.bpb.sectors_per_track) % 256
  let s := (temp % fat.bpb.sectors_per_track + 1) % 256
  (c, h, s)

/-- `fat12_read_sector`. -/
def fat12_read_sector {σ : Type} (fat : Fat12) (io : Fat12Io σ) (s : σ) (lba : Nat) :
    Option ((Nat → Nat) × σ) :=
  let chs := fat12_lba_to_chs fat lba
  io.read s chs.1 chs.2.1 chs.2.2

/-- `fat12_init`: read the boot sector (C0 H0 S1), check the `55 AA`
signature, parse and validate the BPB, compute the layout. -/
def fat12_init {σ : Type} (io : Fat12Io σ) (s : σ) : Except Fat12Err (Fat12 × σ) :=
  match io.read s 0 0 1 with
  | none => .error .read
  | some (b, s1) =>
      if ¬(b 510 = 0x55 ∧ b 511 = 0xAA) then .error .invalid
      else
        let bpb : Fat12Bpb :=
          { bytes_per_sector := b 11 + 256 * b 12
            sectors_per_cluster := b 13
            reserved_sectors := b 14 + 256 * b 15
            num_fats := b 16
            root_entries := b 17 + 256 * b 18
            total_sectors := b 19 + 256 * b 20
            media_descriptor := b 21
            sectors_per_fat := b 22 + 256 * b 23
            sectors_per_track := b 24 + 256 * b 25
            num_heads := b 26 + 256 * b 27
            hidden_sectors := b 28 + 256 * b 29 + 65536 * b 30 + 16777216 * b 31 }
        if ¬(bpb.bytes_per_sector = 512 ∧ 0 < bpb.sectors_per_cluster ∧
             bpb.sectors_per_cluster ≤ 64 ∧ 0 < bpb.num_fats ∧
             0 < bpb.sectors_per_track ∧ 0 < bpb.num_heads) then .error .invalid
        else
          let fat_start := bpb.reserved_sectors
          let root_start := fat_start + bpb.num_fats * bpb.sectors_per_fat
          let root_secs := (bpb.root_entries * 32 + 511) / 512
          let data_start := root_start + root_secs
          .ok ({ bpb := bpb
                 fat_start_sector := fat_start
                 root_dir_start_sector := root_start
                 root_dir_sectors := root_secs
                 data_start_sector := data_start
                 total_clusters :=
                   (bpb.total_sectors - data_start) / bpb.sectors_per_cluster }, s1)

/-- `fat12_get_entry`: read the 12-bit FAT entry of `cluster`. -/
def fat12_get_entry {σ : Type} (fat : Fat12) (io : Fat12Io σ) (s : σ) (cluster : Nat) :
    Except Fat12Err (Nat × σ) :=
  if cluster ≥ fat.total_clusters + 2 ∧ cluster < 0xFF0 then .error .invalid
  else
    let fat_offset := cluster + cluster / 2
    if fat_offset + 1 ≥ fat.bpb.sectors_per_fat * 512 then .error .invalid
    else
      let fat_sector := fat.fat_start_sector + fat_offset / 512
      let entry_offset := fat_offset % 512
      match fat12_read_sector fat io s fat_sector with
      | none => .error .read
      | some (d1, s1) =>
          if entry_offset = 511 then
            match fat12_read_sector fat io s1 (fat_sector + 1) with
            | none => .error .read
            | some (d2, s2) =>
                let value := d1 511 + 256 * d2 0
                .ok ((if cluster % 2 = 1 then value >>> 4 else value % 4096), s2)
          else
            let value := d1 entry_offset + 256 * d1 (entry_offset + 1)
            .ok ((if cluster % 2 = 1 then value >>> 4 else value % 4096), s1)

/-- `fat12_is_eof`. -/
def fat12_is_eof (cluster : Nat) : Bool := 0xFF8 ≤ cluster
/-- `fat12_is_free`. -/
def fat12_is_free (cluster : Nat) : Bool := cluster = 0
/-- `fat12_is_bad`. -/
def fat12_is_bad (cluster : Nat) : Bool := cluster = 0xFF7

/-- `fat12_cluster_to_lba` (uint16 arithmetic through C int promotion). -/
def fat12_cluster_to_lba (fat : Fat12) (cluster : Nat) : Nat :=
  (((fat.data_start_sector : Int) +
    ((cluster : Int) - 2) * (fat.bpb.sectors_per_cluster : Int)).emod 65536).toNat

/-- `fat12_dirent_t`: 32 on-disk bytes. -/
structure Fat12Dirent where
  name : List Nat := List.replicate 8 0
  ext : List Nat := List.replicate 3 0
  attr : Nat := 0
  reserved : List Nat := List.replicate 10 0
  time : Nat := 0
  date : Nat := 0
  start_cluster : Nat := 0
  size : Nat := 0
deriving Repr, DecidableEq

/-- Parse a directory entry from 32 sector bytes at `off`
(the `memcpy` into `fat12_dirent_t`). -/
def dirent_parse (sec : Nat → Nat) (off : Nat) : Fat12Dirent :=
  { name := (List.range 8).map (fun i => sec (off + i))
    ext := (List.range 3).map (fun i => sec (off + 8 + i))
    attr := sec (off + 11)
    reserved := (List.range 10).map (fun i => sec (off + 12 + i))
    time := sec (off + 22) + 256 * sec (off + 23)
    date := sec (off + 24) + 256 * sec (off + 25)
    start_cluster := sec (off + 26) + 256 * sec (off + 27)
    size := sec (off + 28) + 256 * sec (off + 29) +
            65536 * sec (off + 30) + 16777216 * sec (off + 31) }

/-- Serialize a directory entry to its 32 on-disk bytes
(the `memcpy` out of a `fat12_dirent_t`). -/
def dirent_bytes (e : Fat12Dirent) : List Nat :=
  e.name ++ e.ext ++ [e.attr] ++ e.reserved ++
  [e.time % 256, e.time / 256 % 256, e.date % 256, e.date / 256 % 256,
   e.start_cluster % 256, e.start_cluster / 256 % 256,
   e.size % 256, e.size / 256 % 256, e.size / 65536 % 256, e.size / 16777216 % 256]

/-- `fat12_read_root_entry`. -/
def fat12_read_root_entry {σ : Type} (fat : Fat12) (io : Fat12Io σ) (s : σ)
    (index : Nat) : Except Fat12Err (Fat12Dirent × σ) :=
  if fat.bpb.root_entries ≤ index then .error .eof
  else
    let sector := fat.root_dir_start_sector + (index * 32) / 512
    let offset := (index * 32) % 512
    match fat12_read_sector fat io s sector with
    | none => .error .read
    | some (d, s1) => .ok (dirent_parse d offset, s1)

/-- `fat12_entry_valid`. -/
def fat12_entry_valid (e : Fat12Dirent) : Bool :=
  let first := e.name.headD 0
  !(first = 0 || first = 0xE5 || e.attr = 0x0F)

/-- `fat12_entry_is_end`. -/
def fat12_entry_is_end (e : Fat12Dirent) : Bool :=
  e.name.headD 0 = 0

/-- Uppercase a byte as the C name formatter does. -/
def upByte (c : Nat) : Nat := if 97 ≤ c ∧ c ≤ 122 then c - 32 else c

/-- Space-pad a byte list to length `n`. -/
def padTo (l : List Nat) (n : Nat) : List Nat :=
  l ++ List.replicate (n - l.length) 32

/-- `fat12_format_name`: split `input` (a C string as a byte list) at
the first dot (or after 8 name bytes), uppercase, space-pad to 8 + 3. -/
def fat12_format_name (input : List Nat) : List Nat × List Nat :=
  let pre := input.takeWhile (fun c => c ≠ 46)
  let consumed := min pre.length 8
  let name8 := padTo ((pre.take 8).map upByte) 8
  let rest := input.drop consumed
  let rest2 := if rest.headD 0 = 46 then rest.drop 1 else rest
  let ext3 := padTo ((rest2.take 3).map upByte) 3
  (name8, ext3)

/-- The scan loop of `fat12_find` (`for i < root_entries`), with the
remaining iteration count as fuel. -/
def fat12_find_loop {σ : Type} (fat : Fat12) (io : Fat12Io σ)
    (name8 ext3 : List Nat) : Nat → Nat → σ → Except Fat12Err (Fat12Dirent × σ)
  | _, 0, _ => .error .not_found
  | i, fuel + 1, s =>
      match fat12_read_root_entry fat io s i with
      | .error e => .error e
      | .ok (entry, s1) =>
          if fat12_entry_is_end entry then .error .not_found
          else if ¬(fat12_entry_valid entry = true) then
            fat12_find_loop fat io name8 ext3 (i + 1) fuel s1
          else if entry.name = name8 ∧ entry.ext = ext3 then .ok (entry, s1)
          else fat12_find_loop fat io name8 ext3 (i + 1) fuel s1

/-- `fat12_find`. -/
def fat12_find {σ : Type} (fat : Fat12) (io : Fat12Io σ) (s : σ)
    (filename : List Nat) : Except Fat12Err (Fat12Dirent × σ) :=
  let nm := fat12_format_name filename
  fat12_find_loop fat io nm.1 nm.2 0 fat.bpb.root_entries s

/-- Point-update of a 512-byte sector function. -/
def updB (f : Nat → Nat) (i v : Nat) : Nat → Nat :=
  fun j => if j = i then v else f j

/-- `fat12_write_batch_t`: the pending (LBA, sector-bytes) pairs in
insertion order (`count = entries.length`). -/
structure Fat12Batch where
  entries : List (Nat × (Nat → Nat)) := []

/-- `FAT12_WRITE_BATCH_MAX`. -/
def FAT12_WRITE_BATCH_MAX : Nat := 36

/-- `fat12_write_batch_add`. -/
def fat12_write_batch_add (batch : Fat12Batch) (lba : Nat) (data : Nat → Nat) :
    Except Fat12Err Fat12Batch :=
  if FAT12_WRITE_BATCH_MAX ≤ batch.entries.length then .error .full
  else .ok { entries := batch.entries ++ [(lba, data)] }

/-- Track assembly inside `fat12_write_batch_flush`: slot `idx` holds
the data of the last pending entry whose LBA maps to `(c, h)` with
1-based sector `idx + 1` (later batch entries overwrite earlier ones,
as the C copy loop does). -/
def flush_track_slots (fat : Fat12) (c h : Nat)
    (entries : List (Nat × (Nat → Nat))) : List (Option (Nat → Nat)) :=
  (List.range 18).map (fun idx =>
    entries.foldl (fun acc e =>
      let chs := fat12_lba_to_chs fat e.1
      if chs.1 = c ∧ chs.2.1 = h ∧ 1 ≤ chs.2.2 ∧ chs.2.2 ≤ 18 ∧ chs.2.2 - 1 = idx
      then some e.2 else acc) none)

/-- The while-loop of `fat12_write_batch_flush`: write the whole track
of the first pending entry, re-queue entries of other tracks, repeat.
Entries of the same track with an out-of-range sector number are
dropped, exactly as the C re-queue loop drops them.  Each iteration
strictly shrinks the queue (the head entry's own track is filtered
out), so the C `while` runs at most `count` iterations; `fuel` carries
that bound explicitly (the wrapper passes `entries.length`). -/
def fat12_write_batch_flush_loop {σ : Type} (fat : Fat12) (io : Fat12Io σ) :
    Nat → List (Nat × (Nat → Nat)) → σ → Except Fat12Err σ
  | _, [], s => .ok s
  | 0, _ :: _, _ => .error .write
  | fuel + 1, e0 :: rest, s =>
      let chs := fat12_lba_to_chs fat e0.1
      let c := chs.1
      let h := chs.2.1
      let slots := flush_track_slots fat c h (e0 :: rest)
      let keep := (e0 :: rest).filter (fun e =>
        !((fat12_lba_to_chs fat e.1).1 == c && (fat12_lba_to_chs fat e.1).2.1 == h))
      match io.write s c h slots with
      | none => .error .write
      | some s1 => fat12_write_batch_flush_loop fat io fuel keep s1

/-- `fat12_write_batch_flush`. -/
def fat12_write_batch_flush {σ : Type} (fat : Fat12) (io : Fat12Io σ)
    (batch : Fat12Batch) (s : σ) : Except Fat12Err (Fat12Batch × σ) :=
  match fat12_write_batch_flush_loop fat io batch.entries.length batch.entries s with
  | .error e => .error e
  | .ok s1 => .ok ({ entries := [] }, s1)

/-- `fat12_write_sector_batched`: add, flushing first when full. -/
def fat12_write_sector_batched {σ : Type} (fat : Fat12) (io : Fat12Io σ)
    (batch : Fat12Batch) (s : σ) (lba : Nat) (data : Nat → Nat) :
    Except Fat12Err (Fat12Batch × σ) :=
  match fat12_write_batch_add batch lba data with
  | .ok b => .ok (b, s)
  | .error .full =>
      match fat12_write_batch_flush fat io batch s with
      | .error e => .error e
      | .ok (b0, s1) =>
          match fat12_write_batch_add b0 lba data with
          | .error e => .error e
          | .ok b1 => .ok (b1, s1)
  | .error e => .error e

/-- `fat12_read_sector_batched`: newest pending copy first, else disk. -/
def fat12_read_sector_batched {σ : Type} (fat : Fat12) (io : Fat12Io σ)
    (batch : Fat12Batch) (s : σ) (lba : Nat) : Option ((Nat → Nat) × σ) :=
  match batch.entries.reverse.find? (fun e => e.1 == lba) with
  | some e => some (e.2, s)
  | none => fat12_read_sector fat io s lba

/-- `fat12_set_entry`: read-modify-write of a 12-bit FAT entry, applied
to every FAT copy. -/
def fat12_set_entry {σ : Type} (fat : Fat12) (io : Fat12Io σ)
    (batch : Fat12Batch) (s : σ) (cluster value : Nat) :
    Except Fat12Err (Fat12Batch × σ) :=
  let fat_offset := cluster + cluster / 2
  let fat_sector_lba := fat.fat_start_sector + fat_offset / 512
  let entry_offset := fat_offset % 512
  match fat12_read_sector_batched fat io batch s fat_sector_lba with
  | none => .error .read
  | some (d1, s1) =>
      if entry_offset = 511 then
        match fat12_read_sector_batched fat io batch s1 (fat_sector_lba + 1) with
        | none => .error .read
        | some (d2, s2) =>
            let d1' := if cluster % 2 = 1
              then updB d1 511 ((d1 511 &&& 15) ||| ((value &&& 15) <<< 4))
              else updB d1 511 (value &&& 255)
            let d2' := if cluster % 2 = 1
              then updB d2 0 ((value >>> 4) % 256)
              else updB d2 0 ((d2 0 &&& 0xF0) ||| ((value >>> 8) &&& 15))
            (List.range fat.bpb.num_fats).foldlM
              (fun st f =>
                let fat_base := fat.fat_start_sector + f * fat.bpb.sectors_per_fat
                let lba1 := fat_base + fat_offset / 512
                match fat12_write_sector_batched fat io st.1 st.2 lba1 d1' with
                | .error e => .error e
                | .ok st1 => fat12_write_sector_batched fat io st1.1 st1.2 (lba1 + 1) d2')
              (batch, s2)
      else
        let existing := d1 entry_offset + 256 * d1 (entry_offset + 1)
        let existing' := if cluster % 2 = 1
          then ((existing &&& 0x000F) ||| (value <<< 4)) % 65536
          else ((existing &&& 0xF000) ||| (value &&& 0x0FFF)) % 65536
        let d1' := updB (updB d1 entry_offset (existing' % 256))
                     (entry_offset + 1) (existing' / 256)
        (List.range fat.bpb.num_fats).foldlM
          (fun st f =>
            let fat_base := fat.fat_start_sector + f * fat.bpb.sectors_per_fat
            let lba := fat_base + fat_offset / 512
            fat12_write_sector_batched fat io st.1 st.2 lba d1')
          (batch, s1)

/-- `fat12_write_root_entry`: read-modify-write the root-directory
sector holding entry `index`. -/
def fat12_write_root_entry {σ : Type} (fat : Fat12) (io : Fat12Io σ)
    (batch : Fat12Batch) (s : σ) (index : Nat) (entry : Fat12Dirent) :
    Except Fat12Err (Fat12Batch × σ) :=
  if fat.bpb.root_entries ≤ index then .error .eof
  else
    let sector_lba := fat.root_dir_start_sector + (index * 32) / 512
    let offset := (index * 32) % 512
    match fat12_read_sector fat io s sector_lba with
    | none => .error .read
    | some (d, s1) =>
        let d' := fun b => if offset ≤ b ∧ b < offset + 32
                           then (dirent_bytes entry).getD (b - offset) 0 else d b
        fat12_write_sector_batched fat io batch s1 sector_lba d'

/-- The chain-freeing while-loop shared by `fat12_open_write` and
`fat12_delete`: follow the chain, zeroing each entry in every FAT copy.
A `fat12_get_entry` error is the C `break`.  `fuel` bounds the walk (the
C loop is unbounded; every chain shorter than the fuel behaves
identically). -/
def fat12_free_chain_loop {σ : Type} (fat : Fat12) (io : Fat12Io σ) :
    Nat → Nat → Fat12Batch → σ → Except Fat12Err (Fat12Batch × σ)
  | 0, _, batch, s => .ok (batch, s)
  | fuel + 1, cluster, batch, s =>
      if 2 ≤ cluster ∧ ¬(fat12_is_eof cluster = true) ∧ ¬(fat12_is_bad cluster = true) then
        match fat12_get_entry fat io s cluster with
        | .error _ => .ok (batch, s)
        | .ok (next, s1) =>
            match fat12_set_entry fat io batch s1 cluster 0 with
            | .error e => .error e
            | .ok (b2, s2) => fat12_free_chain_loop fat io fuel next b2 s2
      else .ok (batch, s)

/-- `fat12_writer_t`. -/
structure Fat12Writer where
  batch : Fat12Batch := {}
  dirent_index : Nat := 0
  dirent : Fat12Dirent := {}
  first_cluster : Nat := 0
  current_cluster : Nat := 0
  prev_cluster : Nat := 0
  bytes_written : Nat := 0
  cluster_offset : Nat := 0
  next_free_hint : Nat := 0

/-- The scan loop of `fat12_open_write`: first end-of-directory or
deleted slot is claimed fresh; a matching name frees the old chain and
reuses the entry in place. -/
def fat12_open_write_loop {σ : Type} (fat : Fat12) (io : Fat12Io σ)
    (name8 ext3 : List Nat) (chainFuel : Nat) :
    Nat → Nat → σ → Except Fat12Err (Fat12Writer × σ)
  | _, 0, _ => .error .full
  | i, fuel + 1, s =>
      match fat12_read_root_entry fat io s i with
      | .error e => .error e
      | .ok (entry, s1) =>
          if fat12_entry_is_end entry then
            .ok ({ dirent_index := i
                   dirent := { name := name8, ext := ext3, attr := 0x20,
                               reserved := List.replicate 10 0 } }, s1)
          else if entry.name.headD 0 = 0xE5 then
            .ok ({ dirent_index := i
                   dirent := { name := name8, ext := ext3, attr := 0x20,
                               reserved := List.replicate 10 0 } }, s1)
          else if entry.name = name8 ∧ entry.ext = ext3 then
            match fat12_free_chain_loop fat io chainFuel entry.start_cluster {} s1 with
            | .error e => .error e
            | .ok (b2, s2) =>
                .ok ({ batch := b2
                       dirent_index := i
                       dirent := { entry with start_cluster := 0, size := 0 } }, s2)
          else fat12_open_write_loop fat io name8 ext3 chainFuel (i + 1) fuel s1

/-- `fat12_open_write`. -/
def fat12_open_write {σ : Type} (fat : Fat12) (io : Fat12Io σ) (s : σ)
    (filename : List Nat) (chainFuel : Nat) : Except Fat12Err (Fat12Writer × σ) :=
  let nm := fat12_format_name filename
  fat12_open_write_loop fat io nm.1 nm.2 chainFuel 0 fat.bpb.root_entries s

/-- `fat12_close_write`: patch `start_cluster`/`size` into the
directory entry, write it, flush the batch. -/
def fat12_close_write {σ : Type} (fat : Fat12) (io : Fat12Io σ)
    (writer : Fat12Writer) (s : σ) : Except Fat12Err (Fat12Writer × σ) :=
  let de := { writer.dirent with start_cluster := writer.first_cluster,
                                 size := writer.bytes_written }
  match fat12_write_root_entry fat io writer.batch s writer.dirent_index de with
  | .error e => .error e
  | .ok (b1, s1) =>
      match fat12_write_batch_flush fat io b1 s1 with
      | .error e => .error e
      | .ok (b2, s2) => .ok ({ writer with dirent := de, batch := b2 }, s2)

/-- The scan loop of `fat12_delete`.  The io-state is returned even on
failure (the C caller's context is mutated regardless). -/
def fat12_delete_loop {σ : Type} (fat : Fat12) (io : Fat12Io σ)
    (name8 ext3 : List Nat) (chainFuel : Nat) :
    Nat → Nat → σ → (Except Fat12Err Unit) × σ
  | _, 0, s => (.error .not_found, s)
  | i, fuel + 1, s =>
      match fat12_read_root_entry fat io s i with
      | .error e => (.error e, s)
      | .ok (entry, s1) =>
          if fat12_entry_is_end entry then (.error .not_found, s1)
          else if ¬(fat12_entry_valid entry = true) then
            fat12_delete_loop fat io name8 ext3 chainFuel (i + 1) fuel s1
          else if entry.name = name8 ∧ entry.ext = ext3 then
            match fat12_free_chain_loop fat io chainFuel entry.start_cluster {} s1 with
            | .error e => (.error e, s1)
            | .ok (b2, s2) =>
                let entry' := { entry with name := entry.name.set 0 0xE5 }
                match fat12_write_root_entry fat io b2 s2 i entry' with
                | .error e => (.error e, s2)
                | .ok (b3, s3) =>
                    match fat12_write_batch_flush fat io b3 s3 with
                    | .error e => (.error e, s3)
                    | .ok (_, s4) => (.ok (), s4)
          else fat12_delete_loop fat io name8 ext3 chainFuel (i + 1) fuel s1

/-- `fat12_delete`. -/
def fat12_delete {σ : Type} (fat : Fat12) (io : Fat12Io σ) (s : σ)
    (filename : List Nat) (chainFuel : Nat) : (Except Fat12Err Unit) × σ :=
  let nm := fat12_format_name filename
  fat12_delete_loop fat io nm.1 nm.2 chainFuel 0 fat.bpb.root_entries s

/-! ## File-level API (f12.c)

The `f12_io_t` of this embedding is the pure vdisk with `disk_changed`
and `write_protected` callbacks NULL (the C code skips those checks
when the pointers are NULL), so `f12_check_disk` reduces to the
mounted check. -/

/-- `f12_err_t`. -/
inductive F12Err where
  | ok | ioErr | notFound | exist | full | tooMany | invalid | isDir
  | notMounted | eofE | diskChanged | writeProtected | badHandle
deriving Repr, DecidableEq

/-- `fat12_to_f12_err`. -/
def fat12_to_f12_err : Fat12Err → F12Err
  | .read => .ioErr
  | .write => .ioErr
  | .invalid => .invalid
  | .not_found => .notFound
  | .eof => .eofE
  | .full => .full

/-- `f12_file_mode_t`. -/
inductive F12Mode where
  | closed | readM | writeM
deriving Repr, DecidableEq

/-- `fat12_file_t` (the sequential reader cursor). -/
structure Fat12File where
  current_cluster : Nat := 0
  file_size : Nat := 0
  bytes_read : Nat := 0

/-- `fat12_open` (open a directory entry for reading). -/
def fat12_open_file (entry : Fat12Dirent) : Except Fat12Err Fat12File :=
  if entry.attr &&& 0x10 ≠ 0 then .error .invalid
  else .ok { current_cluster := entry.start_cluster, file_size := entry.size,
             bytes_read := 0 }

/-- `struct f12_file`. -/
structure F12File where
  mode : F12Mode := .closed
  dirent : Fat12Dirent := {}
  dirent_index : Nat := 0
  reader : Fat12File := {}
  writer : Fat12Writer := {}
  position : Nat := 0

/-- `F12_MAX_OPEN_FILES`. -/
def F12_MAX_OPEN_FILES : Nat := 10
/-- `F12_CACHE_SIZE`. -/
def F12_CACHE_SIZE : Nat := 36

/-- `struct f12`: BPB-derived FAT state, sector cache, open-file table,
last error, mounted flag, and the underlying raw disk (the io ctx). -/
structure F12 where
  fat : Fat12 := {}
  cache : Lru := {}
  files : List F12File := []
  last_error : F12Err := .ok
  mounted : Bool := false
  disk : Disk := fun _ _ => 0

/-- `f12_set_error`. -/
def f12_set_error (fs : F12) (e : F12Err) : F12 :=
  { fs with last_error := e }

/-- `f12_cached_read`: cache hit, else read-through and populate the
cache (the disk-change check is a no-op: the callback is NULL). -/
def f12_cached_read (fs : F12) (c h s : Nat) : Option ((Nat → Nat) × F12) :=
  let key := lru_key c h s
  let g := lru_get fs.cache key
  match g.1 with
  | some bytes => some ((fun b => bytes.getD b 0), { fs with cache := g.2 })
  | none =>
      match vdisk_read fs.disk c h s with
      | none => none
      | some (data, _) =>
          let cache' := lru_set g.2 key (some ((List.range 512).map data))
          some (data, { fs with cache := cache' })

/-- `f12_cached_write`: write the track to disk, then cache every
sector the drive ended up writing (the drive fills invalid in-range
slots from the old disk contents, marking them valid, so those are
cached too — exactly what the C loop sees after `vdisk_write`). -/
def f12_cached_write (fs : F12) (c h : Nat) (secs : List (Option (Nat → Nat))) :
    Option F12 :=
  let d' := vdisk_write fs.disk c h secs
  let cache' := (List.range 18).foldl (fun cch i =>
      match secs.getD i none with
      | some f => lru_set cch (lru_key c h (i + 1)) (some ((List.range 512).map f))
      | none =>
          if vdisk_lba c h (i + 1) < 2880 then
            lru_set cch (lru_key c h (i + 1))
              (some ((List.range 512).map (fs.disk (vdisk_lba c h (i + 1)))))
          else cch) fs.cache
  some { fs with disk := d', cache := cache' }

/-- The cached io vtable `f12_mount` hands to the FAT12 engine. -/
def f12CachedIo : Fat12Io F12 :=
  { read := f12_cached_read
    write := f12_cached_write }

/-- `f12_check_disk` (NULL `disk_changed` callback). -/
def f12_check_disk (fs : F12) : F12Err × F12 :=
  if ¬(fs.mounted = true) then (.notMounted, f12_set_error fs .notMounted)
  else (.ok, fs)

/-- `f12_check_writable` (NULL `write_protected` callback). -/
def f12_check_writable (fs : F12) : F12Err × F12 :=
  f12_check_disk fs

/-- `f12_alloc_file`: first closed slot, zeroed. -/
def f12_alloc_file (fs : F12) : Option (Nat × F12) :=
  match (List.range F12_MAX_OPEN_FILES).find?
      (fun i => (fs.files.getD i {}).mode == F12Mode.closed) with
  | none => none
  | some i => some (i, { fs with files := fs.files.set i {} })

/-- `f12_mount`: build the cache, initialize FAT12 through the cached
io, set the mounted flag; on failure free the cache and store the
mapped error. -/
def f12_mount (d : Disk) : F12Err × F12 :=
  let fs0 : F12 :=
    { fat := {}, cache := lru_init F12_CACHE_SIZE 512,
      files := List.replicate F12_MAX_OPEN_FILES {},
      last_error := .ok, mounted := false, disk := d }
  match fat12_init f12CachedIo fs0 with
  | .error e =>
      (fat12_to_f12_err e,
       f12_set_error { fs0 with cache := {} } (fat12_to_f12_err e))
  | .ok (fat, fs1) => (.ok, { fs1 with fat := fat, mounted := true })

/-- `f12_open` (path and mode are C strings as byte lists; the returned
handle is the open-table slot index, C's returned pointer).  `chainFuel`
bounds the chain walks exactly as in `fat12_open_write`/`fat12_delete`. -/
def f12_open (fs : F12) (path mode : List Nat) (chainFuel : Nat) :
    Option Nat × F12 :=
  let m0 := mode.headD 0
  if m0 = 114 then  -- "r"
    let chk := f12_check_disk fs
    if chk.1 ≠ .ok then (none, chk.2)
    else
      let fs1 := chk.2
      let path1 := if path.headD 0 = 47 then path.drop 1 else path
      match f12_alloc_file fs1 with
      | none => (none, f12_set_error fs1 .tooMany)
      | some (idx, fs2) =>
          match fat12_find fs2.fat f12CachedIo fs2 path1 with
          | .error e => (none, f12_set_error fs2 (fat12_to_f12_err e))
          | .ok (entry, fs3) =>
              if entry.attr &&& 0x10 ≠ 0 then (none, f12_set_error fs3 .isDir)
              else
                match fat12_open_file entry with
                | .error e => (none, f12_set_error fs3 (fat12_to_f12_err e))
                | .ok rd =>
                    let file : F12File :=
                      { mode := .readM, dirent := entry, reader := rd, position := 0 }
                    (some idx, { fs3 with files := fs3.files.set idx file })
  else if m0 = 119 ∨ m0 = 97 then  -- "w" / "a"
    let truncate := m0 = 119
    let chk := f12_check_writable fs
    if chk.1 ≠ .ok then (none, chk.2)
    else
      let fs1 := chk.2
      let path1 := if path.headD 0 = 47 then path.drop 1 else path
      match f12_alloc_file fs1 with
      | none => (none, f12_set_error fs1 .tooMany)
      | some (idx, fs2) =>
          let fs3 := if truncate
            then (fat12_delete fs2.fat f12CachedIo fs2 path1 chainFuel).2
            else fs2
          match fat12_open_write fs3.fat f12CachedIo fs3 path1 chainFuel with
          | .error e => (none, f12_set_error fs3 (fat12_to_f12_err e))
          | .ok (w, fs4) =>
              let file : F12File :=
                { mode := .writeM, writer := w,
                  position := if m0 = 97 then w.bytes_written else 0 }
              (some idx, { fs4 with files := fs4.files.set idx file })
  else (none, f12_set_error fs .invalid)

/-! ## Claim C8: mount error on missing boot signature -/
theorem lru_find_init (n e k : Nat) : lru_find (lru_init n e) k = none := by
  unfold lru_find lru_init
  apply lru_scan_none
  intro t ht
  simp only [List.length_replicate] at ht
  have he : lru_entry_at (List.replicate n ({} : LruEntry)) t = {} := by
    unfold lru_entry_at
    simp [List.getD, List.getElem?_replicate, ht]
  rw [he]
  rfl

/-- C8 counterexample.  A disk whose boot sector lacks the `55 AA`
signature (all zeroes): `f12_mount` surfaces `Invalid`, not the
claimed `NotFound`. -/
theorem C8_counterexample :
    (f12_mount (fun _ _ => 0)).1 = F12Err.invalid ∧
    F12Err.invalid ≠ F12Err.notFound := by
  constructor
  · rfl
  · decide

/-- C8 amended: if the boot sector read at mount lacks the `0x55 0xAA`
signature at bytes 510–511, the mount fails and the error surfaced to
the file API is `Invalid` (`fat12_init` returns `FAT12_ERR_INVALID`,
which `fat12_to_f12_err` maps to `F12_ERR_INVALID`, not `NotFound`);
the filesystem is left unmounted with `last_error = Invalid`. -/
theorem C8_mount_bad_signature_invalid (d : Disk)
    (h : ¬(d 0 510 = 0x55 ∧ d 0 511 = 0xAA)) :
    (f12_mount d).1 = F12Err.invalid ∧
    (f12_mount d).2.last_error = F12Err.invalid ∧
    (f12_mount d).2.mounted = false := by
  obtain ⟨fs', hread⟩ : ∃ fs', f12_cached_read
      { fat := {}, cache := lru_init F12_CACHE_SIZE 512,
        files := List.replicate F12_MAX_OPEN_FILES {},
        last_error := .ok, mounted := false, disk := d } 0 0 1
      = some (d 0, fs') := by
    exact ⟨_, rfl⟩
  have hinit : fat12_init f12CachedIo
      { fat := {}, cache := lru_init F12_CACHE_SIZE 512,
        files := List.replicate F12_MAX_OPEN_FILES {},
        last_error := .ok, mounted := false, disk := d }
      = .error .invalid := by
    unfold fat12_init
    rw [show (f12CachedIo.read : F12 → Nat → Nat → Nat → Option ((Nat → Nat) × F12))
          = f12_cached_read from rfl]
    rw [hread]
    simp [h]
  simp only [f12_mount]
  rw [hinit]
  exact ⟨rfl, rfl, rfl⟩

/-- Witness for C8 at the all-zero disk. -/
theorem C8_mount_bad_signature_invalid_witness :
    (f12_mount (fun _ _ => 1)).1 = F12Err.invalid ∧
    (f12_mount (fun _ _ => 1)).2.mounted = false := by
  have h := C8_mount_bad_signature_invalid (fun _ _ => 1) (by decide)
  exact ⟨h.1, h.2.2⟩

/-! ## Claim C5: there is no single-writer gate -/

/-- Boot-sector bytes of a canonical 1.44 MB FAT12 volume
(512 B/sector, 1 sector/cluster, 1 reserved, 2 FATs, 224 root entries,
2880 sectors, 9 sectors/FAT, 18 sectors/track, 2 heads, `55 AA`). -/
def bootBytes : Nat → Nat := fun b =>
  if b = 12 then 2
  else if b = 13 then 1
  else if b = 14 then 1
  else if b = 16 then 2
  else if b = 17 then 224
  else if b = 19 then 64
  else if b = 20 then 11
  else if b = 21 then 240
  else if b = 22 then 9
  else if b = 24 then 18
  else if b = 26 then 2
  else if b = 510 then 85
  else if b = 511 then 170
  else 0

/-- A freshly formatted disk with an empty root directory. -/
def emptyDisk : Disk := fun lba b => if lba = 0 then bootBytes b else 0

/-- C5 counterexample.  On a mounted filesystem with an empty root
directory, two consecutive `f12_open(…, "w")` calls both succeed
("/A" = bytes `47 65`, mode "w" = byte `119`), leaving TWO open-file
slots in write mode at once — there is no `batch_in_use` gate. -/
theorem C5_counterexample :
    ((f12_open (f12_mount emptyDisk).2 [47, 65] [119] 64).1 = some 0) ∧
    ((f12_open (f12_open (f12_mount emptyDisk).2 [47, 65] [119] 64).2
        [47, 65] [119] 64).1 = some 1) ∧
    (((f12_open (f12_open (f12_mount emptyDisk).2 [47, 65] [119] 64).2
        [47, 65] [119] 64).2.files.getD 0 {}).mode = F12Mode.writeM) ∧
    (((f12_open (f12_open (f12_mount emptyDisk).2 [47, 65] [119] 64).2
        [47, 65] [119] 64).2.files.getD 1 {}).mode = F12Mode.writeM) := by
  refine ⟨rfl, rfl, rfl, rfl⟩

/-- C5 amended: the filesystem has no `batch_in_use` writer gate.  The
open-file table is the only limit: `f12_alloc_file` hands out the
first closed slot whenever one exists — regardless of how many other
slots already hold writers — and an open-for-write fails on the table
(with `TooManyOpen`) exactly when no slot is closed.  Two writers can
therefore be open simultaneously (see the counterexample). -/
theorem C5_no_writer_gate :
    (∀ fs : F12, ∀ i, i < F12_MAX_OPEN_FILES →
      (fs.files.getD i {}).mode = F12Mode.closed →
      ∃ j, j < F12_MAX_OPEN_FILES ∧
        (fs.files.getD j {}).mode = F12Mode.closed ∧
        f12_alloc_file fs = some (j, { fs with files := fs.files.set j {} })) ∧
    (∀ (fs : F12) (path : List Nat) (chainFuel : Nat), fs.mounted = true →
      f12_alloc_file fs = none →
      (f12_open fs path [119] chainFuel).1 = none ∧
      (f12_open fs path [119] chainFuel).2.last_error = F12Err.tooMany) := by
  constructor
  · intro fs i hi hmode
    have hsome : ((List.range F12_MAX_OPEN_FILES).find?
        (fun j => (fs.files.getD j {}).mode == F12Mode.closed)).isSome := by
      rw [List.find?_isSome]
      exact ⟨i, by simpa [F12_MAX_OPEN_FILES] using hi, by simpa [beq_iff_eq] using hmode⟩
    obtain ⟨j, hj⟩ := Option.isSome_iff_exists.mp hsome
    have hjmem : j ∈ List.range F12_MAX_OPEN_FILES := List.mem_of_find?_eq_some hj
    have hjp := List.find?_some hj
    refine ⟨j, by simpa [F12_MAX_OPEN_FILES] using List.mem_range.mp hjmem,
      by simpa [beq_iff_eq] using hjp, ?_⟩
    unfold f12_alloc_file
    rw [hj]
  · intro fs path chainFuel hm halloc
    have hchk : f12_check_writable fs = (.ok, fs) := by
      unfold f12_check_writable f12_check_disk
      simp [hm]
    constructor
    · unfold f12_open
      simp only [show ((119 : Nat) = 114) = False by simp, if_false,
        show ((119 : Nat) = 119 ∨ (119 : Nat) = 97) = True by simp, if_true,
        hchk]
      simp [halloc]
    · unfold f12_open
      simp only [show ((119 : Nat) = 114) = False by simp, if_false,
        show ((119 : Nat) = 119 ∨ (119 : Nat) = 97) = True by simp, if_true,
        hchk]
      simp [halloc, f12_set_error]

/-- Witness for C5: a fresh table allocates slot 0; a table of ten
writers refuses with `TooManyOpen`. -/
theorem C5_no_writer_gate_witness :
    (∃ j, j < F12_MAX_OPEN_FILES ∧
      (((f12_mount emptyDisk).2.files.getD j {}).mode = F12Mode.closed) ∧
      f12_alloc_file (f12_mount emptyDisk).2
        = some (j, { (f12_mount emptyDisk).2 with
                      files := (f12_mount emptyDisk).2.files.set j {} })) ∧
    ((f12_open { (f12_mount emptyDisk).2 with
        files := List.replicate 10 { mode := F12Mode.writeM } } [47, 65] [119] 64).1
      = none) := by
  constructor
  · exact (C5_no_writer_gate.1 (f12_mount emptyDisk).2 0 (by decide) rfl)
  · exact (C5_no_writer_gate.2 { (f12_mount emptyDisk).2 with
      files := List.replicate 10 { mode := F12Mode.writeM } } [47, 65] 64 rfl rfl).1

/-! ## Claim C6: open-for-write with an existing name -/

/-- FAT sector contents of the C6 disk: cluster 2 holds `0xFFF`
(end-of-chain), i.e. file `B` owns the one-cluster chain `[2]`. -/
def c6FatSec : Nat → Nat := fun b =>
  if b = 3 then 255 else if b = 4 then 15 else 0

/-- Root-directory sector of the C6 disk: entry 0 is deleted (first
name byte `0xE5`), entry 1 is file `B` (name `"B       "`, ext `"   "`,
attr `0x20`, `start_cluster = 2`, size 0). -/
def c6Root : Nat → Nat := fun b =>
  if b = 0 then 229
  else if b = 32 then 66
  else if 33 ≤ b ∧ b ≤ 42 then 32
  else if b = 43 then 32
  else if b = 58 then 2
  else 0

/-- The C6 disk: canonical boot sector, both FAT copies holding
`FAT[2] = 0xFFF`, and the root directory above. -/
def c6Disk : Disk := fun lba b =>
  if lba = 0 then bootBytes b
  else if lba = 1 ∨ lba = 10 then c6FatSec b
  else if lba = 19 then c6Root b
  else 0

/-- The layout `fat12_init` computes for the C6 disk. -/
def c6Fat12 : Fat12 :=
  { bpb := { bytes_per_sector := 512
             sectors_per_cluster := 1
             reserved_sectors := 1
             num_fats := 2
             root_entries := 224
             total_sectors := 2880
             media_descriptor := 240
             sectors_per_fat := 9
             sectors_per_track := 18
             num_heads := 2
             hidden_sectors := 0 }
    fat_start_sector := 1
    root_dir_start_sector := 19
    root_dir_sectors := 14
    data_start_sector := 33
    total_clusters := 2847 }

/-- Root entry 0 of the C6 disk as parsed: a deleted slot. -/
def c6DeletedEntry : Fat12Dirent :=
  { name := 229 :: List.replicate 7 0
    ext := List.replicate 3 0
    attr := 0
    reserved := List.replicate 10 0
    time := 0
    date := 0
    start_cluster := 0
    size := 0 }

/-- Root entry 1 of the C6 disk as parsed: file `B`, chain head 2. -/
def c6BEntry : Fat12Dirent :=
  { name := 66 :: List.replicate 7 32
    ext := List.replicate 3 32
    attr := 32
    reserved := List.replicate 10 0
    time := 0
    date := 0
    start_cluster := 2
    size := 0 }

/-- C6 counterexample.  On the C6 disk the root directory contains an
entry named `B` (at index 1, with live cluster chain `[2]`,
`FAT[2] = 0xFFF`), yet `fat12_open_write` for `"B"` (byte `66`) returns
a writer for index 0 — the deleted slot that precedes it — with an
EMPTY write batch and a fresh zeroed dirent: `B`'s old chain is not
freed, its directory entry is not reused in place, and closing this
writer would create a second directory entry named `B`. -/
theorem C6_counterexample :
    fat12_init vdiskIo c6Disk = .ok (c6Fat12, c6Disk) ∧
    fat12_read_root_entry c6Fat12 vdiskIo c6Disk 0 = .ok (c6DeletedEntry, c6Disk) ∧
    fat12_read_root_entry c6Fat12 vdiskIo c6Disk 1 = .ok (c6BEntry, c6Disk) ∧
    fat12_format_name [66] = (66 :: List.replicate 7 32, List.replicate 3 32) ∧
    fat12_get_entry c6Fat12 vdiskIo c6Disk 2 = .ok (4095, c6Disk) ∧
    fat12_open_write c6Fat12 vdiskIo c6Disk [66] 64 =
      .ok ({ dirent_index := 0
             dirent := { name := 66 :: List.replicate 7 32
                         ext := List.replicate 3 32
                         attr := 32
                         reserved := List.replicate 10 0 } }, c6Disk) := by
  refine ⟨rfl, rfl, rfl, rfl, rfl, rfl⟩
/-- C6 (amended): what `fat12_open_write`'s scan actually does at each
step.  Reading root entry `i` successfully: (a) if the entry is the
end-of-directory marker or a deleted slot, the scan stops HERE and
returns a fresh writer for index `i` with an empty batch — no chain is
freed, even if an entry named `N` exists further on; (b) only if the
entry matches the requested name/ext is the old chain freed
(`fat12_free_chain_loop` from its `start_cluster`) and the same entry
reused in place with `start_cluster`/`size` zeroed; (c) otherwise the
scan moves to entry `i + 1`.  The spec's claimed behaviour (b) is thus
reached only when no end-of-directory or deleted slot precedes `N`'s
entry in the root directory. -/
theorem C6_open_write_first_slot {σ : Type} (fat : Fat12) (io : Fat12Io σ)
    (name8 ext3 : List Nat) (cf i fuel : Nat) (s s1 : σ) (entry : Fat12Dirent)
    (hread : fat12_read_root_entry fat io s i = .ok (entry, s1)) :
    ((fat12_entry_is_end entry = true ∨ entry.name.headD 0 = 229) →
      fat12_open_write_loop fat io name8 ext3 cf i (fuel + 1) s =
        .ok ({ dirent_index := i
               dirent := { name := name8
                           ext := ext3
                           attr := 32
                           reserved := List.replicate 10 0 } }, s1)) ∧
    (fat12_entry_is_end entry = false → ¬(entry.name.headD 0 = 229) →
      entry.name = name8 → entry.ext = ext3 →
      fat12_open_write_loop fat io name8 ext3 cf i (fuel + 1) s =
        (match fat12_free_chain_loop fat io cf entry.start_cluster {} s1 with
         | .error e => .error e
         | .ok (b2, s2) =>
             .ok ({ batch := b2
                    dirent_index := i
                    dirent := { entry with start_cluster := 0, size := 0 } }, s2))) ∧
    (fat12_entry_is_end entry = false → ¬(entry.name.headD 0 = 229) →
      ¬(entry.name = name8 ∧ entry.ext = ext3) →
      fat12_open_write_loop fat io name8 ext3 cf i (fuel + 1) s =
        fat12_open_write_loop fat io name8 ext3 cf (i + 1) fuel s1) := by
  refine ⟨?_, ?_, ?_⟩
  · intro hend
    simp only [fat12_open_write_loop]
    rw [hread]
    rcases hend with h | h
    · simp [h]
    · rw [List.headD_eq_head?] at h
      by_cases he : fat12_entry_is_end entry = true
      · simp [he]
      · simp [he, h]
  · intro he hdel hn hx
    rw [List.headD_eq_head?, hn] at hdel
    simp only [fat12_open_write_loop]
    rw [hread]
    simp [he, hdel, hn, hx]
  · intro he hdel hne
    rw [List.headD_eq_head?] at hdel
    simp only [fat12_open_write_loop]
    rw [hread]
    simp [he, hdel, hne]

/-- Witness for C6 on the C6 disk: the scan at index 0 (deleted slot)
stops immediately with a fresh writer for slot 0 and an empty batch,
although entry 1 is named `B`. -/
theorem C6_open_write_first_slot_witness :
    fat12_open_write_loop c6Fat12 vdiskIo (66 :: List.replicate 7 32)
        (List.replicate 3 32) 64 0 224 c6Disk =
      .ok ({ dirent_index := 0
             dirent := { name := 66 :: List.replicate 7 32
                         ext := List.replicate 3 32
                         attr := 32
                         reserved := List.replicate 10 0 } }, c6Disk) :=
  (C6_open_write_first_slot c6Fat12 vdiskIo (66 :: List.replicate 7 32)
      (List.replicate 3 32) 64 0 223 c6Disk c6Disk c6DeletedEntry rfl).1
    (Or.inr rfl)

/-! ## Claim C7: write precompensation -/

/-- All pulse values of an encoder buffer are among the three nominal
timings 29 (Short), 53 (Medium), 77 (Long). -/
def enc_pulses_ok (e : MfmEnc) : Prop :=
  ∀ v ∈ e.buf, v = 29 ∨ v = 53 ∨ v = 77

/-- A `getD` below a prefix's length reads from the prefix. -/
theorem getD_of_grows {l1 l2 : List Nat} (h : l1 <+: l2) (i : Nat)
    (hi : i < l1.length) : l2.getD i 0 = l1.getD i 0 := by
  obtain ⟨t, rfl⟩ := h
  exact List.getD_append l1 t 0 i hi

theorem mfm_encode_pulse_grows (e : MfmEnc) (t : Nat) :
    e.buf <+: (mfm_encode_pulse e t).buf := by
  unfold mfm_encode_pulse
  split
  · exact ⟨[t], rfl⟩
  · exact List.prefix_rfl

theorem mfm_encode_emit_grows (e : MfmEnc) : e.buf <+: (mfm_encode_emit e).buf := by
  simp only [mfm_encode_emit]
  split
  · exact mfm_encode_pulse_grows e _
  · split
    · exact mfm_encode_pulse_grows e _
    · exact mfm_encode_pulse_grows e _

theorem mfm_encode_bit_grows (e : MfmEnc) (b : Bool) :
    e.buf <+: (mfm_encode_bit e b).buf := by
  have h1 : e.buf <+: (if (!e.prev_bit && !b) = true then mfm_encode_emit e
      else { e with pending_cells := e.pending_cells + 1 }).buf := by
    split
    · exact mfm_encode_emit_grows e
    · exact List.prefix_rfl
  have h2 : ∀ e1 : MfmEnc, e1.buf <+:
      (if b = true then mfm_encode_emit e1
       else { e1 with pending_cells := e1.pending_cells + 1 }).buf := by
    intro e1
    split
    · exact mfm_encode_emit_grows e1
    · exact List.prefix_rfl
  simp only [mfm_encode_bit]
  exact h1.trans (h2 _)

theorem mfm_encode_foldl_grows {α : Type} (f : MfmEnc → α → MfmEnc)
    (hf : ∀ e x, e.buf <+: (f e x).buf) :
    ∀ (l : List α) (e : MfmEnc), e.buf <+: (l.foldl f e).buf
  | [], _ => List.prefix_rfl
  | x :: xs, e =>
      (hf e x).trans (mfm_encode_foldl_grows f hf xs (f e x))

theorem mfm_encode_bytes_grows (e : MfmEnc) (data : List Nat) :
    e.buf <+: (mfm_encode_bytes e data).buf :=
  mfm_encode_foldl_grows mfm_encode_bit mfm_encode_bit_grows (bytesBits data) e

theorem mfm_encode_sync_grows (e : MfmEnc) : e.buf <+: (mfm_encode_sync e).buf := by
  simp only [mfm_encode_sync]
  exact (mfm_encode_bytes_grows e _).trans
    (mfm_encode_foldl_grows mfm_encode_pulse mfm_encode_pulse_grows sync_pulses _)

theorem mfm_encode_gap_grows (e : MfmEnc) (count : Nat) :
    e.buf <+: (mfm_encode_gap e count).buf :=
  mfm_encode_foldl_grows _ (fun e _ => mfm_encode_bytes_grows e [0x4E])
    (List.range count) e

theorem mfm_encode_sector_grows (e : MfmEnc) (s : Sector) :
    e.buf <+: (mfm_encode_sector e s).buf := by
  simp only [mfm_encode_sector]
  apply List.IsPrefix.trans (mfm_encode_sync_grows e)
  apply List.IsPrefix.trans (mfm_encode_bytes_grows _ _)
  apply List.IsPrefix.trans (mfm_encode_bytes_grows _ _)
  apply List.IsPrefix.trans (mfm_encode_gap_grows _ 22)
  apply List.IsPrefix.trans (mfm_encode_sync_grows _)
  apply List.IsPrefix.trans (mfm_encode_bytes_grows _ _)
  apply List.IsPrefix.trans (mfm_encode_bytes_grows _ _)
  exact mfm_encode_bytes_grows _ _

/-- The all-zero 512-byte sector of cylinder 60 (an inner cylinder). -/
def c7Sector : Sector :=
  { track := 60, side := 0, sector_n := 1, size_code := 2, size := 512,
    data := List.replicate 512 0, valid := true }

/-- A full cylinder-60 track of such sectors. -/
def c7Track : Track := { sectors := List.replicate 18 c7Sector, track := 60, side := 0 }

/-- Checkpoint state of the C7 encoder evaluation. -/
def c7g10 : MfmEnc :=
  { size := 600,
    buf := [29, 53, 53, 53, 29, 29, 53, 53, 53, 53, 29, 29, 53, 53, 53, 53, 29, 29, 53, 53, 53, 53, 29, 29, 53, 53, 53,
            53, 29, 29, 53, 53, 53, 53, 29, 29, 53, 53, 53, 53, 29, 29, 53, 53, 53, 53, 29, 29, 53, 53, 53, 53, 29, 29,
            53, 53, 53, 53, 29, 29],
    prev_bit := false,
    pending_cells := 2 }

/-- Checkpoint state of the C7 encoder evaluation. -/
def c7g20 : MfmEnc :=
  { size := 600,
    buf := [29, 53, 53, 53, 29, 29, 53, 53, 53, 53, 29, 29, 53, 53, 53, 53, 29, 29, 53, 53, 53, 53, 29, 29, 53, 53, 53,
            53, 29, 29, 53, 53, 53, 53, 29, 29, 53, 53, 53, 53, 29, 29, 53, 53, 53, 53, 29, 29, 53, 53, 53, 53, 29, 29,
            53, 53, 53, 53, 29, 29, 53, 53, 53, 53, 29, 29, 53, 53, 53, 53, 29, 29, 53, 53, 53, 53, 29, 29, 53, 53, 53,
            53, 29, 29, 53, 53, 53, 53, 29, 29, 53, 53, 53, 53, 29, 29, 53, 53, 53, 53, 29, 29, 53, 53, 53, 53, 29, 29,
            53, 53, 53, 53, 29, 29, 53, 53, 53, 53, 29, 29],
    prev_bit := false,
    pending_cells := 2 }

/-- Checkpoint state of the C7 encoder evaluation. -/
def c7g30 : MfmEnc :=
  { size := 600,
    buf := [29, 53, 53, 53, 29, 29, 53, 53, 53, 53, 29, 29, 53, 53, 53, 53, 29, 29, 53, 53, 53, 53, 29, 29, 53, 53, 53,
            53, 29, 29, 53, 53, 53, 53, 29, 29, 53, 53, 53, 53, 29, 29, 53, 53, 53, 53, 29, 29, 53, 53, 53, 53, 29, 29,
            53, 53, 53, 53, 29, 29, 53, 53, 53, 53, 29, 29, 53, 53, 53, 53, 29, 29, 53, 53, 53, 53, 29, 29, 53, 53, 53,
            53, 29, 29, 53, 53, 53, 53, 29, 29, 53, 53, 53, 53, 29, 29, 53, 53, 53, 53, 29, 29, 53, 53, 53, 53, 29, 29,
            53, 53, 53, 53, 29, 29, 53, 53, 53, 53, 29, 29, 53, 53, 53, 53, 29, 29, 53, 53, 53, 53, 29, 29, 53, 53, 53,
            53, 29, 29, 53, 53, 53, 53, 29, 29, 53, 53, 53, 53, 29, 29, 53, 53, 53, 53, 29, 29, 53, 53, 53, 53, 29, 29,
            53, 53, 53, 53, 29, 29, 53, 53, 53, 53, 29, 29, 53, 53, 53, 53, 29, 29],
    prev_bit := false,
    pending_cells := 2 }

/-- Checkpoint state of the C7 encoder evaluation. -/
def c7g40 : MfmEnc :=
  { size := 600,
    buf := [29, 53, 53, 53, 29, 29, 53, 53, 53, 53, 29, 29, 53, 53, 53, 53, 29, 29, 53, 53, 53, 53, 29, 29, 53, 53, 53,
            53, 29, 29, 53, 53, 53, 53, 29, 29, 53, 53, 53, 53, 29, 29, 53, 53, 53, 53, 29, 29, 53, 53, 53, 53, 29, 29,
            53, 53, 53, 53, 29, 29, 53, 53, 53, 53, 29, 29, 53, 53, 53, 53, 29, 29, 53, 53, 53, 53, 29, 29, 53, 53, 53,
            53, 29, 29, 53, 53, 53, 53, 29, 29, 53, 53, 53, 53, 29, 29, 53, 53, 53, 53, 29, 29, 53, 53, 53, 53, 29, 29,
            53, 53, 53, 53, 29, 29, 53, 53, 53, 53, 29, 29, 53, 53, 53, 53, 29, 29, 53, 53, 53, 53, 29, 29, 53, 53, 53,
            53, 29, 29, 53, 53, 53, 53, 29, 29, 53, 53, 53, 53, 29, 29, 53, 53, 53, 53, 29, 29, 53, 53, 53, 53, 29, 29,
            53, 53, 53, 53, 29, 29, 53, 53, 53, 53, 29, 29, 53, 53, 53, 53, 29, 29, 53, 53, 53, 53, 29, 29, 53, 53, 53,
            53, 29, 29, 53, 53, 53, 53, 29, 29, 53, 53, 53, 53, 29, 29, 53, 53, 53, 53, 29, 29, 53, 53, 53, 53, 29, 29,
            53, 53, 53, 53, 29, 29, 53, 53, 53, 53, 29, 29, 53, 53, 53, 53, 29, 29, 53, 53, 53, 53, 29, 29],
    prev_bit := false,
    pending_cells := 2 }

/-- Checkpoint state of the C7 encoder evaluation. -/
def c7g50 : MfmEnc :=
  { size := 600,
    buf := [29, 53, 53, 53, 29, 29, 53, 53, 53, 53, 29, 29, 53, 53, 53, 53, 29, 29, 53, 53, 53, 53, 29, 29, 53, 53, 53,
            53, 29, 29, 53, 53, 53, 53, 29, 29, 53, 53, 53, 53, 29, 29, 53, 53, 53, 53, 29, 29, 53, 53, 53, 53, 29, 29,
            53, 53, 53, 53, 29, 29, 53, 53, 53, 53, 29, 29, 53, 53, 53, 53, 29, 29, 53, 53, 53, 53, 29, 29, 53, 53, 53,
            53, 29, 29, 53, 53, 53, 53, 29, 29, 53, 53, 53, 53, 29, 29, 53, 53, 53, 53, 29, 29, 53, 53, 53, 53, 29, 29,
            53, 53, 53, 53, 29, 29, 53, 53, 53, 53, 29, 29, 53, 53, 53, 53, 29, 29, 53, 53, 53, 53, 29, 29, 53, 53, 53,
            53, 29, 29, 53, 53, 53, 53, 29, 29, 53, 53, 53, 53, 29, 29, 53, 53, 53, 53, 29, 29, 53, 53, 53, 53, 29, 29,
            53, 53, 53, 53, 29, 29, 53, 53, 53, 53, 29, 29, 53, 53, 53, 53, 29, 29, 53, 53, 53, 53, 29, 29, 53, 53, 53,
            53, 29, 29, 53, 53, 53, 53, 29, 29, 53, 53, 53, 53, 29, 29, 53, 53, 53, 53, 29, 29, 53, 53, 53, 53, 29, 29,
            53, 53, 53, 53, 29, 29, 53, 53, 53, 53, 29, 29, 53, 53, 53, 53, 29, 29, 53, 53, 53, 53, 29, 29, 53, 53, 53,
            53, 29, 29, 53, 53, 53, 53, 29, 29, 53, 53, 53, 53, 29, 29, 53, 53, 53, 53, 29, 29, 53, 53, 53, 53, 29, 29,
            53, 53, 53, 53, 29, 29, 53, 53, 53, 53, 29, 29, 53, 53, 53, 53, 29, 29, 53, 53, 53, 53, 29, 29, 53, 53, 53,
            53, 29, 29],
    prev_bit := false,
    pending_cells := 2 }

/-- Checkpoint state of the C7 encoder evaluation. -/
def c7g60 : MfmEnc :=
  { size := 600,
    buf := [29, 53, 53, 53, 29, 29, 53, 53, 53, 53, 29, 29, 53, 53, 53, 53, 29, 29, 53, 53, 53, 53, 29, 29, 53, 53, 53,
            53, 29, 29, 53, 53, 53, 53, 29, 29, 53, 53, 53, 53, 29, 29, 53, 53, 53, 53, 29, 29, 53, 53, 53, 53, 29, 29,
            53, 53, 53, 53, 29, 29, 53, 53, 53, 53, 29, 29, 53, 53, 53, 53, 29, 29, 53, 53, 53, 53, 29, 29, 53, 53, 53,
            53, 29, 29, 53, 53, 53, 53, 29, 29, 53, 53, 53, 53, 29, 29, 53, 53, 53, 53, 29, 29, 53, 53, 53, 53, 29, 29,
            53, 53, 53, 53, 29, 29, 53, 53, 53, 53, 29, 29, 53, 53, 53, 53, 29, 29, 53, 53, 53, 53, 29, 29, 53, 53, 53,
            53, 29, 29, 53, 53, 53, 53, 29, 29, 53, 53, 53, 53, 29, 29, 53, 53, 53, 53, 29, 29, 53, 53, 53, 53, 29, 29,
            53, 53, 53, 53, 29, 29, 53, 53, 53, 53, 29, 29, 53, 53, 53, 53, 29, 29, 53, 53, 53, 53, 29, 29, 53, 53, 53,
            53, 29, 29, 53, 53, 53, 53, 29, 29, 53, 53, 53, 53, 29, 29, 53, 53, 53, 53, 29, 29, 53, 53, 53, 53, 29, 29,
            53, 53, 53, 53, 29, 29, 53, 53, 53, 53, 29, 29, 53, 53, 53, 53, 29, 29, 53, 53, 53, 53, 29, 29, 53, 53, 53,
            53, 29, 29, 53, 53, 53, 53, 29, 29, 53, 53, 53, 53, 29, 29, 53, 53, 53, 53, 29, 29, 53, 53, 53, 53, 29, 29,
            53, 53, 53, 53, 29, 29, 53, 53, 53, 53, 29, 29, 53, 53, 53, 53, 29, 29, 53, 53, 53, 53, 29, 29, 53, 53, 53,
            53, 29, 29, 53, 53, 53, 53, 29, 29, 53, 53, 53, 53, 29, 29, 53, 53, 53, 53, 29, 29, 53, 53, 53, 53, 29, 29,
            53, 53, 53, 53, 29, 29, 53, 53, 53, 53, 29, 29, 53, 53, 53, 53, 29, 29, 53, 53, 53, 53, 29, 29, 53, 53, 53,
            53, 29, 29, 53, 53, 53, 53, 29, 29],
    prev_bit := false,
    pending_cells := 2 }

/-- Checkpoint state of the C7 encoder evaluation. -/
def c7g70 : MfmEnc :=
  { size := 600,
    buf := [29, 53, 53, 53, 29, 29, 53, 53, 53, 53, 29, 29, 53, 53, 53, 53, 29, 29, 53, 53, 53, 53, 29, 29, 53, 53, 53,
            53, 29, 29, 53, 53, 53, 53, 29, 29, 53, 53, 53, 53, 29, 29, 53, 53, 53, 53, 29, 29, 53, 53, 53, 53, 29, 29,
            53, 53, 53, 53, 29, 29, 53, 53, 53, 53, 29, 29, 53, 53, 53, 53, 29, 29, 53, 53, 53, 53, 29, 29, 53, 53, 53,
            53, 29, 29, 53, 53, 53, 53, 29, 29, 53, 53, 53, 53, 29, 29, 53, 53, 53, 53, 29, 29, 53, 53, 53, 53, 29, 29,
            53, 53, 53, 53, 29, 29, 53, 53, 53, 53, 29, 29, 53, 53, 53, 53, 29, 29, 53, 53, 53, 53, 29, 29, 53, 53, 53,
            53, 29, 29, 53, 53, 53, 53, 29, 29, 53, 53, 53, 53, 29, 29, 53, 53, 53, 53, 29, 29, 53, 53, 53, 53, 29, 29,
            53, 53, 53, 53, 29, 29, 53, 53, 53, 53, 29, 29, 53, 53, 53, 53, 29, 29, 53, 53, 53, 53, 29, 29, 53, 53, 53,
            53, 29, 29, 53, 53, 53, 53, 29, 29, 53, 53, 53, 53, 29, 29, 53, 53, 53, 53, 29, 29, 53, 53, 53, 53, 29, 29,
            53, 53, 53, 53, 29, 29, 53, 53, 53, 53, 29, 29, 53, 53, 53, 53, 29, 29, 53, 53, 53, 53, 29, 29, 53, 53, 53,
            53, 29, 29, 53, 53, 53, 53, 29, 29, 53, 53, 53, 53, 29, 29, 53, 53, 53, 53, 29, 29, 53, 53, 53, 53, 29, 29,
            53, 53, 53, 53, 29, 29, 53, 53, 53, 53, 29, 29, 53, 53, 53, 53, 29, 29, 53, 53, 53, 53, 29, 29, 53, 53, 53,
            53, 29, 29, 53, 53, 53, 53, 29, 29, 53, 53, 53, 53, 29, 29, 53, 53, 53, 53, 29, 29, 53, 53, 53, 53, 29, 29,
            53, 53, 53, 53, 29, 29, 53, 53, 53, 53, 29, 29, 53, 53, 53, 53, 29, 29, 53, 53, 53, 53, 29, 29, 53, 53, 53,
            53, 29, 29, 53, 53, 53, 53, 29, 29, 53, 53, 53, 53, 29, 29, 53, 53, 53, 53, 29, 29, 53, 53, 53, 53, 29, 29,
            53, 53, 53, 53, 29, 29, 53, 53, 53, 53, 29, 29, 53, 53, 53, 53, 29, 29, 53, 53, 53, 53, 29, 29, 53, 53, 53,
            53, 29, 29, 53, 53, 53, 53, 29, 29, 53, 53, 53, 53, 29, 29],
    prev_bit := false,
    pending_cells := 2 }

/-- Checkpoint state of the C7 encoder evaluation. -/
def c7g80 : MfmEnc :=
  { size := 600,
    buf := [29, 53, 53, 53, 29, 29, 53, 53, 53, 53, 29, 29, 53, 53, 53, 53, 29, 29, 53, 53, 53, 53, 29, 29, 53, 53, 53,
            53, 29, 29, 53, 53, 53, 53, 29, 29, 53, 53, 53, 53, 29, 29, 53, 53, 53, 53, 29, 29, 53, 53, 53, 53, 29, 29,
            53, 53, 53, 53, 29, 29, 53, 53, 53, 53, 29, 29, 53, 53, 53, 53, 29, 29, 53, 53, 53, 53, 29, 29, 53, 53, 53,
            53, 29, 29, 53, 53, 53, 53, 29, 29, 53, 53, 53, 53, 29, 29, 53, 53, 53, 53, 29, 29, 53, 53, 53, 53, 29, 29,
            53, 53, 53, 53, 29, 29, 53, 53, 53, 53, 29, 29, 53, 53, 53, 53, 29, 29, 53, 53, 53, 53, 29, 29, 53, 53, 53,
            53, 29, 29, 53, 53, 53, 53, 29, 29, 53, 53, 53, 53, 29, 29, 53, 53, 53, 53, 29, 29, 53, 53, 53, 53, 29, 29,
            53, 53, 53, 53, 29, 29, 53, 53, 53, 53, 29, 29, 53, 53, 53, 53, 29, 29, 53, 53, 53, 53, 29, 29, 53, 53, 53,
            53, 29, 29, 53, 53, 53, 53, 29, 29, 53, 53, 53, 53, 29, 29, 53, 53, 53, 53, 29, 29, 53, 53, 53, 53, 29, 29,
            53, 53, 53, 53, 29, 29, 53, 53, 53, 53, 29, 29, 53, 53, 53, 53, 29, 29, 53, 53, 53, 53, 29, 29, 53, 53, 53,
            53, 29, 29, 53, 53, 53, 53, 29, 29, 53, 53, 53, 53, 29, 29, 53, 53, 53, 53, 29, 29, 53, 53, 53, 53, 29, 29,
            53, 53, 53, 53, 29, 29, 53, 53, 53, 53, 29, 29, 53, 53, 53, 53, 29, 29, 53, 53, 53, 53, 29, 29, 53, 53, 53,
            53, 29, 29, 53, 53, 53, 53, 29, 29, 53, 53, 53, 53, 29, 29, 53, 53, 53, 53, 29, 29, 53, 53, 53, 53, 29, 29,
            53, 53, 53, 53, 29, 29, 53, 53, 53, 53, 29, 29, 53, 53, 53, 53, 29, 29, 53, 53, 53, 53, 29, 29, 53, 53, 53,
            53, 29, 29, 53, 53, 53, 53, 29, 29, 53, 53, 53, 53, 29, 29, 53, 53, 53, 53, 29, 29, 53, 53, 53, 53, 29, 29,
            53, 53, 53, 53, 29, 29, 53, 53, 53, 53, 29, 29, 53, 53, 53, 53, 29, 29, 53, 53, 53, 53, 29, 29, 53, 53, 53,
            53, 29, 29, 53, 53, 53, 53, 29, 29, 53, 53, 53, 53, 29, 29, 53, 53, 53, 53, 29, 29, 53, 53, 53, 53, 29, 29,
            53, 53, 53, 53, 29, 29, 53, 53, 53, 53, 29, 29, 53, 53, 53, 53, 29, 29, 53, 53, 53, 53, 29, 29, 53, 53, 53,
            53, 29, 29, 53, 53, 53, 53, 29, 29, 53, 53, 53, 53, 29, 29, 53, 53, 53, 53, 29, 29],
    prev_bit := false,
    pending_cells := 2 }

/-- Checkpoint state of the C7 encoder evaluation. -/
def c7Synced : MfmEnc :=
  { size := 600,
    buf := [29, 53, 53, 53, 29, 29, 53, 53, 53, 53, 29, 29, 53, 53, 53, 53, 29, 29, 53, 53, 53, 53, 29, 29, 53, 53, 53,
            53, 29, 29, 53, 53, 53, 53, 29, 29, 53, 53, 53, 53, 29, 29, 53, 53, 53, 53, 29, 29, 53, 53, 53, 53, 29, 29,
            53, 53, 53, 53, 29, 29, 53, 53, 53, 53, 29, 29, 53, 53, 53, 53, 29, 29, 53, 53, 53, 53, 29, 29, 53, 53, 53,
            53, 29, 29, 53, 53, 53, 53, 29, 29, 53, 53, 53, 53, 29, 29, 53, 53, 53, 53, 29, 29, 53, 53, 53, 53, 29, 29,
            53, 53, 53, 53, 29, 29, 53, 53, 53, 53, 29, 29, 53, 53, 53, 53, 29, 29, 53, 53, 53, 53, 29, 29, 53, 53, 53,
            53, 29, 29, 53, 53, 53, 53, 29, 29, 53, 53, 53, 53, 29, 29, 53, 53, 53, 53, 29, 29, 53, 53, 53, 53, 29, 29,
            53, 53, 53, 53, 29, 29, 53, 53, 53, 53, 29, 29, 53, 53, 53, 53, 29, 29, 53, 53, 53, 53, 29, 29, 53, 53, 53,
            53, 29, 29, 53, 53, 53, 53, 29, 29, 53, 53, 53, 53, 29, 29, 53, 53, 53, 53, 29, 29, 53, 53, 53, 53, 29, 29,
            53, 53, 53, 53, 29, 29, 53, 53, 53, 53, 29, 29, 53, 53, 53, 53, 29, 29, 53, 53, 53, 53, 29, 29, 53, 53, 53,
            53, 29, 29, 53, 53, 53, 53, 29, 29, 53, 53, 53, 53, 29, 29, 53, 53, 53, 53, 29, 29, 53, 53, 53, 53, 29, 29,
            53, 53, 53, 53, 29, 29, 53, 53, 53, 53, 29, 29, 53, 53, 53, 53, 29, 29, 53, 53, 53, 53, 29, 29, 53, 53, 53,
            53, 29, 29, 53, 53, 53, 53, 29, 29, 53, 53, 53, 53, 29, 29, 53, 53, 53, 53, 29, 29, 53, 53, 53, 53, 29, 29,
            53, 53, 53, 53, 29, 29, 53, 53, 53, 53, 29, 29, 53, 53, 53, 53, 29, 29, 53, 53, 53, 53, 29, 29, 53, 53, 53,
            53, 29, 29, 53, 53, 53, 53, 29, 29, 53, 53, 53, 53, 29, 29, 53, 53, 53, 53, 29, 29, 53, 53, 53, 53, 29, 29,
            53, 53, 53, 53, 29, 29, 53, 53, 53, 53, 29, 29, 53, 53, 53, 53, 29, 29, 53, 53, 53, 53, 29, 29, 53, 53, 53,
            53, 29, 29, 53, 53, 53, 53, 29, 29, 53, 53, 53, 53, 29, 29, 53, 53, 53, 53, 29, 29, 53, 53, 53, 53, 29, 29,
            53, 53, 53, 53, 29, 29, 53, 53, 53, 53, 29, 29, 53, 53, 53, 53, 29, 29, 53, 53, 53, 53, 29, 29, 53, 53, 53,
            53, 29, 29, 53, 53, 53, 53, 29, 29, 53, 53, 53, 53, 29, 29, 53, 53, 53, 53, 29, 29, 53, 29, 29, 29, 29, 29,
            29, 29, 29, 29, 29, 29, 29, 29, 29, 29, 29, 29, 29, 29, 29, 29, 29, 29, 29, 29, 29, 29, 29, 29, 29, 29, 29,
            29, 29, 29, 29, 29, 29, 29, 29, 29, 29, 29, 29, 29, 29, 29, 29, 29, 29, 29, 29, 29, 29, 29, 29, 29, 29, 29,
            29, 29, 29, 29, 29, 29, 29, 29, 29, 29, 29, 29, 29, 29, 29, 29, 29, 29, 29, 29, 29, 29, 29, 29, 29, 29, 29,
            29, 29, 29, 29, 29, 29, 29, 29, 29, 53, 77, 53, 77, 53, 29, 77, 53, 77, 53, 29, 77, 53, 77, 53],
    prev_bit := true,
    pending_cells := 0 }

theorem mfm_encode_gap_succ (e : MfmEnc) (n : Nat) :
    mfm_encode_gap e (n + 1) = mfm_encode_bytes (mfm_encode_gap e n) [0x4E] := by
  unfold mfm_encode_gap
  rw [List.range_succ, List.foldl_append, List.foldl_cons, List.foldl_nil]

theorem mfm_encode_gap_add (e : MfmEnc) (a b : Nat) :
    mfm_encode_gap e (a + b) = mfm_encode_gap (mfm_encode_gap e a) b := by
  induction b with
  | zero => rfl
  | succ n ihn =>
      rw [show a + (n + 1) = (a + n) + 1 from rfl, mfm_encode_gap_succ,
        mfm_encode_gap_succ, ihn]

set_option maxHeartbeats 2000000 in
theorem c7_gap_eval : mfm_encode_gap (mfm_encode_init 600) 80 = c7g80 := by
  have h10 : mfm_encode_gap (mfm_encode_init 600) 10 = c7g10 := by decide
  have h20 : mfm_encode_gap c7g10 10 = c7g20 := by decide
  have h30 : mfm_encode_gap c7g20 10 = c7g30 := by decide
  have h40 : mfm_encode_gap c7g30 10 = c7g40 := by decide
  have h50 : mfm_encode_gap c7g40 10 = c7g50 := by decide
  have h60 : mfm_encode_gap c7g50 10 = c7g60 := by decide
  have h70 : mfm_encode_gap c7g60 10 = c7g70 := by decide
  have h80 : mfm_encode_gap c7g70 10 = c7g80 := by decide
  rw [show (80 : Nat) = 10 + 10 + 10 + 10 + 10 + 10 + 10 + 10 from rfl]
  rw [mfm_encode_gap_add, mfm_encode_gap_add, mfm_encode_gap_add, mfm_encode_gap_add,
    mfm_encode_gap_add, mfm_encode_gap_add, mfm_encode_gap_add]
  rw [h10, h20, h30, h40, h50, h60, h70, h80]

set_option maxHeartbeats 2000000 in
theorem c7_sync_eval :
    mfm_encode_sync (mfm_encode_gap (mfm_encode_init 600) 80) = c7Synced := by
  rw [c7_gap_eval]
  decide

/-- The first sync block a sector encoding emits extends the buffer
only to the right of what the sync itself produced. -/
theorem mfm_encode_sector_sync_grows (e : MfmEnc) (s : Sector) :
    (mfm_encode_sync e).buf <+: (mfm_encode_sector e s).buf := by
  simp only [mfm_encode_sector]
  apply List.IsPrefix.trans (mfm_encode_bytes_grows _ _)
  apply List.IsPrefix.trans (mfm_encode_bytes_grows _ _)
  apply List.IsPrefix.trans (mfm_encode_gap_grows _ 22)
  apply List.IsPrefix.trans (mfm_encode_sync_grows _)
  apply List.IsPrefix.trans (mfm_encode_bytes_grows _ _)
  apply List.IsPrefix.trans (mfm_encode_bytes_grows _ _)
  exact mfm_encode_bytes_grows _ _

/-- Track encoding starts with gap 4a and the first sector's first
sync block; everything later only appends. -/
theorem mfm_encode_track_sync_grows (e : MfmEnc) (t : Track) :
    (mfm_encode_sync (mfm_encode_gap e 80)).buf <+: (mfm_encode_track e t).buf := by
  have hrange : List.range 18 =
      0 :: [1, 2, 3, 4, 5, 6, 7, 8, 9, 10, 11, 12, 13, 14, 15, 16, 17] := by decide
  simp only [mfm_encode_track]
  rw [hrange, List.foldl_cons]
  exact ((mfm_encode_sector_sync_grows (mfm_encode_gap e 80)
      (t.sectors.getD 0 {})).trans (mfm_encode_gap_grows _ 54)).trans
    (mfm_encode_foldl_grows
      (fun e i => mfm_encode_gap (mfm_encode_sector e (t.sectors.getD i {})) 54)
      (fun e _ => (mfm_encode_sector_grows e _).trans (mfm_encode_gap_grows _ 54))
      [1, 2, 3, 4, 5, 6, 7, 8, 9, 10, 11, 12, 13, 14, 15, 16, 17]
      (mfm_encode_gap (mfm_encode_sector (mfm_encode_gap e 80)
        (t.sectors.getD 0 {})) 54))

set_option maxRecDepth 100000 in
/-- C7 counterexample.  Encoding a cylinder-60 track (cylinder ≥ 40,
claimed shift `3 + (60 − 40)/13 = 4`): pulse 581 of the output is a
Short (29) whose neighbors are a Medium (53, non-Long) and a Long (77)
— exactly the pattern the spec says must be shifted — yet its value is
the plain nominal 29, not `29 ± 4`.  No post-processing happens. -/
theorem C7_counterexample :
    c7Sector.track = 60 ∧
    3 + (60 - 40) / 13 = 4 ∧
    (mfm_encode_track (mfm_encode_init 600) c7Track).buf.getD 580 0 = 53 ∧
    (mfm_encode_track (mfm_encode_init 600) c7Track).buf.getD 581 0 = 29 ∧
    (mfm_encode_track (mfm_encode_init 600) c7Track).buf.getD 582 0 = 77 ∧
    ¬((29 : Nat) = 29 + 4 ∨ (29 : Nat) = 29 - 4) := by
  have hlen : (mfm_encode_sync (mfm_encode_gap (mfm_encode_init 600) 80)).buf.length
      = 591 := by rw [c7_sync_eval]; decide
  refine ⟨rfl, by decide, ?_, ?_, ?_, by decide⟩
  · rw [getD_of_grows (mfm_encode_track_sync_grows (mfm_encode_init 600) c7Track) 580
      (by rw [hlen]; decide)]
    rw [c7_sync_eval]
    decide
  · rw [getD_of_grows (mfm_encode_track_sync_grows (mfm_encode_init 600) c7Track) 581
      (by rw [hlen]; decide)]
    rw [c7_sync_eval]
    decide
  · rw [getD_of_grows (mfm_encode_track_sync_grows (mfm_encode_init 600) c7Track) 582
      (by rw [hlen]; decide)]
    rw [c7_sync_eval]
    decide

theorem mfm_encode_pulse_ok (e : MfmEnc) (t : Nat) (ht : t = 29 ∨ t = 53 ∨ t = 77)
    (h : enc_pulses_ok e) : enc_pulses_ok (mfm_encode_pulse e t) := by
  unfold mfm_encode_pulse
  split
  · intro v hv
    have hv' : v ∈ e.buf ++ [t] := hv
    rcases List.mem_append.mp hv' with h1 | h1
    · exact h v h1
    · rcases List.mem_singleton.mp h1 with rfl
      exact ht
  · exact h

theorem mfm_encode_emit_ok (e : MfmEnc) (h : enc_pulses_ok e) :
    enc_pulses_ok (mfm_encode_emit e) := by
  by_cases h1 : e.pending_cells ≤ 1
  · intro v hv
    exact mfm_encode_pulse_ok e MFM_PULSE_SHORT (Or.inl rfl) h v
      (by simpa [mfm_encode_emit, h1] using hv)
  · by_cases h2 : e.pending_cells = 2
    · intro v hv
      exact mfm_encode_pulse_ok e MFM_PULSE_MEDIUM (Or.inr (Or.inl rfl)) h v
        (by simpa [mfm_encode_emit, h1, h2] using hv)
    · intro v hv
      exact mfm_encode_pulse_ok e MFM_PULSE_LONG (Or.inr (Or.inr rfl)) h v
        (by simpa [mfm_encode_emit, h1, h2] using hv)

theorem mfm_encode_bit_ok (e : MfmEnc) (b : Bool) (h : enc_pulses_ok e) :
    enc_pulses_ok (mfm_encode_bit e b) := by
  have h1 : enc_pulses_ok (if (!e.prev_bit && !b) = true then mfm_encode_emit e
      else { e with pending_cells := e.pending_cells + 1 }) := by
    split
    · exact mfm_encode_emit_ok e h
    · exact fun v hv => h v hv
  have h2 : ∀ e1 : MfmEnc, enc_pulses_ok e1 →
      enc_pulses_ok (if b = true then mfm_encode_emit e1
        else { e1 with pending_cells := e1.pending_cells + 1 }) := by
    intro e1 he1
    split
    · exact mfm_encode_emit_ok e1 he1
    · exact fun v hv => he1 v hv
  intro v hv
  exact h2 _ h1 v hv

theorem enc_pulses_ok_foldl {α : Type} (f : MfmEnc → α → MfmEnc)
    (hf : ∀ e x, enc_pulses_ok e → enc_pulses_ok (f e x)) :
    ∀ (l : List α) (e : MfmEnc), enc_pulses_ok e → enc_pulses_ok (l.foldl f e)
  | [], _, h => h
  | x :: xs, e, h => enc_pulses_ok_foldl f hf xs (f e x) (hf e x h)

theorem mfm_encode_bytes_ok (e : MfmEnc) (data : List Nat) (h : enc_pulses_ok e) :
    enc_pulses_ok (mfm_encode_bytes e data) :=
  enc_pulses_ok_foldl mfm_encode_bit (fun e b => mfm_encode_bit_ok e b)
    (bytesBits data) e h

theorem enc_pulses_ok_pulses :
    ∀ (l : List Nat), (∀ x ∈ l, x = 29 ∨ x = 53 ∨ x = 77) →
    ∀ e, enc_pulses_ok e → enc_pulses_ok (l.foldl mfm_encode_pulse e)
  | [], _, _, h => h
  | x :: xs, hl, e, h =>
      enc_pulses_ok_pulses xs (fun y hy => hl y (List.mem_cons_of_mem x hy))
        (mfm_encode_pulse e x) (mfm_encode_pulse_ok e x (hl x (List.mem_cons_self x xs)) h)

theorem enc_pulses_ok_set (e : MfmEnc) (b : Bool) (c : Nat) (h : enc_pulses_ok e) :
    enc_pulses_ok { e with prev_bit := b, pending_cells := c } := h

theorem mfm_encode_sync_ok (e : MfmEnc) (h : enc_pulses_ok e) :
    enc_pulses_ok (mfm_encode_sync e) := by
  simp only [mfm_encode_sync]
  exact enc_pulses_ok_set _ _ _
    (enc_pulses_ok_pulses sync_pulses (by decide) _
      (mfm_encode_bytes_ok e (List.replicate 12 0) h))

theorem mfm_encode_gap_ok (e : MfmEnc) (count : Nat) (h : enc_pulses_ok e) :
    enc_pulses_ok (mfm_encode_gap e count) :=
  enc_pulses_ok_foldl _ (fun e _ he => mfm_encode_bytes_ok e [0x4E] he)
    (List.range count) e h

theorem mfm_encode_sector_ok (e : MfmEnc) (s : Sector) (h : enc_pulses_ok e) :
    enc_pulses_ok (mfm_encode_sector e s) := by
  simp only [mfm_encode_sector]
  exact mfm_encode_bytes_ok _ _ (mfm_encode_bytes_ok _ _ (mfm_encode_bytes_ok _ _
    (mfm_encode_sync_ok _ (mfm_encode_gap_ok _ 22 (mfm_encode_bytes_ok _ _
      (mfm_encode_bytes_ok _ _ (mfm_encode_sync_ok _ h)))))))

/-- C7 (amended): `mfm_encode_track` applies NO write precompensation.
Every pulse it appends — for every track, on every cylinder, inner or
outer — is exactly one of the three nominal timings 29 (Short),
53 (Medium), 77 (Long); the pulse array is never post-processed, so no
Short pulse is ever shifted by `3 + (cyl − 40)/13` or by any other
amount, and the emitted stream for cylinders ≥ 40 is built from the
same plain three-class timing values as for cylinders < 40 (see
`C7_counterexample` for a trigger position left unshifted). -/
theorem C7_no_precompensation (e : MfmEnc) (t : Track) (h : enc_pulses_ok e) :
    enc_pulses_ok (mfm_encode_track e t) := by
  simp only [mfm_encode_track]
  exact enc_pulses_ok_foldl _
    (fun e i he => mfm_encode_gap_ok _ 54 (mfm_encode_sector_ok _ _ he))
    (List.range 18) _ (mfm_encode_gap_ok e 80 h)

set_option maxRecDepth 100000 in
/-- Witness for C7: on the concretely encoded cylinder-60 track every
pulse is nominal; in particular the pulse value 29 occurring in the
output (at position 581, among others) is unshifted. -/
theorem C7_no_precompensation_witness :
    29 ∈ (mfm_encode_track (mfm_encode_init 600) c7Track).buf ∧
    (29 = 29 ∨ 29 = 53 ∨ 29 = 77) := by
  have hm : (29 : Nat) ∈ (mfm_encode_sync (mfm_encode_gap (mfm_encode_init 600) 80)).buf := by
    rw [c7_sync_eval]
    decide
  have hm2 : (29 : Nat) ∈ (mfm_encode_track (mfm_encode_init 600) c7Track).buf :=
    (mfm_encode_track_sync_grows (mfm_encode_init 600) c7Track).subset hm
  exact ⟨hm2, C7_no_precompensation (mfm_encode_init 600) c7Track
    (fun v hv => absurd hv (List.not_mem_nil v)) 29 hm2⟩

/-! ## Claim C9: emission safety of the decoder -/

/-- The 528-byte record buffer is out of room: a further stored byte
would be dropped by the `buf_pos < sizeof(m->buf)` guard. -/
def mfm_overflow (m : Mfm) : Bool := 528 ≤ m.buf.length

/-- Invariant of reachable decoder states: the record buffer fits its
528-byte capacity, the latched size code is clamped to ≤ 2, at most
515 record bytes are ever expected, and while assembling a record
(states DATA/CLOCK) the buffer holds strictly fewer bytes than the
record needs (so completion is detected exactly when it fills). -/
def MfmInv (m : Mfm) : Prop :=
  m.buf.length ≤ 528 ∧
  m.pending_size_code ≤ 2 ∧
  m.bytes_expected ≤ 515 ∧
  ((m.state = MfmState.data ∨ m.state = MfmState.clock) →
    (m.bytes_expected = 0 → m.buf.length = 0) ∧
    (0 < m.bytes_expected → m.buf.length < m.bytes_expected))

instance MfmInv_decidable (m : Mfm) : Decidable (MfmInv m) := by
  unfold MfmInv
  infer_instance

theorem mfm_push_bit_be (m : Mfm) (b : Bool) :
    (mfm_push_bit m b).bytes_expected = m.bytes_expected := by
  simp only [mfm_push_bit]; split <;> rfl

theorem mfm_push_bit_psc (m : Mfm) (b : Bool) :
    (mfm_push_bit m b).pending_size_code = m.pending_size_code := by
  simp only [mfm_push_bit]; split <;> rfl

theorem mfm_push_bit_len (m : Mfm) (b : Bool) :
    m.buf.length ≤ (mfm_push_bit m b).buf.length ∧
    (mfm_push_bit m b).buf.length ≤ m.buf.length + 1 := by
  simp only [mfm_push_bit]
  split
  · constructor
    · split <;> simp
    · split <;> simp
  · exact ⟨Nat.le_refl _, Nat.le_succ _⟩

theorem MfmInv_reset (m : Mfm) (hlen : m.buf.length ≤ 528)
    (hpsc : m.pending_size_code ≤ 2) (hbe : m.bytes_expected ≤ 515) :
    MfmInv (mfm_reset m) := by
  refine ⟨hlen, hpsc, hbe, ?_⟩
  intro hst
  rcases hst with h | h <;> simp [mfm_reset] at h

theorem ite_lt_min (a b : Nat) : (if a < b then a else b) = min a b := by
  split <;> omega

theorem mfm_check_complete_safety (m : Mfm)
    (hlen : m.buf.length ≤ 528) (hpsc : m.pending_size_code ≤ 2)
    (hbe : m.bytes_expected ≤ 515)
    (h0 : m.bytes_expected = 0 → m.buf.length = 0)
    (h1 : 0 < m.bytes_expected → m.buf.length ≤ m.bytes_expected) :
    MfmInv (mfm_check_complete m).1 ∧
    ∀ out, (mfm_check_complete m).2 = some out →
      out.data.length ≤ 512 ∧
      out.data.length ≤ (mfm_check_complete m).1.buf.length - 1 ∧
      out.size_code ≤ 2 ∧
      mfm_overflow (mfm_check_complete m).1 = false ∧
      (out.valid = true ↔ ((mfm_check_complete m).1.crc = 0 ∧
        mfm_overflow (mfm_check_complete m).1 = false)) := by
  by_cases hc : 0 < m.bytes_expected ∧ m.bytes_expected ≤ m.buf.length
  · have hl515 : m.buf.length ≤ 515 := le_trans (h1 hc.1) hbe
    by_cases hm1 : m.buf.headD 0 = 0xFE
    · by_cases hcrc : m.crc = 0
      · constructor
        · simp only [mfm_check_complete]
          rw [if_pos hc, if_pos hm1, if_pos hcrc]
          exact MfmInv_reset _ hlen
            (by show (if 2 < m.buf.getD 4 0 % 4 then 2 else m.buf.getD 4 0 % 4) ≤ 2
                split <;> omega) hbe
        · intro out hout
          simp only [mfm_check_complete] at hout
          rw [if_pos hc, if_pos hm1, if_pos hcrc] at hout
          exact absurd hout (by simp)
      · constructor
        · simp only [mfm_check_complete]
          rw [if_pos hc, if_pos hm1, if_neg hcrc]
          exact MfmInv_reset _ hlen hpsc hbe
        · intro out hout
          simp only [mfm_check_complete] at hout
          rw [if_pos hc, if_pos hm1, if_neg hcrc] at hout
          exact absurd hout (by simp)
    · by_cases hm2 : (m.buf.headD 0 = 0xFB ∨ m.buf.headD 0 = 0xFA) ∧
          m.have_pending_addr = true
      · constructor
        · simp only [mfm_check_complete]
          rw [if_pos hc, if_neg hm1, if_pos hm2]
          exact MfmInv_reset _ hlen hpsc hbe
        · intro out hout
          simp only [mfm_check_complete] at hout ⊢
          rw [if_pos hc, if_neg hm1, if_pos hm2] at hout ⊢
          have h' := Option.some.inj hout
          subst h'
          have hsz : (128 <<< m.pending_size_code) % 65536 ≤ 512 := by
            have h3 : m.pending_size_code = 0 ∨ m.pending_size_code = 1 ∨
                m.pending_size_code = 2 := by omega
            rcases h3 with h | h | h <;> rw [h] <;> decide
          have hov : decide (528 ≤ m.buf.length) = false := by
            rw [decide_eq_false_iff_not]
            omega
          refine ⟨?_, ?_, hpsc, hov, ?_⟩
          · show ((m.buf.drop 1).take
                (if m.buf.length - 1 <
                    (if 512 < (128 <<< m.pending_size_code) % 65536 then 512
                     else (128 <<< m.pending_size_code) % 65536) then m.buf.length - 1
                 else (if 512 < (128 <<< m.pending_size_code) % 65536 then 512
                     else (128 <<< m.pending_size_code) % 65536))).length ≤ 512
            rw [ite_lt_min 512 ((128 <<< m.pending_size_code) % 65536),
              ite_lt_min (m.buf.length - 1)
                (min 512 ((128 <<< m.pending_size_code) % 65536)),
              List.length_take, List.length_drop]
            omega
          · show ((m.buf.drop 1).take
                (if m.buf.length - 1 <
                    (if 512 < (128 <<< m.pending_size_code) % 65536 then 512
                     else (128 <<< m.pending_size_code) % 65536) then m.buf.length - 1
                 else (if 512 < (128 <<< m.pending_size_code) % 65536 then 512
                     else (128 <<< m.pending_size_code) % 65536))).length ≤
              m.buf.length - 1
            rw [ite_lt_min 512 ((128 <<< m.pending_size_code) % 65536),
              ite_lt_min (m.buf.length - 1)
                (min 512 ((128 <<< m.pending_size_code) % 65536)),
              List.length_take, List.length_drop]
            omega
          · show decide (m.crc = 0) = true ↔
              (m.crc = 0 ∧ decide (528 ≤ m.buf.length) = false)
            rw [hov]
            simp [decide_eq_true_iff]
      · constructor
        · simp only [mfm_check_complete]
          rw [if_pos hc, if_neg hm1, if_neg hm2]
          exact MfmInv_reset _ hlen hpsc hbe
        · intro out hout
          simp only [mfm_check_complete] at hout
          rw [if_pos hc, if_neg hm1, if_neg hm2] at hout
          exact absurd hout (by simp)
  · constructor
    · simp only [mfm_check_complete]
      rw [if_neg hc]
      exact ⟨hlen, hpsc, hbe, fun _ => ⟨h0, fun hb =>
        have hb' : 0 < m.bytes_expected := hb
        (by omega : m.buf.length < m.bytes_expected)⟩⟩
    · intro out hout
      simp only [mfm_check_complete] at hout
      rw [if_neg hc] at hout
      exact absurd hout (by simp)

theorem mfm_check_record_safety (m : Mfm)
    (hlen : m.buf.length ≤ 528) (hpsc : m.pending_size_code ≤ 2)
    (hbe : m.bytes_expected ≤ 515)
    (h0 : m.bytes_expected = 0 → m.buf.length ≤ 1)
    (h1 : 0 < m.bytes_expected → m.buf.length ≤ m.bytes_expected) :
    MfmInv (mfm_check_record m).1 ∧
    ∀ out, (mfm_check_record m).2 = some out →
      out.data.length ≤ 512 ∧
      out.data.length ≤ (mfm_check_record m).1.buf.length - 1 ∧
      out.size_code ≤ 2 ∧
      mfm_overflow (mfm_check_record m).1 = false ∧
      (out.valid = true ↔ ((mfm_check_record m).1.crc = 0 ∧
        mfm_overflow (mfm_check_record m).1 = false)) := by
  by_cases hfirst : m.buf.length = 1 ∧ m.bytes_expected = 0
  · by_cases hm1 : m.buf.headD 0 = 0xFE
    · have hr : mfm_check_record m = mfm_check_complete { m with bytes_expected := 7 } := by
        simp only [mfm_check_record]
        rw [if_pos hfirst, if_pos hm1]
      rw [hr]
      exact mfm_check_complete_safety _ hlen hpsc
        (by show (7 : Nat) ≤ 515; decide)
        (fun h => absurd (show (7 : Nat) = 0 from h) (by decide))
        (fun _ => show m.buf.length ≤ 7 by omega)
    · by_cases hm2 : m.buf.headD 0 = 0xFB ∨ m.buf.headD 0 = 0xFA
      · have hr : mfm_check_record m = mfm_check_complete { m with bytes_expected :=
            if m.have_pending_addr = true
            then 1 + ((128 <<< m.pending_size_code) % 65536) + 2 else 515 } := by
          simp only [mfm_check_record]
          rw [if_pos hfirst, if_neg hm1, if_pos hm2]
        have hsz : (128 <<< m.pending_size_code) % 65536 ≤ 512 := by
          have h3 : m.pending_size_code = 0 ∨ m.pending_size_code = 1 ∨
              m.pending_size_code = 2 := by omega
          rcases h3 with h | h | h <;> rw [h] <;> decide
        rw [hr]
        exact mfm_check_complete_safety _ hlen hpsc
          (by show (if m.have_pending_addr = true
                then 1 + ((128 <<< m.pending_size_code) % 65536) + 2 else 515) ≤ 515
              split <;> omega)
          (by show (if m.have_pending_addr = true
                then 1 + ((128 <<< m.pending_size_code) % 65536) + 2 else 515) = 0 →
                m.buf.length = 0
              split <;> omega)
          (by show 0 < (if m.have_pending_addr = true
                then 1 + ((128 <<< m.pending_size_code) % 65536) + 2 else 515) →
                m.buf.length ≤ (if m.have_pending_addr = true
                then 1 + ((128 <<< m.pending_size_code) % 65536) + 2 else 515)
              split <;> omega)
      · have hr : mfm_check_record m = (mfm_reset m, none) := by
          simp only [mfm_check_record]
          rw [if_pos hfirst, if_neg hm1, if_neg hm2]
        rw [hr]
        refine ⟨MfmInv_reset m hlen hpsc hbe, ?_⟩
        intro out hout
        exact absurd hout (by simp)
  · have hr : mfm_check_record m = mfm_check_complete m := by
      simp only [mfm_check_record]
      rw [if_neg hfirst]
    rw [hr]
    exact mfm_check_complete_safety m hlen hpsc hbe (fun hb => by omega) h1

theorem mfm_push_bit_cases (m : Mfm) (b : Bool) :
    ((mfm_push_bit m b).buf = m.buf ∧ (mfm_push_bit m b).bit_count = m.bit_count + 1) ∨
    (m.buf.length ≤ (mfm_push_bit m b).buf.length ∧
     (mfm_push_bit m b).buf.length ≤ m.buf.length + 1 ∧
     (mfm_push_bit m b).bit_count = 0 ∧ 8 ≤ m.bit_count + 1) := by
  simp only [mfm_push_bit]
  split
  · refine Or.inr ⟨?_, ?_, rfl, by assumption⟩
    · split <;> simp
    · split <;> simp
  · exact Or.inl ⟨rfl, rfl⟩

theorem mfm_push_bit2_len (m : Mfm) (b1 b2 : Bool) :
    m.buf.length ≤ (mfm_push_bit (mfm_push_bit m b1) b2).buf.length ∧
    (mfm_push_bit (mfm_push_bit m b1) b2).buf.length ≤ m.buf.length + 1 := by
  rcases mfm_push_bit_cases m b1 with ⟨ha, hb⟩ | ⟨ha, hb, hc, hd⟩ <;>
    rcases mfm_push_bit_cases (mfm_push_bit m b1) b2 with ⟨ha2, hb2⟩ | ⟨ha2, hb2, hc2, hd2⟩
  · have e1 := congrArg List.length ha
    have e2 := congrArg List.length ha2
    omega
  · have e1 := congrArg List.length ha
    omega
  · have e2 := congrArg List.length ha2
    omega
  · omega

/-- C9.  Emission safety of the decoder: from any state satisfying the
reachability invariant `MfmInv` (which `mfm_init` does and every
`mfm_feed` step preserves), the invariant is preserved — in particular
the 528-byte record buffer is never written past its capacity — and
whenever a step emits a sector, the payload holds at most 512 bytes
and at most `buf_pos − 1` bytes (the data is `buf[1..]`, never read
past the accumulated bytes), the latched size code is clamped to ≤ 2,
no buffer overflow has occurred, and the sector's `valid` flag equals
`crc_ok ∧ ¬overflow` (the record CRC is zero and the buffer did not
overflow). -/
theorem C9_emission_safety (m : Mfm) (d : Nat) (h : MfmInv m) :
    MfmInv (mfm_feed m d).1 ∧
    ∀ out, (mfm_feed m d).2 = some out →
      out.data.length ≤ 512 ∧
      out.data.length ≤ (mfm_feed m d).1.buf.length - 1 ∧
      out.size_code ≤ 2 ∧
      mfm_overflow (mfm_feed m d).1 = false ∧
      (out.valid = true ↔ ((mfm_feed m d).1.crc = 0 ∧
        mfm_overflow (mfm_feed m d).1 = false)) := by
  obtain ⟨hlen, hpsc, hbe, hdc⟩ := h
  cases hcl : mfm_classify m d with
  | none =>
      simp only [mfm_feed, hcl]
      exact ⟨⟨hlen, hpsc, hbe, hdc⟩, fun out hout => absurd hout (by simp)⟩
  | some p =>
      simp only [mfm_feed, hcl]
      cases hst : m.state with
      | hunt =>
          simp only [mfm_feed_class, hst]
          split
          · exact ⟨⟨hlen, hpsc, hbe, fun hst' => by
              rcases hst' with hh | hh <;> simp [hst] at hh⟩,
              fun out hout => absurd hout (by simp)⟩
          · split
            · split
              · exact ⟨⟨hlen, hpsc, hbe, fun hst' => by
                  rcases hst' with hh | hh <;> simp [hst] at hh⟩,
                  fun out hout => absurd hout (by simp)⟩
              · exact ⟨⟨hlen, hpsc, hbe, fun hst' => by
                  rcases hst' with hh | hh <;> simp [hst] at hh⟩,
                  fun out hout => absurd hout (by simp)⟩
            · exact ⟨⟨hlen, hpsc, hbe, fun hst' => by
                rcases hst' with hh | hh <;> simp [hst] at hh⟩,
                fun out hout => absurd hout (by simp)⟩
      | syncing =>
          simp only [mfm_feed_class, hst]
          split
          · split
            · exact ⟨⟨by simp, hpsc, by simp, fun _ =>
                ⟨fun _ => by simp, fun hb => by simp at hb⟩⟩,
                fun out hout => absurd hout (by simp)⟩
            · exact ⟨⟨hlen, hpsc, hbe, fun hst' => by
                rcases hst' with hh | hh <;> simp [hst] at hh⟩,
                fun out hout => absurd hout (by simp)⟩
          · split
            · exact ⟨⟨hlen, hpsc, hbe, fun hst' => by
                rcases hst' with hh | hh <;> simp [hst] at hh⟩,
                fun out hout => absurd hout (by simp)⟩
            · exact ⟨⟨hlen, hpsc, hbe, fun hst' => by
                rcases hst' with hh | hh <;> simp [hst] at hh⟩,
                fun out hout => absurd hout (by simp)⟩
      | data =>
          obtain ⟨hd0, hd1⟩ := hdc (Or.inl hst)
          simp only [mfm_feed_class, hst]
          rcases p with _ | _ | n
          · have hl := mfm_push_bit_len m true
            have hbeq := mfm_push_bit_be m true
            have hpeq := mfm_push_bit_psc m true
            rcases Nat.eq_zero_or_pos m.bytes_expected with h0 | h0
            · have hz := hd0 h0
              exact mfm_check_record_safety _ (by omega) (by omega) (by omega)
                (fun _ => by omega) (fun hb => by omega)
            · have hlt := hd1 h0
              exact mfm_check_record_safety _ (by omega) (by omega) (by omega)
                (fun hh => by omega) (fun hb => by omega)
          · have hl := mfm_push_bit2_len m false false
            have hbeq : (mfm_push_bit (mfm_push_bit m false) false).bytes_expected =
                m.bytes_expected := by rw [mfm_push_bit_be, mfm_push_bit_be]
            have hpeq : (mfm_push_bit (mfm_push_bit m false) false).pending_size_code =
                m.pending_size_code := by rw [mfm_push_bit_psc, mfm_push_bit_psc]
            rcases Nat.eq_zero_or_pos m.bytes_expected with h0 | h0
            · have hz := hd0 h0
              exact mfm_check_record_safety _ (by dsimp only; omega) (by dsimp only; omega)
                (by dsimp only; omega) (fun hh => by dsimp only at hh ⊢; omega)
                (fun hb => by dsimp only at hb ⊢; omega)
            · have hlt := hd1 h0
              exact mfm_check_record_safety _ (by dsimp only; omega) (by dsimp only; omega)
                (by dsimp only; omega) (fun hh => by dsimp only at hh ⊢; omega)
                (fun hb => by dsimp only at hb ⊢; omega)
          · have hl := mfm_push_bit2_len m false true
            have hbeq : (mfm_push_bit (mfm_push_bit m false) true).bytes_expected =
                m.bytes_expected := by rw [mfm_push_bit_be, mfm_push_bit_be]
            have hpeq : (mfm_push_bit (mfm_push_bit m false) true).pending_size_code =
                m.pending_size_code := by rw [mfm_push_bit_psc, mfm_push_bit_psc]
            rcases Nat.eq_zero_or_pos m.bytes_expected with h0 | h0
            · have hz := hd0 h0
              exact mfm_check_record_safety _ (by omega) (by omega) (by omega)
                (fun hh => by omega) (fun hb => by omega)
            · have hlt := hd1 h0
              exact mfm_check_record_safety _ (by omega) (by omega) (by omega)
                (fun hh => by omega) (fun hb => by omega)
      | clock =>
          obtain ⟨hd0, hd1⟩ := hdc (Or.inr hst)
          simp only [mfm_feed_class, hst]
          rcases p with _ | _ | n
          · have hl := mfm_push_bit_len m false
            have hbeq := mfm_push_bit_be m false
            have hpeq := mfm_push_bit_psc m false
            rcases Nat.eq_zero_or_pos m.bytes_expected with h0 | h0
            · have hz := hd0 h0
              exact mfm_check_record_safety _ (by omega) (by omega) (by omega)
                (fun _ => by omega) (fun hb => by omega)
            · have hlt := hd1 h0
              exact mfm_check_record_safety _ (by omega) (by omega) (by omega)
                (fun hh => by omega) (fun hb => by omega)
          · have hl := mfm_push_bit_len m true
            have hbeq := mfm_push_bit_be m true
            have hpeq := mfm_push_bit_psc m true
            rcases Nat.eq_zero_or_pos m.bytes_expected with h0 | h0
            · have hz := hd0 h0
              exact mfm_check_record_safety _ (by dsimp only; omega) (by dsimp only; omega)
                (by dsimp only; omega) (fun hh => by dsimp only at hh ⊢; omega)
                (fun hb => by dsimp only at hb ⊢; omega)
            · have hlt := hd1 h0
              exact mfm_check_record_safety _ (by dsimp only; omega) (by dsimp only; omega)
                (by dsimp only; omega) (fun hh => by dsimp only at hh ⊢; omega)
                (fun hb => by dsimp only at hb ⊢; omega)
          · exact ⟨MfmInv_reset m hlen hpsc hbe, fun out hout => absurd hout (by simp)⟩

/-- A reachable decoder state one bit away from completing a 515-byte
data record: the buffer holds `FB`, 512 zero payload bytes and the
high CRC byte; seven bits of the low CRC byte (110) are accumulated. -/
def c9State : Mfm :=
  { state := .clock
    T2_max := 57
    T3_max := 82
    byte_acc := 55
    bit_count := 7
    buf := [0xFB] ++ List.replicate 512 0 ++ [218]
    bytes_expected := 515
    crc := 28160
    pending_track := 7
    pending_side := 1
    pending_sector := 3
    pending_size_code := 2
    have_pending_addr := true }

/-- The sector that feeding one final Short pulse emits. -/
def c9Out : Sector :=
  { track := 7
    side := 1
    sector_n := 3
    size_code := 2
    size := 512
    data := List.replicate 512 0
    valid := true }

set_option maxRecDepth 40000 in
/-- Witness for C9: the final Short pulse completes the record and the
emitted sector satisfies every bound of the safety theorem. -/
theorem C9_emission_safety_witness :
    MfmInv c9State ∧
    (mfm_feed c9State 40).2 = some c9Out ∧
    (c9Out.data.length ≤ 512 ∧
     c9Out.data.length ≤ (mfm_feed c9State 40).1.buf.length - 1 ∧
     c9Out.size_code ≤ 2 ∧
     mfm_overflow (mfm_feed c9State 40).1 = false ∧
     (c9Out.valid = true ↔ ((mfm_feed c9State 40).1.crc = 0 ∧
       mfm_overflow (mfm_feed c9State 40).1 = false))) := by
  refine ⟨by decide, by decide, ?_⟩
  exact (C9_emission_safety c9State 40 (by decide)).2 c9Out (by decide)

/-! ## Claim C4: the two FAT copies stay byte-identical -/

/-- The effective disk seen through a pending write batch: the newest
pending sector for `lba` if any, else the disk (the read side of
`fat12_read_sector_batched`). -/
def effB (d : Disk) (entries : List (Nat × (Nat → Nat))) (lba : Nat) : Nat → Nat :=
  match entries.reverse.find? (fun e => e.1 == lba) with
  | some e => e.2
  | none => d lba

/-- Both FAT copies of the standard 1.44 MB layout (FAT #1 in sectors
1-9, FAT #2 in sectors 10-18) hold the same bytes, as seen through the
pending batch. -/
def fatMirror (d : Disk) (entries : List (Nat × (Nat → Nat))) : Prop :=
  ∀ k, k < 9 → ∀ b, effB d entries (1 + k) b = effB d entries (10 + k) b

theorem effB_nil (d : Disk) (lba : Nat) : effB d [] lba = d lba := rfl

theorem effB_append_ne (d : Disk) (entries : List (Nat × (Nat → Nat)))
    (lba0 : Nat) (data : Nat → Nat) (lba : Nat) (hne : lba0 ≠ lba) :
    effB d (entries ++ [(lba0, data)]) lba = effB d entries lba := by
  unfold effB
  rw [List.reverse_append]
  show (match ((lba0, data) :: entries.reverse).find? (fun e => e.1 == lba) with
    | some e => e.2 | none => d lba) = _
  rw [@List.find?_cons_of_neg _ (fun e => e.1 == lba) (lba0, data) entries.reverse
    (by simp [hne])]

theorem effB_append_eq (d : Disk) (entries : List (Nat × (Nat → Nat)))
    (lba0 : Nat) (data : Nat → Nat) :
    effB d (entries ++ [(lba0, data)]) lba0 = data := by
  unfold effB
  rw [List.reverse_append]
  show (match ((lba0, data) :: entries.reverse).find? (fun e => e.1 == lba0) with
    | some e => e.2 | none => d lba0) = _
  rw [@List.find?_cons_of_pos _ (fun e => e.1 == lba0) (lba0, data) entries.reverse
    (by simp)]

/-- Reads through `vdiskIo` never change the disk state. -/
theorem fat12_read_sector_vdisk (fat : Fat12) (d : Disk) (lba : Nat) (r : (Nat → Nat) × Disk)
    (h : fat12_read_sector fat vdiskIo d lba = some r) : r.2 = d := by
  simp only [fat12_read_sector, vdiskIo, vdisk_read] at h
  split at h
  · cases h; rfl
  · cases h

theorem fat12_read_root_entry_vdisk (fat : Fat12) (d : Disk) (i : Nat)
    (e : Fat12Dirent) (s' : Disk)
    (h : fat12_read_root_entry fat vdiskIo d i = .ok (e, s')) : s' = d := by
  simp only [fat12_read_root_entry] at h
  split at h
  · cases h
  · split at h
    · cases h
    · rename_i a b heq
      cases h
      exact fat12_read_sector_vdisk fat d _ _ heq

theorem getD_map_range {β : Type} (n : Nat) (f : Nat → β) (i : Nat) (d : β) (h : i < n) :
    ((List.range n).map f).getD i d = f i := by
  rw [List.getD_eq_getElem?_getD, List.getElem?_map, List.getElem?_range h]
  rfl

theorem lba_to_chs_c6 (lba : Nat) (h : lba < 2880) :
    (fat12_lba_to_chs c6Fat12 lba).1 = lba / 36 ∧
    (fat12_lba_to_chs c6Fat12 lba).2.1 = lba % 36 / 18 ∧
    (fat12_lba_to_chs c6Fat12 lba).2.2 = lba % 18 + 1 := by
  unfold fat12_lba_to_chs
  have h1 : c6Fat12.bpb.num_heads = 2 := rfl
  have h2 : c6Fat12.bpb.sectors_per_track = 18 := rfl
  rw [h1, h2]
  refine ⟨?_, ?_, ?_⟩ <;> dsimp only <;> omega

theorem chs_cond_iff (x c h idx : Nat) (hx : x < 2880) (hh : h ≤ 1) (hidx : idx < 18) :
    ((fat12_lba_to_chs c6Fat12 x).1 = c ∧ (fat12_lba_to_chs c6Fat12 x).2.1 = h ∧
     1 ≤ (fat12_lba_to_chs c6Fat12 x).2.2 ∧ (fat12_lba_to_chs c6Fat12 x).2.2 ≤ 18 ∧
     (fat12_lba_to_chs c6Fat12 x).2.2 - 1 = idx) ↔ x = (c * 2 + h) * 18 + idx := by
  obtain ⟨e1, e2, e3⟩ := lba_to_chs_c6 x hx
  omega

theorem flush_foldl_find (c h idx : Nat) (hh : h ≤ 1) :
    ∀ (entries : List (Nat × (Nat → Nat))), (∀ e ∈ entries, e.1 < 2880) → idx < 18 →
    ∀ (acc : Option (Nat → Nat)),
      entries.foldl (fun acc e =>
        if (fat12_lba_to_chs c6Fat12 e.1).1 = c ∧ (fat12_lba_to_chs c6Fat12 e.1).2.1 = h ∧
           1 ≤ (fat12_lba_to_chs c6Fat12 e.1).2.2 ∧ (fat12_lba_to_chs c6Fat12 e.1).2.2 ≤ 18 ∧
           (fat12_lba_to_chs c6Fat12 e.1).2.2 - 1 = idx
         then some e.2 else acc) acc =
      (match entries.reverse.find? (fun e => e.1 == (c * 2 + h) * 18 + idx) with
       | some e => some e.2
       | none => acc) := by
  intro entries
  induction entries with
  | nil => intro _ _ acc; rfl
  | cons x xs ih =>
      intro hall hidx acc
      rw [List.foldl_cons, ih (fun e he => hall e (List.mem_cons_of_mem x he)) hidx]
      rw [List.reverse_cons, List.find?_append]
      cases hxs : xs.reverse.find? (fun e => e.1 == (c * 2 + h) * 18 + idx) with
      | some e => rfl
      | none =>
          by_cases hcnd : x.1 = (c * 2 + h) * 18 + idx
          · rw [if_pos ((chs_cond_iff x.1 c h idx
                (hall x (List.mem_cons_self x xs)) hh hidx).mpr hcnd)]
            have hb : (x.1 == (c * 2 + h) * 18 + idx) = true := by simpa using hcnd
            simp [List.find?, hb]
          · rw [if_neg (fun hcc => hcnd ((chs_cond_iff x.1 c h idx
                (hall x (List.mem_cons_self x xs)) hh hidx).mp hcc))]
            have hb : (x.1 == (c * 2 + h) * 18 + idx) = false := by simpa using hcnd
            simp [List.find?, hb]

theorem find?_filter_of_imp {α : Type} (pred q : α → Bool) :
    ∀ (l : List α), (∀ e ∈ l, q e = true → pred e = true) →
      (l.filter pred).find? q = l.find? q := by
  intro l
  induction l with
  | nil => intro _; rfl
  | cons x xs ih =>
      intro himp
      by_cases hp : pred x = true
      · rw [List.filter_cons_of_pos hp]
        by_cases hq : q x = true
        · rw [List.find?_cons_of_pos _ hq, List.find?_cons_of_pos _ hq]
        · rw [List.find?_cons_of_neg _ (by simp [hq]),
            List.find?_cons_of_neg _ (by simp [hq])]
          exact ih (fun e he => himp e (List.mem_cons_of_mem x he))
      · have hq : ¬(q x = true) := fun hq =>
          hp (himp x (List.mem_cons_self x xs) hq)
        rw [List.filter_cons_of_neg (by simpa using hp),
          List.find?_cons_of_neg _ (by simpa using hq)]
        exact ih (fun e he => himp e (List.mem_cons_of_mem x he))

theorem flush_loop_eff :
    ∀ (fuel : Nat) (entries : List (Nat × (Nat → Nat))) (d : Disk),
    entries.length ≤ fuel → (∀ e ∈ entries, e.1 < 2880) →
    ∃ d', fat12_write_batch_flush_loop c6Fat12 vdiskIo fuel entries d = .ok d' ∧
      ∀ lba, lba < 2880 → ∀ b, d' lba b = effB d entries lba b := by
  intro fuel
  induction fuel with
  | zero =>
      intro entries d hlen _
      have he : entries = [] := List.length_eq_zero.mp (Nat.le_zero.mp hlen)
      subst he
      exact ⟨d, rfl, fun lba _ b => rfl⟩
  | succ fuel ih =>
      intro entries d hlen hall
      cases entries with
      | nil => exact ⟨d, rfl, fun lba _ b => rfl⟩
      | cons e0 rest =>
          have he0 : e0.1 < 2880 := hall e0 (List.mem_cons_self e0 rest)
          obtain ⟨hc0, hh0, _⟩ := lba_to_chs_c6 e0.1 he0
          -- the re-queued batch
          have hkeeplen : ((e0 :: rest).filter (fun e =>
              !((fat12_lba_to_chs c6Fat12 e.1).1 == (fat12_lba_to_chs c6Fat12 e0.1).1 &&
                (fat12_lba_to_chs c6Fat12 e.1).2.1 ==
                  (fat12_lba_to_chs c6Fat12 e0.1).2.1))).length ≤ fuel := by
            rw [List.filter_cons]
            have hself : (!((fat12_lba_to_chs c6Fat12 e0.1).1 ==
                (fat12_lba_to_chs c6Fat12 e0.1).1 &&
                ((fat12_lba_to_chs c6Fat12 e0.1).2.1 ==
                  (fat12_lba_to_chs c6Fat12 e0.1).2.1))) = false := by simp
            rw [hself]
            simp only [Bool.false_eq_true, if_false]
            have := List.length_filter_le (fun e =>
              !((fat12_lba_to_chs c6Fat12 e.1).1 == (fat12_lba_to_chs c6Fat12 e0.1).1 &&
                (fat12_lba_to_chs c6Fat12 e.1).2.1 ==
                  (fat12_lba_to_chs c6Fat12 e0.1).2.1)) rest
            simp only [List.length_cons] at hlen
            omega
          have hkeepall : ∀ e ∈ (e0 :: rest).filter (fun e =>
              !((fat12_lba_to_chs c6Fat12 e.1).1 == (fat12_lba_to_chs c6Fat12 e0.1).1 &&
                (fat12_lba_to_chs c6Fat12 e.1).2.1 ==
                  (fat12_lba_to_chs c6Fat12 e0.1).2.1)), e.1 < 2880 :=
            fun e he => hall e (List.mem_of_mem_filter he)
          obtain ⟨d', heq, heff⟩ := ih _ (vdisk_write d (fat12_lba_to_chs c6Fat12 e0.1).1
            (fat12_lba_to_chs c6Fat12 e0.1).2.1
            (flush_track_slots c6Fat12 (fat12_lba_to_chs c6Fat12 e0.1).1
              (fat12_lba_to_chs c6Fat12 e0.1).2.1 (e0 :: rest))) hkeeplen hkeepall
          refine ⟨d', heq, ?_⟩
          intro lba hlba b
          rw [heff lba hlba b]
          by_cases hsame : lba / 36 = e0.1 / 36 ∧ lba % 36 / 18 = e0.1 % 36 / 18
          · -- the written track: the slot value is the newest pending entry for lba
            have hnone : ((e0 :: rest).filter (fun e =>
                !((fat12_lba_to_chs c6Fat12 e.1).1 == (fat12_lba_to_chs c6Fat12 e0.1).1 &&
                  (fat12_lba_to_chs c6Fat12 e.1).2.1 ==
                    (fat12_lba_to_chs c6Fat12 e0.1).2.1))).reverse.find?
                (fun e => e.1 == lba) = none := by
              rw [List.find?_eq_none]
              intro x hx
              have hxf := List.mem_reverse.mp hx
              have hxmem := List.mem_of_mem_filter hxf
              have hxpred := List.of_mem_filter hxf
              have hx2880 : x.1 < 2880 := hall x hxmem
              obtain ⟨hxc, hxh, _⟩ := lba_to_chs_c6 x.1 hx2880
              simp only [Bool.not_eq_true', Bool.and_eq_false_iff] at hxpred
              simp only [beq_iff_eq]
              intro hxeq
              rcases hxpred with hp | hp
              · rw [beq_eq_false_iff_ne] at hp
                exact hp (by omega)
              · rw [beq_eq_false_iff_ne] at hp
                exact hp (by omega)
            unfold effB
            rw [hnone]
            -- now compute the written slot
            show vdisk_write d (fat12_lba_to_chs c6Fat12 e0.1).1
                (fat12_lba_to_chs c6Fat12 e0.1).2.1
                (flush_track_slots c6Fat12 (fat12_lba_to_chs c6Fat12 e0.1).1
                  (fat12_lba_to_chs c6Fat12 e0.1).2.1 (e0 :: rest)) lba b = _
            simp only [vdisk_write]
            rw [if_pos (show ((fat12_lba_to_chs c6Fat12 e0.1).1 * 2 +
                  (fat12_lba_to_chs c6Fat12 e0.1).2.1) * 18 ≤ lba ∧
                lba < ((fat12_lba_to_chs c6Fat12 e0.1).1 * 2 +
                  (fat12_lba_to_chs c6Fat12 e0.1).2.1) * 18 + 18 ∧ lba < 2880
              from ⟨by omega, by omega, by omega⟩)]
            unfold flush_track_slots
            rw [getD_map_range 18 _
              (lba - ((fat12_lba_to_chs c6Fat12 e0.1).1 * 2 +
                (fat12_lba_to_chs c6Fat12 e0.1).2.1) * 18) none (by omega)]
            rw [flush_foldl_find (fat12_lba_to_chs c6Fat12 e0.1).1
              (fat12_lba_to_chs c6Fat12 e0.1).2.1 _ (by omega) (e0 :: rest) hall (by omega)]
            have htgt : ((fat12_lba_to_chs c6Fat12 e0.1).1 * 2 +
                (fat12_lba_to_chs c6Fat12 e0.1).2.1) * 18 +
                (lba - ((fat12_lba_to_chs c6Fat12 e0.1).1 * 2 +
                  (fat12_lba_to_chs c6Fat12 e0.1).2.1) * 18) = lba := by omega
            rw [htgt]
            cases hf : (e0 :: rest).reverse.find? (fun e => e.1 == lba) with
            | some e => rfl
            | none => rfl
          · -- another track: the write misses lba and the lba entries are kept
            have hd1 : ∀ bb, vdisk_write d (fat12_lba_to_chs c6Fat12 e0.1).1
                (fat12_lba_to_chs c6Fat12 e0.1).2.1
                (flush_track_slots c6Fat12 (fat12_lba_to_chs c6Fat12 e0.1).1
                  (fat12_lba_to_chs c6Fat12 e0.1).2.1 (e0 :: rest)) lba bb = d lba bb := by
              intro bb
              simp only [vdisk_write]
              rw [if_neg (show ¬(((fat12_lba_to_chs c6Fat12 e0.1).1 * 2 +
                    (fat12_lba_to_chs c6Fat12 e0.1).2.1) * 18 ≤ lba ∧
                  lba < ((fat12_lba_to_chs c6Fat12 e0.1).1 * 2 +
                    (fat12_lba_to_chs c6Fat12 e0.1).2.1) * 18 + 18 ∧ lba < 2880)
                from by omega)]
            have hfind : ((e0 :: rest).filter (fun e =>
                !((fat12_lba_to_chs c6Fat12 e.1).1 == (fat12_lba_to_chs c6Fat12 e0.1).1 &&
                  (fat12_lba_to_chs c6Fat12 e.1).2.1 ==
                    (fat12_lba_to_chs c6Fat12 e0.1).2.1))).reverse.find?
                (fun e => e.1 == lba) =
                (e0 :: rest).reverse.find? (fun e => e.1 == lba) := by
              rw [← List.filter_reverse]
              refine find?_filter_of_imp _ _ _ ?_
              intro e he hq
              have he2880 : e.1 < 2880 := hall e (List.mem_reverse.mp he)
              obtain ⟨hec, heh, _⟩ := lba_to_chs_c6 e.1 he2880
              rw [beq_iff_eq] at hq
              simp only [Bool.not_eq_true', Bool.and_eq_false_iff]
              by_cases h1 : lba / 36 = e0.1 / 36
              · refine Or.inr ?_
                rw [beq_eq_false_iff_ne]
                intro hcontra
                exact hsame ⟨by omega, by omega⟩
              · refine Or.inl ?_
                rw [beq_eq_false_iff_ne]
                intro hcontra
                exact h1 (by omega)
            unfold effB
            rw [hfind]
            cases hf : (e0 :: rest).reverse.find? (fun e => e.1 == lba) with
            | some e => rfl
            | none => exact hd1 b

theorem flush_eff (batch : Fat12Batch) (d : Disk)
    (hall : ∀ e ∈ batch.entries, e.1 < 2880) :
    ∃ d', fat12_write_batch_flush c6Fat12 vdiskIo batch d = .ok ({ entries := [] }, d') ∧
      ∀ lba, lba < 2880 → ∀ b, d' lba b = effB d batch.entries lba b := by
  obtain ⟨d', heq, heff⟩ :=
    flush_loop_eff batch.entries.length batch.entries d (Nat.le_refl _) hall
  refine ⟨d', ?_, heff⟩
  simp only [fat12_write_batch_flush]
  rw [heq]

theorem rsb_some (batch : Fat12Batch) (d : Disk) (lba : Nat) (h : lba < 2880) :
    ∃ dat, fat12_read_sector_batched c6Fat12 vdiskIo batch d lba = some (dat, d) := by
  unfold fat12_read_sector_batched
  cases hf : batch.entries.reverse.find? (fun e => e.1 == lba) with
  | some e => exact ⟨e.2, rfl⟩
  | none =>
      refine ⟨d lba, ?_⟩
      obtain ⟨hc, hh, hs⟩ := lba_to_chs_c6 lba h
      simp only [fat12_read_sector, vdiskIo, vdisk_read]
      rw [if_pos ?_]
      · show some _ = some (d lba, d)
        have : vdisk_lba (fat12_lba_to_chs c6Fat12 lba).1
            (fat12_lba_to_chs c6Fat12 lba).2.1 (fat12_lba_to_chs c6Fat12 lba).2.2 = lba := by
          unfold vdisk_lba
          omega
        rw [this]
      · constructor
        · omega
        · unfold vdisk_lba
          omega

theorem effB_append_congr (d1 d2 : Disk) (e1 e2 : List (Nat × (Nat → Nat)))
    (x : Nat × (Nat → Nat))
    (h : ∀ lba, lba < 2880 → ∀ bb, effB d1 e1 lba bb = effB d2 e2 lba bb)
    (lba : Nat) (hl : lba < 2880) (bb : Nat) :
    effB d1 (e1 ++ [x]) lba bb = effB d2 (e2 ++ [x]) lba bb := by
  obtain ⟨L, D⟩ := x
  by_cases hx : L = lba
  · subst hx
    rw [effB_append_eq, effB_append_eq]
  · rw [effB_append_ne _ _ _ _ _ hx, effB_append_ne _ _ _ _ _ hx]
    exact h lba hl bb

theorem fatMirror_of_eff_eq (d1 : Disk) (e1 : List (Nat × (Nat → Nat)))
    (d2 : Disk) (e2 : List (Nat × (Nat → Nat)))
    (h : ∀ lba, lba < 2880 → ∀ bb, effB d1 e1 lba bb = effB d2 e2 lba bb)
    (hm : fatMirror d2 e2) : fatMirror d1 e1 := by
  intro k hk bb
  rw [h (1 + k) (by omega) bb, h (10 + k) (by omega) bb]
  exact hm k hk bb

theorem fatMirror_append_other (d : Disk) (entries : List (Nat × (Nat → Nat)))
    (L : Nat) (D : Nat → Nat) (hL : ¬(1 ≤ L ∧ L ≤ 18)) (hm : fatMirror d entries) :
    fatMirror d (entries ++ [(L, D)]) := by
  intro k hk bb
  rw [effB_append_ne _ _ _ _ _ (by omega), effB_append_ne _ _ _ _ _ (by omega)]
  exact hm k hk bb

theorem fatMirror_append2 (d : Disk) (entries : List (Nat × (Nat → Nat)))
    (x : Nat) (D : Nat → Nat) (hx : x < 9) (hm : fatMirror d entries) :
    fatMirror d (entries ++ [(1 + x, D), (10 + x, D)]) := by
  have hsplit : entries ++ [(1 + x, D), (10 + x, D)] =
      (entries ++ [(1 + x, D)]) ++ [(10 + x, D)] := by simp
  rw [hsplit]
  intro k hk bb
  by_cases hkx : k = x
  · subst hkx
    rw [effB_append_ne _ _ _ _ _ (by omega), effB_append_eq, effB_append_eq]
  · rw [effB_append_ne _ _ _ _ _ (by omega), effB_append_ne _ _ _ _ _ (by omega),
      effB_append_ne _ _ _ _ _ (by omega), effB_append_ne _ _ _ _ _ (by omega)]
    exact hm k hk bb

theorem fatMirror_append4 (d : Disk) (entries : List (Nat × (Nat → Nat)))
    (x : Nat) (D1 D2 : Nat → Nat) (hx : x + 1 < 9) (hm : fatMirror d entries) :
    fatMirror d (entries ++
      [(1 + x, D1), (1 + x + 1, D2), (10 + x, D1), (10 + x + 1, D2)]) := by
  have hsplit : entries ++ [(1 + x, D1), (1 + x + 1, D2), (10 + x, D1), (10 + x + 1, D2)] =
      (((entries ++ [(1 + x, D1)]) ++ [(1 + x + 1, D2)]) ++ [(10 + x, D1)]) ++
        [(10 + x + 1, D2)] := by simp
  rw [hsplit]
  intro k hk bb
  by_cases hk1 : k = x
  · subst hk1
    rw [effB_append_ne _ _ _ _ _ (by omega), effB_append_ne _ _ _ _ _ (by omega),
      effB_append_ne _ _ _ _ _ (by omega), effB_append_eq]
    rw [effB_append_ne _ _ _ _ _ (by omega), effB_append_eq]
  · by_cases hk2 : k = x + 1
    · subst hk2
      rw [show 1 + (x + 1) = 1 + x + 1 from by omega,
        show 10 + (x + 1) = 10 + x + 1 from by omega]
      rw [effB_append_ne _ _ _ _ _ (by omega), effB_append_ne _ _ _ _ _ (by omega),
        effB_append_eq]
      rw [effB_append_eq]
    · rw [effB_append_ne _ _ _ _ _ (by omega), effB_append_ne _ _ _ _ _ (by omega),
        effB_append_ne _ _ _ _ _ (by omega), effB_append_ne _ _ _ _ _ (by omega),
        effB_append_ne _ _ _ _ _ (by omega), effB_append_ne _ _ _ _ _ (by omega),
        effB_append_ne _ _ _ _ _ (by omega), effB_append_ne _ _ _ _ _ (by omega)]
      exact hm k hk bb

theorem wsb_eff (batch : Fat12Batch) (d : Disk) (lba0 : Nat) (data : Nat → Nat)
    (hall : ∀ e ∈ batch.entries, e.1 < 2880) (h0 : lba0 < 2880) :
    ∃ b' d', fat12_write_sector_batched c6Fat12 vdiskIo batch d lba0 data = .ok (b', d') ∧
      (∀ e ∈ b'.entries, e.1 < 2880) ∧
      ∀ lba, lba < 2880 → ∀ bb, effB d' b'.entries lba bb =
        effB d (batch.entries ++ [(lba0, data)]) lba bb := by
  by_cases hfull : FAT12_WRITE_BATCH_MAX ≤ batch.entries.length
  · obtain ⟨d1, heq1, heff1⟩ := flush_eff batch d hall
    refine ⟨{ entries := [(lba0, data)] }, d1, ?_, ?_, ?_⟩
    · simp only [fat12_write_sector_batched, fat12_write_batch_add]
      rw [if_pos hfull, heq1]
      simp [FAT12_WRITE_BATCH_MAX]
    · intro e he
      simp only [List.mem_singleton] at he
      subst he
      exact h0
    · intro lba hlba bb
      by_cases hx : lba0 = lba
      · subst hx
        rw [effB_append_eq]
        show effB d1 ([] ++ [(lba0, data)]) lba0 bb = data bb
        rw [effB_append_eq]
      · rw [effB_append_ne _ _ _ _ _ hx]
        show effB d1 ([] ++ [(lba0, data)]) lba bb = _
        rw [effB_append_ne _ _ _ _ _ hx]
        rw [show effB d1 [] lba = d1 lba from rfl]
        exact heff1 lba hlba bb
  · refine ⟨{ entries := batch.entries ++ [(lba0, data)] }, d, ?_, ?_,
      fun lba hlba bb => rfl⟩
    · simp only [fat12_write_sector_batched, fat12_write_batch_add]
      rw [if_neg hfull]
    · intro e he
      rcases List.mem_append.mp he with h1 | h1
      · exact hall e h1
      · simp only [List.mem_singleton] at h1
        subst h1
        exact h0

/-- Pointwise equality of two effective disks over the medium. -/
def effEq (dA : Disk) (eA : List (Nat × (Nat → Nat)))
    (dB : Disk) (eB : List (Nat × (Nat → Nat))) : Prop :=
  ∀ lba, lba < 2880 → ∀ bb, effB dA eA lba bb = effB dB eB lba bb

theorem effEq_trans {dA eA dB eB dC eC} (h1 : effEq dA eA dB eB)
    (h2 : effEq dB eB dC eC) : effEq dA eA dC eC :=
  fun lba hl bb => (h1 lba hl bb).trans (h2 lba hl bb)

theorem effEq_append {dA eA dB eB} (h : effEq dA eA dB eB) (x : Nat × (Nat → Nat)) :
    effEq dA (eA ++ [x]) dB (eB ++ [x]) :=
  fun lba hl bb => effB_append_congr dA dB eA eB x h lba hl bb

theorem fat12_get_entry_vdisk (d : Disk) (cl nx : Nat) (s' : Disk)
    (h : fat12_get_entry c6Fat12 vdiskIo d cl = .ok (nx, s')) :
    s' = d ∧ cl + cl / 2 + 1 < 4608 := by
  simp only [fat12_get_entry] at h
  split at h
  · cases h
  · split at h
    · cases h
    · rename_i hrange
      have h9 : c6Fat12.bpb.sectors_per_fat = 9 := rfl
      rw [h9] at hrange
      split at h
      · cases h
      · rename_i heq1
        have hs1 := fat12_read_sector_vdisk c6Fat12 _ _ _ heq1
        split at h
        · split at h
          · cases h
          · rename_i heq2
            have hs2 := fat12_read_sector_vdisk c6Fat12 _ _ _ heq2
            cases h
            exact ⟨hs2.trans hs1, by omega⟩
        · cases h
          exact ⟨hs1, by omega⟩

theorem set_entry_eff (batch : Fat12Batch) (d : Disk) (cl v : Nat)
    (hall : ∀ e ∈ batch.entries, e.1 < 2880) (hb : cl + cl / 2 + 1 < 4608) :
    ∃ b' d', fat12_set_entry c6Fat12 vdiskIo batch d cl v = .ok (b', d') ∧
      (∀ e ∈ b'.entries, e.1 < 2880) ∧
      (fatMirror d batch.entries → fatMirror d' b'.entries) := by
  obtain ⟨dat1, hr1⟩ := rsb_some batch d
    (c6Fat12.fat_start_sector + (cl + cl / 2) / 512)
    (by have h1 : c6Fat12.fat_start_sector = 1 := rfl; omega)
  by_cases hsp : (cl + cl / 2) % 512 = 511
  · obtain ⟨dat2, hr2⟩ := rsb_some batch d
      (c6Fat12.fat_start_sector + (cl + cl / 2) / 512 + 1)
      (by have h1 : c6Fat12.fat_start_sector = 1 := rfl; omega)
    simp only [fat12_set_entry]
    rw [hr1]
    dsimp only
    rw [if_pos hsp, hr2]
    dsimp only
    rw [show c6Fat12.fat_start_sector = 1 from rfl,
      show c6Fat12.bpb.sectors_per_fat = 9 from rfl,
      show List.range c6Fat12.bpb.num_fats = [0, 1] from rfl]
    simp only [List.foldlM, bind, Except.bind]
    obtain ⟨b1, d1, he1, ha1, hf1⟩ := wsb_eff batch d
      (1 + 0 * 9 + (cl + cl / 2) / 512) _ hall (by omega)
    rw [he1]
    dsimp only
    obtain ⟨b2, d2, he2, ha2, hf2⟩ := wsb_eff b1 d1
      (1 + 0 * 9 + (cl + cl / 2) / 512 + 1) _ ha1 (by omega)
    rw [he2]
    dsimp only
    obtain ⟨b3, d3, he3, ha3, hf3⟩ := wsb_eff b2 d2
      (1 + 1 * 9 + (cl + cl / 2) / 512) _ ha2 (by omega)
    rw [he3]
    dsimp only
    obtain ⟨b4, d4, he4, ha4, hf4⟩ := wsb_eff b3 d3
      (1 + 1 * 9 + (cl + cl / 2) / 512 + 1) _ ha3 (by omega)
    rw [he4]
    refine ⟨b4, d4, rfl, ha4, ?_⟩
    intro hm
    have c4 := effEq_trans hf4 (effEq_append
      (effEq_trans hf3 (effEq_append
        (effEq_trans hf2 (effEq_append hf1 _)) _)) _)
    rw [show (1 : Nat) + 0 * 9 + (cl + cl / 2) / 512 = 1 + (cl + cl / 2) / 512
        from by omega,
      show (1 : Nat) + 0 * 9 + (cl + cl / 2) / 512 + 1 = 1 + (cl + cl / 2) / 512 + 1
        from by omega,
      show (1 : Nat) + 1 * 9 + (cl + cl / 2) / 512 = 10 + (cl + cl / 2) / 512
        from by omega,
      show (1 : Nat) + 1 * 9 + (cl + cl / 2) / 512 + 1 = 10 + (cl + cl / 2) / 512 + 1
        from by omega] at c4
    simp only [List.append_assoc, List.cons_append, List.nil_append] at c4
    exact fatMirror_of_eff_eq _ _ _ _ (fun lba hl bb => c4 lba hl bb)
      (fatMirror_append4 d batch.entries ((cl + cl / 2) / 512) _ _ (by omega) hm)
  · simp only [fat12_set_entry]
    rw [hr1]
    dsimp only
    rw [if_neg hsp]
    rw [show c6Fat12.fat_start_sector = 1 from rfl,
      show c6Fat12.bpb.sectors_per_fat = 9 from rfl,
      show List.range c6Fat12.bpb.num_fats = [0, 1] from rfl]
    simp only [List.foldlM, bind, Except.bind]
    obtain ⟨b1, d1, he1, ha1, hf1⟩ := wsb_eff batch d
      (1 + 0 * 9 + (cl + cl / 2) / 512) _ hall (by omega)
    rw [he1]
    dsimp only
    obtain ⟨b2, d2, he2, ha2, hf2⟩ := wsb_eff b1 d1
      (1 + 1 * 9 + (cl + cl / 2) / 512) _ ha1 (by omega)
    rw [he2]
    refine ⟨b2, d2, rfl, ha2, ?_⟩
    intro hm
    have c2 := effEq_trans hf2 (effEq_append hf1 _)
    rw [show (1 : Nat) + 0 * 9 + (cl + cl / 2) / 512 = 1 + (cl + cl / 2) / 512
        from by omega,
      show (1 : Nat) + 1 * 9 + (cl + cl / 2) / 512 = 10 + (cl + cl / 2) / 512
        from by omega] at c2
    simp only [List.append_assoc, List.cons_append, List.nil_append] at c2
    exact fatMirror_of_eff_eq _ _ _ _ (fun lba hl bb => c2 lba hl bb)
      (fatMirror_append2 d batch.entries ((cl + cl / 2) / 512) _ (by omega) hm)

theorem rs_some (d : Disk) (lba : Nat) (h : lba < 2880) :
    fat12_read_sector c6Fat12 vdiskIo d lba = some (d lba, d) := by
  obtain ⟨hc, hh, hs⟩ := lba_to_chs_c6 lba h
  simp only [fat12_read_sector, vdiskIo, vdisk_read]
  rw [if_pos ?_]
  · have hv : vdisk_lba (fat12_lba_to_chs c6Fat12 lba).1
        (fat12_lba_to_chs c6Fat12 lba).2.1 (fat12_lba_to_chs c6Fat12 lba).2.2 = lba := by
      unfold vdisk_lba
      omega
    rw [hv]
  · constructor
    · omega
    · unfold vdisk_lba
      omega

theorem free_chain_mirror :
    ∀ (fuel cl : Nat) (batch : Fat12Batch) (d : Disk),
    (∀ e ∈ batch.entries, e.1 < 2880) →
    ∃ b' d', fat12_free_chain_loop c6Fat12 vdiskIo fuel cl batch d = .ok (b', d') ∧
      (∀ e ∈ b'.entries, e.1 < 2880) ∧
      (fatMirror d batch.entries → fatMirror d' b'.entries) := by
  intro fuel
  induction fuel with
  | zero =>
      intro cl batch d hall
      exact ⟨batch, d, rfl, hall, fun hm => hm⟩
  | succ fuel ih =>
      intro cl batch d hall
      by_cases hc : 2 ≤ cl ∧ ¬(fat12_is_eof cl = true) ∧ ¬(fat12_is_bad cl = true)
      · cases hge : fat12_get_entry c6Fat12 vdiskIo d cl with
        | error e =>
            refine ⟨batch, d, ?_, hall, fun hm => hm⟩
            simp only [fat12_free_chain_loop]
            rw [if_pos hc, hge]
        | ok p =>
            obtain ⟨next, s1⟩ := p
            obtain ⟨hs1, hbd⟩ := fat12_get_entry_vdisk d cl next s1 hge
            rw [hs1] at hge
            obtain ⟨b2, d2, he2, ha2, hm2⟩ := set_entry_eff batch d cl 0 hall hbd
            obtain ⟨b', d', he', ha', hm'⟩ := ih next b2 d2 ha2
            refine ⟨b', d', ?_, ha', fun hm => hm' (hm2 hm)⟩
            simp only [fat12_free_chain_loop]
            rw [if_pos hc, hge]
            dsimp only
            rw [he2]
            dsimp only
            exact he'
      · refine ⟨batch, d, ?_, hall, fun hm => hm⟩
        simp only [fat12_free_chain_loop]
        rw [if_neg hc]

theorem write_root_eff (batch : Fat12Batch) (d : Disk) (index : Nat) (entry : Fat12Dirent)
    (hall : ∀ e ∈ batch.entries, e.1 < 2880) (hidx : index < 224) :
    ∃ b' d', fat12_write_root_entry c6Fat12 vdiskIo batch d index entry = .ok (b', d') ∧
      (∀ e ∈ b'.entries, e.1 < 2880) ∧
      (fatMirror d batch.entries → fatMirror d' b'.entries) := by
  obtain ⟨b', d', he, ha, hf⟩ := wsb_eff batch d (19 + index * 32 / 512)
    (fun b => if index * 32 % 512 ≤ b ∧ b < index * 32 % 512 + 32
       then (dirent_bytes entry).getD (b - index * 32 % 512) 0
       else d (19 + index * 32 / 512) b) hall (by omega)
  refine ⟨b', d', ?_, ha, fun hm => fatMirror_of_eff_eq _ _ _ _
    (fun lba hl bb => hf lba hl bb)
    (fatMirror_append_other d batch.entries _ _ (by omega) hm)⟩
  show fat12_write_root_entry c6Fat12 vdiskIo batch d index entry = .ok (b', d')
  simp only [fat12_write_root_entry]
  rw [show c6Fat12.bpb.root_entries = 224 from rfl,
    if_neg (show ¬(224 ≤ index) from by omega)]
  rw [show c6Fat12.root_dir_start_sector = 19 from rfl]
  rw [rs_some d (19 + index * 32 / 512) (by omega)]
  exact he

theorem close_write_mirror (writer : Fat12Writer) (d : Disk) (w' : Fat12Writer) (d' : Disk)
    (hall : ∀ e ∈ writer.batch.entries, e.1 < 2880)
    (hm : fatMirror d writer.batch.entries)
    (h : fat12_close_write c6Fat12 vdiskIo writer d = .ok (w', d')) :
    w'.batch.entries = [] ∧ ∀ k, k < 9 → ∀ b, d' (1 + k) b = d' (10 + k) b := by
  by_cases hidx : writer.dirent_index < 224
  · obtain ⟨b1, d1, he1, ha1, hm1⟩ := write_root_eff writer.batch d writer.dirent_index
      { writer.dirent with start_cluster := writer.first_cluster,
                           size := writer.bytes_written } hall hidx
    simp only [fat12_close_write] at h
    rw [he1] at h
    dsimp only at h
    obtain ⟨d2, he2, hf2⟩ := flush_eff b1 d1 ha1
    rw [he2] at h
    dsimp only at h
    injection h with h'
    have hw : w'.batch.entries = [] :=
      (congrArg (fun p => (Prod.fst p).batch.entries) h').symm
    have hd : d' = d2 := (congrArg Prod.snd h').symm
    subst hd
    refine ⟨hw, ?_⟩
    intro k hk b
    rw [hf2 (1 + k) (by omega) b, hf2 (10 + k) (by omega) b]
    exact hm1 hm k hk b
  · exfalso
    simp only [fat12_close_write, fat12_write_root_entry] at h
    rw [show c6Fat12.bpb.root_entries = 224 from rfl] at h
    rw [if_pos (show 224 ≤ writer.dirent_index from by omega)] at h
    dsimp only at h
    exact Except.noConfusion h

theorem delete_loop_mirror (name8 ext3 : List Nat) (chainFuel : Nat) :
    ∀ (fuel i : Nat) (d d' : Disk),
    (∀ k, k < 9 → ∀ b, d (1 + k) b = d (10 + k) b) →
    fat12_delete_loop c6Fat12 vdiskIo name8 ext3 chainFuel i fuel d = (.ok (), d') →
    ∀ k, k < 9 → ∀ b, d' (1 + k) b = d' (10 + k) b := by
  intro fuel
  induction fuel with
  | zero =>
      intro i d d' hm h
      simp only [fat12_delete_loop] at h
      have h1 := congrArg Prod.fst h
      simp at h1
  | succ fuel ih =>
      intro i d d' hm h
      simp only [fat12_delete_loop] at h
      cases hre : fat12_read_root_entry c6Fat12 vdiskIo d i with
      | error e =>
          rw [hre] at h
          dsimp only at h
          have h1 := congrArg Prod.fst h
          simp at h1
      | ok p =>
          obtain ⟨entry, s1⟩ := p
          have hs1 : s1 = d := fat12_read_root_entry_vdisk c6Fat12 d i entry s1 hre
          rw [hs1] at hre
          rw [hre] at h
          dsimp only at h
          by_cases hend : fat12_entry_is_end entry = true
          · rw [if_pos hend] at h
            have h1 := congrArg Prod.fst h
            simp at h1
          · rw [if_neg hend] at h
            by_cases hval : ¬(fat12_entry_valid entry = true)
            · rw [if_pos hval] at h
              exact ih (i + 1) d d' hm h
            · rw [if_neg hval] at h
              by_cases hname : entry.name = name8 ∧ entry.ext = ext3
              · rw [if_pos hname] at h
                have hemp : ∀ e ∈ (({} : Fat12Batch)).entries, e.1 < 2880 := by
                  intro e he
                  exact absurd he (List.not_mem_nil e)
                obtain ⟨b2, d2, he2, ha2, hm2⟩ :=
                  free_chain_mirror chainFuel entry.start_cluster {} d hemp
                rw [he2] at h
                dsimp only at h
                have hm0 : fatMirror d (({} : Fat12Batch)).entries := by
                  intro k hk b
                  show effB d [] (1 + k) b = effB d [] (10 + k) b
                  rw [effB_nil, effB_nil]
                  exact hm k hk b
                by_cases hidx : i < 224
                · obtain ⟨b3, d3, he3, ha3, hm3⟩ := write_root_eff b2 d2 i
                    { entry with name := entry.name.set 0 0xE5 } ha2 hidx
                  rw [he3] at h
                  dsimp only at h
                  obtain ⟨d4, he4, hf4⟩ := flush_eff b3 d3 ha3
                  rw [he4] at h
                  dsimp only at h
                  have h2 := congrArg Prod.snd h
                  dsimp only at h2
                  subst h2
                  intro k hk b
                  rw [hf4 (1 + k) (by omega) b, hf4 (10 + k) (by omega) b]
                  exact hm3 (hm2 hm0) k hk b
                · have hwr : fat12_write_root_entry c6Fat12 vdiskIo b2 d2 i
                      { entry with name := entry.name.set 0 0xE5 } = .error .eof := by
                    simp only [fat12_write_root_entry]
                    rw [show c6Fat12.bpb.root_entries = 224 from rfl]
                    rw [if_pos (show 224 ≤ i from by omega)]
                  rw [hwr] at h
                  dsimp only at h
                  have h1 := congrArg Prod.fst h
                  simp at h1
              · rw [if_neg hname] at h
                exact ih (i + 1) d d' hm h

/-- Claim C4: the two FAT copies of the standard 1.44 MB layout stay
byte-identical.  `fat12_set_entry` applies every FAT-entry update to
all `num_fats` FAT copies, so whenever `fat12_close_write` or
`fat12_delete` over the pure vdisk returns success, the write batch has
been flushed and the FAT #1 sector range (LBA 1-9) and the FAT #2
sector range (LBA 10-18) of the resulting disk hold the same bytes,
provided they agreed (through any pending batched sectors) beforehand. -/
theorem C4_fat_copies_identical :
    (∀ (writer : Fat12Writer) (d : Disk) (w' : Fat12Writer) (d' : Disk),
      (∀ e ∈ writer.batch.entries, e.1 < 2880) →
      fatMirror d writer.batch.entries →
      fat12_close_write c6Fat12 vdiskIo writer d = .ok (w', d') →
      w'.batch.entries = [] ∧ ∀ k, k < 9 → ∀ b, d' (1 + k) b = d' (10 + k) b) ∧
    (∀ (d : Disk) (filename : List Nat) (chainFuel : Nat) (d' : Disk),
      (∀ k, k < 9 → ∀ b, d (1 + k) b = d (10 + k) b) →
      fat12_delete c6Fat12 vdiskIo d filename chainFuel = (.ok (), d') →
      ∀ k, k < 9 → ∀ b, d' (1 + k) b = d' (10 + k) b) := by
  constructor
  · intro writer d w' d' hall hm h
    exact close_write_mirror writer d w' d' hall hm h
  · intro d filename chainFuel d' hm h
    simp only [fat12_delete] at h
    exact delete_loop_mirror _ _ chainFuel _ 0 d d' hm h

/-- A concrete writer for the C4 witness: directory slot 0, file `B`,
empty batch. -/
def c4Writer : Fat12Writer :=
  { dirent_index := 0
    dirent := { name := 66 :: List.replicate 7 32
                ext := List.replicate 3 32
                attr := 32
                reserved := List.replicate 10 0 } }

/-- The result of closing `c4Writer` on the C6 disk. -/
def c4CloseRes : Fat12Writer × Disk :=
  (fat12_close_write c6Fat12 vdiskIo c4Writer c6Disk).toOption.getD ({}, c6Disk)

/-- The result of deleting file `B` from the C6 disk. -/
def c4DelRes : Except Fat12Err Unit × Disk :=
  fat12_delete c6Fat12 vdiskIo c6Disk [66] 64

/-- Witness for C4: closing a concrete writer and deleting file `B` on
the concrete C6 disk both succeed and leave both FAT copies
byte-identical. -/
theorem C4_fat_copies_identical_witness :
    ((c4CloseRes.1).batch.entries = [] ∧
      ∀ k, k < 9 → ∀ b, c4CloseRes.2 (1 + k) b = c4CloseRes.2 (10 + k) b) ∧
    ∀ k, k < 9 → ∀ b, c4DelRes.2 (1 + k) b = c4DelRes.2 (10 + k) b := by
  constructor
  · refine C4_fat_copies_identical.1 c4Writer c6Disk c4CloseRes.1 c4CloseRes.2 ?_ ?_ ?_
    · intro e he
      exact absurd he (List.not_mem_nil e)
    · intro k hk b
      show effB c6Disk [] (1 + k) b = effB c6Disk [] (10 + k) b
      rw [effB_nil, effB_nil]
      interval_cases k <;> rfl
    · rfl
  · refine C4_fat_copies_identical.2 c6Disk [66] 64 c4DelRes.2 ?_ ?_
    · intro k hk b
      interval_cases k <;> rfl
    · rfl
